import Mathlib

/-!
# Camera calibration engine: a shallow embedding of `CalibrationEngine.cpp`

Numbers of C++ type `float` and `double` are values of an arbitrary linearly
ordered field `F` (exact arithmetic; `ℚ` is used to evaluate the definitions).
OpenCV is not part of the repository: every OpenCV call is a field of the
structure `Cv`, so each theorem quantifies over what the library does.
-/

namespace Camera

/-- The OpenCV type cv::Size: two C ints. -/
structure Size where
  width : Int
  height : Int
deriving DecidableEq, Repr

/-- The OpenCV type cv::Point2f. -/
structure Point2f (F : Type) where
  x : F
  y : F
deriving DecidableEq, Repr

/-- The OpenCV type cv::Point3f. -/
structure Point3f (F : Type) where
  x : F
  y : F
  z : F
deriving DecidableEq, Repr

/-- The two nested loops of `CalibrationEngine::generateObjectPoints`: the outer
loop runs `i` over `0 .. height-1`, the inner loop runs `j` over
`0 .. width-1`, and each step appends `(j * square_size, i * square_size, 0.0f)`
to `points`.  A loop whose bound is not positive does not run. -/
def objectPointGrid {F : Type} [LinearOrderedField F]
    (pattern_size : Size) (square_size : F) : List (Point3f F) :=
  (List.range pattern_size.height.toNat).foldl
    (fun points (i : Nat) =>
      (List.range pattern_size.width.toNat).foldl
        (fun points (j : Nat) =>
          points ++ [Point3f.mk ((j : F) * square_size) ((i : F) * square_size) 0])
        points)
    []

/-- The OpenCV type cv::Mat holding numbers: its dimensions and its entries row
by row.  A default-constructed cv::Mat is `Mat.empty`. -/
structure Mat (F : Type) where
  rows : Nat
  cols : Nat
  data : List F
deriving DecidableEq, Repr

/-- The default-constructed `cv::Mat()`. -/
def Mat.empty {F : Type} : Mat F := Mat.mk 0 0 []

/-- The OpenCV call `cv::Mat::eye(rows, cols, CV_64F)`. -/
def Mat.eye {F : Type} [LinearOrderedField F] (rows cols : Nat) : Mat F :=
  Mat.mk rows cols
    ((List.range rows).map (fun (i : Nat) =>
      (List.range cols).map (fun (j : Nat) => if i = j then (1 : F) else 0))).flatten

/-- The OpenCV call `cv::Mat::zeros(rows, cols, CV_64F)`. -/
def Mat.zeros {F : Type} [LinearOrderedField F] (rows cols : Nat) : Mat F :=
  Mat.mk rows cols (List.replicate (rows * cols) 0)

/-- An image held in a cv::Mat: only its shape matters to the engine, the pixel
payload is passed on to OpenCV. -/
structure Image where
  rows : Nat
  cols : Nat
  chans : Nat
  data : List Nat
deriving DecidableEq, Repr

/-- The OpenCV call `image.empty()`: no element. -/
def Image.empty (image : Image) : Bool :=
  decide (image.rows = 0 ∨ image.cols = 0)

/-- The OpenCV call `image.size()`: `Size(cols, rows)`. -/
def Image.size (image : Image) : Size :=
  Size.mk (image.cols : Int) (image.rows : Int)

/-- The OpenCV type cv::TermCriteria. -/
structure TermCriteria (F : Type) where
  type : Nat
  maxCount : Int
  epsilon : F
deriving DecidableEq, Repr

/-- The struct `CalibrationEngine::CalibrationResult` of `CalibrationEngine.h`. -/
structure CalibrationResult (F : Type) where
  camera_matrix : Mat F
  distortion_coeffs : Mat F
  rvecs : List (Mat F)
  tvecs : List (Mat F)
  reprojection_error : F
  image_size : Size
  pattern_size : Size
  square_size : F
deriving DecidableEq, Repr

/-- The struct `CalibrationEngine::CalibrationFlags` of `CalibrationEngine.h`, with its
default member initialisers. -/
structure CalibrationFlags where
  fix_principal_point : Bool := false
  zero_tangent_dist : Bool := true
  fix_aspect_ratio : Bool := false
  rational_model : Bool := false
  thin_prism_model : Bool := false
  fix_k1 : Bool := false
  fix_k2 : Bool := false
  fix_k3 : Bool := false
  fix_k4 : Bool := false
  fix_k5 : Bool := false
  fix_k6 : Bool := false
deriving DecidableEq, Repr

/-- The private members of `CalibrationEngine`. -/
structure CalibrationEngine (F : Type) where
  result_ : CalibrationResult F
  image_points_ : List (List (Point2f F))
  object_points_ : List (List (Point3f F))
  image_size_ : Size
  calibrated_ : Bool
  calibration_in_progress_ : Bool
deriving DecidableEq, Repr

/-- Why a call did not return a value. -/
inductive Fault where
  | outOfRange
  | cvException
  | lengthError
deriving DecidableEq, Repr

/-- A call either returns a value or leaves through a fault: `outOfRange` is
`operator[]` of a std::vector past its end (undefined behaviour in C++),
`cvException` is a cv::Exception that the engine does not catch, `lengthError`
is the std::length_error of a std::vector asked for more than `max_size()`
elements. -/
inductive Outcome (α : Type) where
  | returned (a : α)
  | fault (what : Fault)
deriving DecidableEq, Repr

/-- The value of an `int` expression whose mathematical result is `x`: `x`
itself when it fits 32 bits, and otherwise the two's-complement wrap that the
usual targets produce (signed overflow is undefined behaviour in C++). -/
def wrapInt32 (x : Int) : Int :=
  (x + 2147483648) % 4294967296 - 2147483648

/-- The function `CalibrationEngine::generateObjectPoints`.  The argument of
`points.reserve(pattern_size.width * pattern_size.height)` is an `int` product
that `reserve` takes as an unsigned `size_type`: a negative product is a count
above `max_size()`, and `reserve` throws std::length_error before any point is
made; otherwise `reserve` changes the capacity only and the loops fill the
vector. -/
def generateObjectPoints {F : Type} [LinearOrderedField F]
    (pattern_size : Size) (square_size : F) : Outcome (List (Point3f F)) :=
  if wrapInt32 (pattern_size.width * pattern_size.height) < 0 then
    Outcome.fault Fault.lengthError
  else Outcome.returned (objectPointGrid pattern_size square_size)

/-- What `cv::calibrateCamera` did with the arguments it was handed by
reference: it either returns the RMS error with the solved camera matrix,
distortion coefficients, rotations and translations written to them, or it
throws a cv::Exception, and then they hold whatever it had written so far. -/
inductive SolveOutcome (F : Type) where
  | solved (rms : F) (camera_matrix distortion_coeffs : Mat F) (rvecs tvecs : List (Mat F))
  | threw (camera_matrix distortion_coeffs : Mat F) (rvecs tvecs : List (Mat F))
deriving DecidableEq, Repr

/-- One node of a cv::FileStorage record. -/
inductive Node (F : Type) where
  | mat (m : Mat F)
  | real (x : F)
  | int (n : Int)
deriving DecidableEq, Repr

/-- The top-level map of a cv::FileStorage: keys with their nodes, in the order
they were written. -/
abbrev Record (F : Type) := List (String × Node F)

/-- The OpenCV functions the engine calls.  `projectPoint` is what
`cv::projectPoints` does to one object point; `matOfNode`, `realOfNode` and
`intOfNode` are the conversions of a FileNode whose kind is not the one read. -/
structure Cv (F : Type) where
  cvtColorBGR2GRAY : Image → Image
  findChessboardCorners : Image → Size → Nat → Bool × List (Point2f F)
  cornerSubPix : Image → List (Point2f F) → Size → Size → TermCriteria F → List (Point2f F)
  calibrateCamera : List (List (Point3f F)) → List (List (Point2f F)) → Size →
    Mat F → Mat F → List (Mat F) → List (Mat F) → Nat → TermCriteria F → SolveOutcome F
  projectPoint : Mat F → Mat F → Mat F → Mat F → Point3f F → Point2f F
  sqrt : F → F
  matOfNode : Node F → Outcome (Mat F)
  realOfNode : Node F → F
  intOfNode : Node F → Int

/-- The constructor `CalibrationEngine::CalibrationEngine()`: `result_` is
default-initialised, so its `reprojection_error` and `square_size` hold
indeterminate values (the two arguments); then the camera matrix and the
distortion coefficients are set. -/
def CalibrationEngine.construct {F : Type} [LinearOrderedField F]
    (reprojection_error square_size : F) : CalibrationEngine F :=
  { result_ :=
      { camera_matrix := Mat.eye 3 3
        distortion_coeffs := Mat.zeros 8 1
        rvecs := []
        tvecs := []
        reprojection_error := reprojection_error
        image_size := Size.mk 0 0
        pattern_size := Size.mk 0 0
        square_size := square_size }
    image_points_ := []
    object_points_ := []
    image_size_ := Size.mk 0 0
    calibrated_ := false
    calibration_in_progress_ := false }

/-- The accessor `getNumCalibrationImages()`. -/
def CalibrationEngine.getNumCalibrationImages {F : Type} (st : CalibrationEngine F) : Nat :=
  st.image_points_.length

/-- The accessor `isCalibrated()`. -/
def CalibrationEngine.isCalibrated {F : Type} (st : CalibrationEngine F) : Bool :=
  st.calibrated_

/-- The accessor `getResult()`. -/
def CalibrationEngine.getResult {F : Type} (st : CalibrationEngine F) : CalibrationResult F :=
  st.result_

/-- The grayscale image both `addCalibrationImage` and `findChessboardCorners`
build: converted when the image has 3 channels, a clone otherwise. -/
def toGray {F : Type} (cv : Cv F) (image : Image) : Image :=
  if image.chans = 3 then cv.cvtColorBGR2GRAY image else image

/-- The private `CalibrationEngine::findChessboardCorners`; the flags are
`CALIB_CB_ADAPTIVE_THRESH + CALIB_CB_NORMALIZE_IMAGE + CALIB_CB_FAST_CHECK`. -/
def findChessboardCorners {F : Type} (cv : Cv F) (image : Image) (pattern_size : Size) :
    Bool × List (Point2f F) :=
  cv.findChessboardCorners (toGray cv image) pattern_size (1 + 2 + 8)

/-- The function `CalibrationEngine::addCalibrationImage`: the returned flag and the engine
after the call.  The view it stores is the grid that `generateObjectPoints`
returns; the std::length_error of that call needs a detected pattern of more
than 2^31 - 1 corners, and the engine after such a throw is not described
here. -/
def addCalibrationImage {F : Type} [LinearOrderedField F] (cv : Cv F)
    (image : Image) (pattern_size : Size) (square_size_mm : F)
    (st : CalibrationEngine F) : Bool × CalibrationEngine F :=
  if image.empty then (false, st)
  else
    let found := findChessboardCorners cv image pattern_size
    if found.1 then
      let gray := toGray cv image
      let corners := cv.cornerSubPix gray found.2 (Size.mk 11 11) (Size.mk (-1) (-1))
        (TermCriteria.mk (2 + 1) 30 (1 / 10))
      let st1 : CalibrationEngine F :=
        { st with
          image_points_ := st.image_points_ ++ [corners]
          object_points_ :=
            st.object_points_ ++ [objectPointGrid pattern_size square_size_mm] }
      let st2 : CalibrationEngine F :=
        if st1.image_size_.width = 0 then
          { st1 with
            image_size_ := image.size
            result_ := { st1.result_ with image_size := image.size } }
        else st1
      (true,
        { st2 with
          result_ :=
            { st2.result_ with pattern_size := pattern_size, square_size := square_size_mm } })
    else (false, st)

/-- The `calib_flags` word `calibrate` builds from the flag set, with OpenCV's
values of the `cv::CALIB_*` constants. -/
def calibFlags (flags : CalibrationFlags) : Nat :=
  let calib_flags := 0
  let calib_flags := if flags.fix_principal_point then calib_flags ||| 0x00004 else calib_flags
  let calib_flags := if flags.zero_tangent_dist then calib_flags ||| 0x00008 else calib_flags
  let calib_flags := if flags.fix_aspect_ratio then calib_flags ||| 0x00002 else calib_flags
  let calib_flags := if flags.rational_model then calib_flags ||| 0x04000 else calib_flags
  let calib_flags := if flags.thin_prism_model then calib_flags ||| 0x08000 else calib_flags
  let calib_flags := if flags.fix_k1 then calib_flags ||| 0x00020 else calib_flags
  let calib_flags := if flags.fix_k2 then calib_flags ||| 0x00040 else calib_flags
  let calib_flags := if flags.fix_k3 then calib_flags ||| 0x00080 else calib_flags
  let calib_flags := if flags.fix_k4 then calib_flags ||| 0x00800 else calib_flags
  let calib_flags := if flags.fix_k5 then calib_flags ||| 0x01000 else calib_flags
  let calib_flags := if flags.fix_k6 then calib_flags ||| 0x02000 else calib_flags
  calib_flags

/-- The call of `cv::calibrateCamera` that `calibrate` makes on an engine: the
stored views, the session image size, the four members of `result_` handed
over by reference, the flag word, and the criteria
`TermCriteria(COUNT + EPS, 30, DBL_EPSILON)`. -/
def solverCall {F : Type} [LinearOrderedField F] (cv : Cv F) (flags : CalibrationFlags)
    (st : CalibrationEngine F) : SolveOutcome F :=
  cv.calibrateCamera st.object_points_ st.image_points_ st.image_size_
    st.result_.camera_matrix st.result_.distortion_coeffs
    st.result_.rvecs st.result_.tvecs (calibFlags flags)
    (TermCriteria.mk (1 + 2) 30 ((1 / 2) ^ 52))

/-- The function `CalibrationEngine::calibrate`: the returned flag and the engine after the
call.  The members `camera_matrix`, `distortion_coeffs`, `rvecs` and `tvecs` of
`result_` are handed to `cv::calibrateCamera` by reference, so they hold what
the solver wrote whether it returned or threw; `reprojection_error` is
assigned only from a returned value. -/
def calibrate {F : Type} [LinearOrderedField F] (cv : Cv F) (flags : CalibrationFlags)
    (st : CalibrationEngine F) : Bool × CalibrationEngine F :=
  if st.image_points_.length < 5 then (false, st)
  else
    let st1 : CalibrationEngine F := { st with calibration_in_progress_ := true }
    match solverCall cv flags st1 with
    | SolveOutcome.solved rms camera_matrix distortion_coeffs rvecs tvecs =>
      (true,
        { st1 with
          result_ :=
            { st1.result_ with
              camera_matrix := camera_matrix
              distortion_coeffs := distortion_coeffs
              rvecs := rvecs
              tvecs := tvecs
              reprojection_error := rms }
          calibrated_ := true
          calibration_in_progress_ := false })
    | SolveOutcome.threw camera_matrix distortion_coeffs rvecs tvecs =>
      (false,
        { st1 with
          result_ :=
            { st1.result_ with
              camera_matrix := camera_matrix
              distortion_coeffs := distortion_coeffs
              rvecs := rvecs
              tvecs := tvecs }
          calibration_in_progress_ := false })

/-- The squared Euclidean distance between two image points. -/
def sqDist {F : Type} [LinearOrderedField F] (a b : Point2f F) : F :=
  (a.x - b.x) * (a.x - b.x) + (a.y - b.y) * (a.y - b.y)

/-- The OpenCV call `cv::norm(a, b, cv::NORM_L2)` on two point vectors: the
square root of the sum of the squared coordinate differences; OpenCV throws
when the two arrays differ in size. -/
def normL2 {F : Type} [LinearOrderedField F] (cv : Cv F) (a b : List (Point2f F)) :
    Outcome F :=
  if a.length = b.length then
    Outcome.returned (cv.sqrt ((List.zipWith sqDist a b).sum))
  else Outcome.fault Fault.cvException

/-- The OpenCV call `cv::projectPoints`: every object point is projected. -/
def projectPoints {F : Type} (cv : Cv F) (object_points : List (Point3f F))
    (rvec tvec camera_matrix distortion_coeffs : Mat F) : List (Point2f F) :=
  object_points.map (cv.projectPoint rvec tvec camera_matrix distortion_coeffs)

/-- The loop of `computeReprojectionError` over the view indices still to
visit, carrying `total_error` and `total_points`. -/
def reprojectionLoop {F : Type} [LinearOrderedField F] (cv : Cv F)
    (st : CalibrationEngine F) : List Nat → F × Nat → Outcome (F × Nat)
  | [], acc => Outcome.returned acc
  | i :: rest, (total_error, total_points) =>
    match st.object_points_[i]?, st.result_.rvecs[i]?, st.result_.tvecs[i]?,
        st.image_points_[i]? with
    | some object_points, some rvec, some tvec, some image_points =>
      let projected_points := projectPoints cv object_points rvec tvec
        st.result_.camera_matrix st.result_.distortion_coeffs
      match normL2 cv image_points projected_points with
      | Outcome.returned error =>
        reprojectionLoop cv st rest
          (total_error + error * error, total_points + object_points.length)
      | Outcome.fault what => Outcome.fault what
    | _, _, _, _ => Outcome.fault Fault.outOfRange

/-- The function `CalibrationEngine::computeReprojectionError`: what the call returns and the
engine after the call (the function assigns no member). -/
def computeReprojectionError {F : Type} [LinearOrderedField F] (cv : Cv F)
    (st : CalibrationEngine F) : Outcome F × CalibrationEngine F :=
  if !st.calibrated_ then (Outcome.returned (-1), st)
  else
    match reprojectionLoop cv st (List.range st.object_points_.length) (0, 0) with
    | Outcome.returned (total_error, total_points) =>
      (Outcome.returned (cv.sqrt (total_error / (total_points : F))), st)
    | Outcome.fault what => (Outcome.fault what, st)

/-- The function `CalibrationEngine::clearCalibrationData`: `CalibrationResult()` is
value-initialised, which zeroes its scalar members. -/
def clearCalibrationData {F : Type} [LinearOrderedField F] (st : CalibrationEngine F) :
    CalibrationEngine F :=
  { st with
    image_points_ := []
    object_points_ := []
    result_ :=
      { camera_matrix := Mat.eye 3 3
        distortion_coeffs := Mat.zeros 8 1
        rvecs := []
        tvecs := []
        reprojection_error := 0
        image_size := Size.mk 0 0
        pattern_size := Size.mk 0 0
        square_size := 0 }
    calibrated_ := false
    image_size_ := Size.mk 0 0 }

/-- The function `CalibrationEngine::saveCalibration`: the returned flag and the record
written (`none` when nothing is written).  `canOpen` says whether the
FileStorage opens the file for writing. -/
def saveCalibration {F : Type} (canOpen : Bool) (st : CalibrationEngine F) :
    Bool × Option (Record F) :=
  if !st.calibrated_ then (false, none)
  else if !canOpen then (false, none)
  else
    (true, some
      [ ("camera_matrix", Node.mat st.result_.camera_matrix),
        ("distortion_coefficients", Node.mat st.result_.distortion_coeffs),
        ("reprojection_error", Node.real st.result_.reprojection_error),
        ("image_width", Node.int st.result_.image_size.width),
        ("image_height", Node.int st.result_.image_size.height) ])

/-- The read `fs[key] >> m` of a cv::Mat: an absent node gives the default
`cv::Mat()`. -/
def readMat {F : Type} (cv : Cv F) (fs : Record F) (key : String) : Outcome (Mat F) :=
  match fs.lookup key with
  | none => Outcome.returned Mat.empty
  | some (Node.mat m) => Outcome.returned m
  | some node => cv.matOfNode node

/-- The read `fs[key] >> x` of a double: an absent node gives `0.0`. -/
def readReal {F : Type} [LinearOrderedField F] (cv : Cv F) (fs : Record F) (key : String) : F :=
  match fs.lookup key with
  | none => 0
  | some (Node.real x) => x
  | some node => cv.realOfNode node

/-- The read `fs[key] >> n` of an int: an absent node gives `0`. -/
def readInt {F : Type} (cv : Cv F) (fs : Record F) (key : String) : Int :=
  match fs.lookup key with
  | none => 0
  | some (Node.int n) => n
  | some node => cv.intOfNode node

/-- The function `CalibrationEngine::loadCalibration`: what the call returns and the engine
after the call.  `file` is `none` when the FileStorage does not open. -/
def loadCalibration {F : Type} [LinearOrderedField F] (cv : Cv F)
    (file : Option (Record F)) (st : CalibrationEngine F) :
    Outcome Bool × CalibrationEngine F :=
  match file with
  | none => (Outcome.returned false, st)
  | some fs =>
    match readMat cv fs "camera_matrix" with
    | Outcome.fault what => (Outcome.fault what, st)
    | Outcome.returned camera_matrix =>
      let st1 : CalibrationEngine F :=
        { st with result_ := { st.result_ with camera_matrix := camera_matrix } }
      match readMat cv fs "distortion_coefficients" with
      | Outcome.fault what => (Outcome.fault what, st1)
      | Outcome.returned distortion_coeffs =>
        let width := readInt cv fs "image_width"
        let height := readInt cv fs "image_height"
        (Outcome.returned true,
          { st1 with
            result_ :=
              { st1.result_ with
                distortion_coeffs := distortion_coeffs
                reprojection_error := readReal cv fs "reprojection_error"
                image_size := Size.mk width height }
            calibrated_ := true })


/-! ## A concrete library behaviour and concrete engines, to evaluate the model -/

/-- The image-plane part of an object point. -/
def dropZ {F : Type} (p : Point3f F) : Point2f F := Point2f.mk p.x p.y

/-- A library behaviour over `ℚ`.  The detector finds the pattern in an image
whose first sample is 255 and reports the grid positions as corners; the solver
creates one rotation and one translation per view before it solves (as
`cv::calibrateCamera` does) and throws when a view has fewer than 4 points;
projection drops the third coordinate. -/
def sampleCv : Cv ℚ :=
  { cvtColorBGR2GRAY := fun image => { image with chans := 1 }
    findChessboardCorners := fun image pattern_size _ =>
      (decide (image.data.head? = some 255),
        (objectPointGrid pattern_size (1 : ℚ)).map dropZ)
    cornerSubPix := fun _ corners _ _ _ => corners
    calibrateCamera := fun object_points _ _ camera_matrix distortion_coeffs _ _ _ _ =>
      if object_points.all (fun view => decide (4 ≤ view.length)) then
        SolveOutcome.solved 0 camera_matrix distortion_coeffs
          (object_points.map (fun _ => Mat.zeros 3 1))
          (object_points.map (fun _ => Mat.zeros 3 1))
      else
        SolveOutcome.threw camera_matrix distortion_coeffs
          (object_points.map (fun _ => Mat.empty))
          (object_points.map (fun _ => Mat.empty))
    projectPoint := fun _ _ _ _ p => dropZ p
    sqrt := Rat.sqrt
    matOfNode := fun _ => Outcome.fault Fault.cvException
    realOfNode := fun _ => 0
    intOfNode := fun _ => 0 }

/-- A 640x480 one-channel image in which `sampleCv` finds the pattern. -/
def boardVGA : Image := Image.mk 480 640 1 [255]

/-- A 320x240 one-channel image in which `sampleCv` finds the pattern. -/
def boardQVGA : Image := Image.mk 240 320 1 [255]

/-- A 640x480 one-channel image in which `sampleCv` finds no pattern. -/
def blankVGA : Image := Image.mk 480 640 1 [0]

/-- An image without rows. -/
def noImage : Image := Image.mk 0 0 1 []

/-- A freshly constructed engine over `ℚ`. -/
def freshEngine : CalibrationEngine ℚ := CalibrationEngine.construct 0 0

/-- The engine after one accepted 640x480 view of a 3x2 pattern. -/
def oneViewEngine : CalibrationEngine ℚ :=
  (addCalibrationImage sampleCv boardVGA (Size.mk 3 2) 25 freshEngine).2

/-- An engine holding five views of a single point each, with a previously
held result without rotations and translations. -/
def thinViewsEngine : CalibrationEngine ℚ :=
  { freshEngine with
    image_points_ := List.replicate 5 [Point2f.mk 0 0]
    object_points_ := List.replicate 5 [Point3f.mk 0 0 0]
    image_size_ := Size.mk 640 480 }

/-- A calibrated engine: camera matrix `diag(500, 500, 1)` with principal point
`(320, 240)`, five distortion coefficients, RMS error `1/4`, image 640x480. -/
def solvedEngine : CalibrationEngine ℚ :=
  { freshEngine with
    result_ :=
      { camera_matrix := Mat.mk 3 3 [500, 0, 320, 0, 500, 240, 0, 0, 1]
        distortion_coeffs := Mat.mk 5 1 [1 / 10, -1 / 20, 0, 0, 1 / 100]
        rvecs := []
        tvecs := []
        reprojection_error := 1 / 4
        image_size := Size.mk 640 480
        pattern_size := Size.mk 9 6
        square_size := 25 }
    image_size_ := Size.mk 640 480
    calibrated_ := true }

/-- The record `saveCalibration` writes for `solvedEngine`. -/
def savedRecord : Option (Record ℚ) := (saveCalibration true solvedEngine).2

/-- The engine after one accepted view followed by a successful
`loadCalibration` of `savedRecord`. -/
def loadedOneViewEngine : CalibrationEngine ℚ :=
  (loadCalibration sampleCv savedRecord oneViewEngine).2

/-- A calibrated engine with one view of two points and one rotation and one
translation; the first observation lies `(3, 4)` away from its projection. -/
def posedEngine : CalibrationEngine ℚ :=
  { solvedEngine with
    image_points_ := [[Point2f.mk 3 4, Point2f.mk 25 0]]
    object_points_ := [[Point3f.mk 0 0 0, Point3f.mk 25 0 0]]
    result_ :=
      { solvedEngine.result_ with
        rvecs := [Mat.zeros 3 1]
        tvecs := [Mat.zeros 3 1] } }

/-! ## The reprojection error in the words of the specification -/

/-- The sum, over the points of stored view `i`, of the squared Euclidean
distance between the stored observation and the projection of the paired
object point through the rotation and translation of view `i` and the shared
camera matrix and distortion coefficients. -/
def viewSquaredError {F : Type} [LinearOrderedField F] (cv : Cv F)
    (st : CalibrationEngine F) (i : Nat) : F :=
  (List.zipWith
    (fun observed object_point =>
      sqDist observed
        (cv.projectPoint (st.result_.rvecs.getD i Mat.empty) (st.result_.tvecs.getD i Mat.empty)
          st.result_.camera_matrix st.result_.distortion_coeffs object_point))
    (st.image_points_.getD i []) (st.object_points_.getD i [])).sum

/-- The sum `S` of the squared distances over every stored view. -/
def totalSquaredError {F : Type} [LinearOrderedField F] (cv : Cv F)
    (st : CalibrationEngine F) : F :=
  ((List.range st.object_points_.length).map (viewSquaredError cv st)).sum

/-- The number `N` of points of all stored views. -/
def totalPoints {F : Type} (st : CalibrationEngine F) : Nat :=
  ((List.range st.object_points_.length).map
    (fun i => (st.object_points_.getD i []).length)).sum

/-! ## The ISP pipeline: a shallow embedding of `ISPPipeline.cpp`

Pixel buffers hold integer samples; the float images that a stage builds on
the way are lists of values of `F`.  The functions of OpenCV and of the C
library that compute pixels by an algorithm of their own (Bayer
interpolation, undistortion, non-local-means denoising, Gaussian blur, `pow`)
are fields of the structure `Imgproc`; the element-wise functions (`split`,
`merge`, `convertTo`, `mean`, `normalize`, `LUT`, `addWeighted`) are defined
here from their documentation. -/

/-- A cv::Mat of integer samples.  The field `depth` is OpenCV's depth code
(0 is CV_8U, 1 is CV_8S, 2 is CV_16U, 3 is CV_16S, 4 is CV_32S); `data` lists
the pixels row by row, each pixel with its `chans` samples. -/
structure PixelBuffer where
  rows : Nat
  cols : Nat
  chans : Nat
  depth : Nat
  data : List (List Int)
deriving DecidableEq, Repr

/-- The default-constructed `cv::Mat()`. -/
def PixelBuffer.blank : PixelBuffer := PixelBuffer.mk 0 0 1 0 []

/-- The OpenCV call `m.empty()`: no element. -/
def PixelBuffer.empty (b : PixelBuffer) : Bool :=
  decide (b.rows = 0 ∨ b.cols = 0)

/-- The smallest sample of a depth. -/
def depthMin (depth : Nat) : Int :=
  match depth with
  | 0 => 0
  | 1 => -128
  | 2 => 0
  | 3 => -32768
  | _ => -2147483648

/-- The largest sample of a depth. -/
def depthMax (depth : Nat) : Int :=
  match depth with
  | 0 => 255
  | 1 => 127
  | 2 => 65535
  | 3 => 32767
  | _ => 2147483647

/-- A buffer is well formed when it has `rows * cols` pixels of `chans` samples
each, at least one channel, and every sample within the range of its depth. -/
def PixelBuffer.wellFormed (b : PixelBuffer) : Prop :=
  0 < b.chans ∧ b.data.length = b.rows * b.cols ∧
  ∀ px ∈ b.data, px.length = b.chans ∧
    ∀ v ∈ px, depthMin b.depth ≤ v ∧ v ≤ depthMax b.depth

/-- The OpenCV function `cvRound`: the nearest integer, a tie going to the even
one. -/
def cvRound {F : Type} [LinearOrderedField F] [FloorRing F] (x : F) : Int :=
  if x - (⌊x⌋ : F) < 1 / 2 then ⌊x⌋
  else if 1 / 2 < x - (⌊x⌋ : F) then ⌊x⌋ + 1
  else if ⌊x⌋ % 2 = 0 then ⌊x⌋ else ⌊x⌋ + 1

/-- The OpenCV function `saturate_cast` from an integer to a depth. -/
def saturate (depth : Nat) (v : Int) : Int :=
  max (depthMin depth) (min (depthMax depth) v)

/-- The OpenCV function `saturate_cast` from a float to a depth: rounded, then
saturated. -/
def saturateCast {F : Type} [LinearOrderedField F] [FloorRing F] (depth : Nat) (x : F) : Int :=
  saturate depth (cvRound x)

/-- The enum `ISPParameters::DemosaicMethod`. -/
inductive DemosaicMethod where
  | BILINEAR
  | VNG
  | AHD
deriving DecidableEq, Repr

/-- The three OpenCV colour conversion codes that `demosaicBayer` uses. -/
inductive ColorCode where
  | COLOR_BayerBG2BGR
  | COLOR_BayerBG2BGR_VNG
  | COLOR_BayerBG2BGR_EA
deriving DecidableEq, Repr

/-- The OpenCV type cv::Matx33f: `val0 .. val8` are `val[0] .. val[8]`, row by
row. -/
structure Matx33f (F : Type) where
  val0 : F
  val1 : F
  val2 : F
  val3 : F
  val4 : F
  val5 : F
  val6 : F
  val7 : F
  val8 : F
deriving DecidableEq, Repr

/-- The OpenCV call `cv::Matx33f::eye()`. -/
def Matx33f.eye {F : Type} [LinearOrderedField F] : Matx33f F :=
  Matx33f.mk 1 0 0 0 1 0 0 0 1

/-- The product of a cv::Matx33f and a cv::Vec3f. -/
def Matx33f.mulVec {F : Type} [LinearOrderedField F] (m : Matx33f F) (p : F × F × F) :
    F × F × F :=
  (m.val0 * p.1 + m.val1 * p.2.1 + m.val2 * p.2.2,
    m.val3 * p.1 + m.val4 * p.2.1 + m.val5 * p.2.2,
    m.val6 * p.1 + m.val7 * p.2.1 + m.val8 * p.2.2)

/-- The OpenCV call `m.empty()` on a matrix of numbers. -/
def Mat.isEmpty {F : Type} (m : Mat F) : Bool :=
  decide (m.rows = 0 ∨ m.cols = 0)

/-- The struct `ISPPipeline::ISPParameters` of `ISPPipeline.h`. -/
structure ISPParameters (F : Type) where
  demosaic_method : DemosaicMethod
  wb_red : F
  wb_green : F
  wb_blue : F
  auto_wb : Bool
  color_matrix : Matx33f F
  gamma : F
  gamma_lut : PixelBuffer
  exposure : F
  contrast : F
  brightness : F
  denoise_enabled : Bool
  denoise_strength : F
  sharpen_enabled : Bool
  sharpen_strength : F
  distortion_coeffs : Mat F
  camera_matrix : Mat F
  lens_correction : Bool
deriving DecidableEq, Repr

/-- A default-constructed `ISPParameters`, with the default member initialisers
of `ISPPipeline.h`. -/
def ISPParameters.defaults {F : Type} [LinearOrderedField F] : ISPParameters F :=
  { demosaic_method := DemosaicMethod.VNG
    wb_red := 1
    wb_green := 1
    wb_blue := 1
    auto_wb := true
    color_matrix := Matx33f.eye
    gamma := 22 / 10
    gamma_lut := PixelBuffer.blank
    exposure := 1
    contrast := 1
    brightness := 0
    denoise_enabled := true
    denoise_strength := 1
    sharpen_enabled := true
    sharpen_strength := 1 / 2
    distortion_coeffs := Mat.empty
    camera_matrix := Mat.empty
    lens_correction := false }

/-- The members of `ISPPipeline` that its functions read or write (`clahe_`
and `bayer_patterns_` are used by none of them). -/
structure ISPPipeline (F : Type) where
  params_ : ISPParameters F
deriving DecidableEq, Repr

/-- The OpenCV type cv::Scalar. -/
structure Scalar (F : Type) where
  val0 : F
  val1 : F
  val2 : F
  val3 : F
deriving DecidableEq, Repr

/-- The library functions the pipeline calls that compute pixels by an
algorithm of their own.  The field `scalePlusScalar a alpha s` is the matrix
expression `a * alpha + s` of a floating-point matrix `a` (its pixels, each a
list of channel values), a number `alpha` and a cv::Scalar `s`, as the library
evaluates it when the expression is assigned to a matrix; the result has the
size and the channels of `a`, or the evaluation throws. -/
structure Imgproc (F : Type) where
  pow : F → F → F
  cvtColor : ColorCode → PixelBuffer → PixelBuffer
  undistort : PixelBuffer → Mat F → Mat F → PixelBuffer
  fastNlMeansDenoisingColored : PixelBuffer → F → F → Int → Int → PixelBuffer
  GaussianBlur : PixelBuffer → Size → F → PixelBuffer
  scalePlusScalar : List (List F) → F → Scalar F → Outcome (List (List F))

/-- The result of one pipeline stage: the buffer it leaves in `rgb` (or the
fault it ends in) and the parameters after it. -/
abbrev StageResult (F : Type) := Outcome PixelBuffer × ISPParameters F

/-- A pipeline stage: from the parameters and the buffer to a stage result. -/
abbrev Stage (F : Type) := ISPParameters F → PixelBuffer → StageResult F

/-- Run the next stage on what the previous one left, unless that one ended
in a fault. -/
def thenStage {F : Type} (r : StageResult F) (stage : Stage F) : StageResult F :=
  match r.1 with
  | Outcome.returned rgb => stage r.2 rgb
  | Outcome.fault what => (Outcome.fault what, r.2)

/-- The OpenCV call `cv::split`: one plane per channel. -/
def split (rgb : PixelBuffer) : List (List Int) :=
  (List.range rgb.chans).map (fun c => rgb.data.map (fun px => px.getD c 0))

/-- The OpenCV call `cv::merge`: the pixels of the interleaved planes. -/
def merge (channels : List (List Int)) : List (List Int) :=
  (List.range ((channels.head?.map List.length).getD 0)).map
    (fun k => channels.map (fun plane => plane.getD k 0))

/-- The mean of the samples of channel `c`, and 0 for a channel the buffer does
not have. -/
def channelMean {F : Type} [LinearOrderedField F] (rgb : PixelBuffer) (c : Nat) : F :=
  if c < rgb.chans then
    (((rgb.data.map (fun px => px.getD c 0)).sum : Int) : F) / (rgb.data.length : F)
  else 0

/-- The OpenCV call `cv::mean`; it throws on more than 4 channels. -/
def cvMean {F : Type} [LinearOrderedField F] (rgb : PixelBuffer) : Outcome (Scalar F) :=
  if 4 < rgb.chans then Outcome.fault Fault.cvException
  else
    Outcome.returned
      (Scalar.mk (channelMean rgb 0) (channelMean rgb 1) (channelMean rgb 2)
        (channelMean rgb 3))

/-- The gray-world update of the gains in `applyWhiteBalance`. -/
def grayWorldGains {F : Type} [LinearOrderedField F] (p : ISPParameters F)
    (mean : Scalar F) : ISPParameters F :=
  let avg := (mean.val0 + mean.val1 + mean.val2) / 3
  let p1 := if 0 < mean.val0 then { p with wb_blue := avg / mean.val0 } else p
  let p2 := if 0 < mean.val1 then { p1 with wb_green := avg / mean.val1 } else p1
  if 0 < mean.val2 then { p2 with wb_red := avg / mean.val2 } else p2

/-- The statement `channels[c] *= gain`: every sample of plane `c` is
multiplied and cast back to the depth; `channels[c]` past the end of the
vector is out of range. -/
def mulChannel {F : Type} [LinearOrderedField F] [FloorRing F] (depth : Nat)
    (channels : List (List Int)) (c : Nat) (gain : F) : Outcome (List (List Int)) :=
  match channels[c]? with
  | some plane =>
    Outcome.returned
      (channels.set c (plane.map (fun (v : Int) => saturateCast depth ((v : F) * gain))))
  | none => Outcome.fault Fault.outOfRange

/-- The smallest sample of a buffer (0 when it has none). -/
def minSample (data : List (List Int)) : Int :=
  data.flatten.foldl min (data.flatten.headD 0)

/-- The largest sample of a buffer (0 when it has none). -/
def maxSample (data : List (List Int)) : Int :=
  data.flatten.foldl max (data.flatten.headD 0)

/-- The OpenCV call `cv::normalize(rgb, rgb, 0, 255, cv::NORM_MINMAX)`: with
`smin` and `smax` the smallest and largest sample of all channels, every
sample `v` becomes `v * scale + shift` cast to the depth, where `scale` is
`255 / (smax - smin)` when `smax > smin` and 0 otherwise, and `shift` is
`- smin * scale`. -/
def normalizeMinMax {F : Type} [LinearOrderedField F] [FloorRing F] (depth : Nat)
    (data : List (List Int)) : List (List Int) :=
  let smin := minSample data
  let smax := maxSample data
  let scale : F := if smin < smax then 255 / (((smax - smin : Int) : F)) else 0
  let shift : F := 0 - (smin : F) * scale
  data.map (fun (px : List Int) =>
    px.map (fun (v : Int) => saturateCast depth ((v : F) * scale + shift)))

/-- The function `ISPPipeline::applyWhiteBalance`: the buffer left in `rgb` and
the parameters after the call; in automatic mode the gains are written to
`params_` before the channels are scaled. -/
def applyWhiteBalance {F : Type} [LinearOrderedField F] [FloorRing F] : Stage F :=
  fun p rgb =>
    let updated : Outcome (ISPParameters F) :=
      if p.auto_wb then
        match cvMean rgb with
        | Outcome.returned mean => Outcome.returned (grayWorldGains p mean)
        | Outcome.fault what => Outcome.fault what
      else Outcome.returned p
    match updated with
    | Outcome.fault what => (Outcome.fault what, p)
    | Outcome.returned p1 =>
      match mulChannel rgb.depth (split rgb) 0 p1.wb_blue with
      | Outcome.fault what => (Outcome.fault what, p1)
      | Outcome.returned channels0 =>
        match mulChannel rgb.depth channels0 1 p1.wb_green with
        | Outcome.fault what => (Outcome.fault what, p1)
        | Outcome.returned channels1 =>
          match mulChannel rgb.depth channels1 2 p1.wb_red with
          | Outcome.fault what => (Outcome.fault what, p1)
          | Outcome.returned channels2 =>
            let normalized := normalizeMinMax (F := F) rgb.depth (merge channels2)
            (Outcome.returned
              { rgb with
                chans := channels2.length
                depth := 0
                data := normalized.map (fun px => px.map (saturate 0)) },
              p1)

/-- The pixel positions `(i, j)` in the order the two loops of
`applyColorCorrection` visit them. -/
def pixelPositions (rows cols : Nat) : List (Nat × Nat) :=
  ((List.range rows).map (fun i => (List.range cols).map (fun j => (i, j)))).flatten

/-- The two loops of `applyColorCorrection` over the positions still to visit,
carrying `corrected`; `channels[c]` past the end of the vector is out of
range. -/
def colorCorrectionLoop {F : Type} [LinearOrderedField F] (m : Matx33f F)
    (channels : List (List F)) (cols : Nat) :
    List (Nat × Nat) → List (F × F × F) → Outcome (List (F × F × F))
  | [], corrected => Outcome.returned corrected
  | (i, j) :: rest, corrected =>
    match channels[0]?, channels[1]?, channels[2]? with
    | some c0, some c1, some c2 =>
      let pixel : F × F × F :=
        (c0.getD (i * cols + j) 0, c1.getD (i * cols + j) 0, c2.getD (i * cols + j) 0)
      colorCorrectionLoop m channels cols rest
        (corrected.set (i * cols + j) (m.mulVec pixel))
    | _, _, _ => Outcome.fault Fault.outOfRange

/-- The function `ISPPipeline::applyColorCorrection`: the stage runs when one
of `val[0]`, `val[4]`, `val[8]` differs from 1. -/
def applyColorCorrection {F : Type} [LinearOrderedField F] [FloorRing F]
    (p : ISPParameters F) (rgb : PixelBuffer) : Outcome PixelBuffer :=
  if p.color_matrix.val0 ≠ 1 ∨ p.color_matrix.val4 ≠ 1 ∨ p.color_matrix.val8 ≠ 1 then
    let channels : List (List F) :=
      (split rgb).map (fun (plane : List Int) => plane.map (fun (v : Int) => (v : F)))
    let zeros : List (F × F × F) := List.replicate (rgb.rows * rgb.cols) (0, 0, 0)
    match colorCorrectionLoop p.color_matrix channels rgb.cols
        (pixelPositions rgb.rows rgb.cols) zeros with
    | Outcome.returned corrected =>
      Outcome.returned
        { rgb with
          chans := 3
          depth := 0
          data := corrected.map (fun px =>
            [saturateCast 0 px.1, saturateCast 0 px.2.1, saturateCast 0 px.2.2]) }
    | Outcome.fault what => Outcome.fault what
  else Outcome.returned rgb

/-- The loop of `generateGammaLUT` over the indices still to visit, writing
`lut[i]`. -/
def gammaLoop {F : Type} [LinearOrderedField F] [FloorRing F] (lib : Imgproc F)
    (gamma_inv : F) : List Nat → List (List Int) → List (List Int)
  | [], lut => lut
  | i :: rest, lut =>
    gammaLoop lib gamma_inv rest
      (lut.set i [saturateCast 0 (lib.pow ((i : F) / 255) gamma_inv * 255)])

/-- The function `ISPPipeline::generateGammaLUT`: a new 1x256 one-channel 8-bit
table replaces `params_.gamma_lut` and every entry is written. -/
def generateGammaLUT {F : Type} [LinearOrderedField F] [FloorRing F] (lib : Imgproc F)
    (pl : ISPPipeline F) : ISPPipeline F :=
  let gamma_inv : F := 1 / pl.params_.gamma
  { pl with
    params_ :=
      { pl.params_ with
        gamma_lut :=
          PixelBuffer.mk 1 256 1 0
            (gammaLoop lib gamma_inv (List.range 256) (List.replicate 256 [0])) } }

/-- The constructor `ISPPipeline::ISPPipeline()`. -/
def ISPPipeline.construct {F : Type} [LinearOrderedField F] [FloorRing F] (lib : Imgproc F) :
    ISPPipeline F :=
  generateGammaLUT lib (ISPPipeline.mk ISPParameters.defaults)

/-- The function `setParameters`: `params_ = params`. -/
def ISPPipeline.setParameters {F : Type} (_pl : ISPPipeline F) (params : ISPParameters F) :
    ISPPipeline F :=
  ISPPipeline.mk params

/-- The function `getParameters`. -/
def ISPPipeline.getParameters {F : Type} (pl : ISPPipeline F) : ISPParameters F :=
  pl.params_

/-- A write through the reference that `getParameters` returns: the caller
replaces `params_` by any value computed from it. -/
def ISPPipeline.modifyParameters {F : Type} (pl : ISPPipeline F)
    (f : ISPParameters F → ISPParameters F) : ISPPipeline F :=
  ISPPipeline.mk (f pl.params_)

/-- The OpenCV call `cv::LUT(channel, lut, channel)` on one plane: it throws
unless the table has 256 one-channel entries and the plane is of depth CV_8U
or CV_8S. -/
def cvLUT (depth : Nat) (lut : PixelBuffer) (plane : List Int) : Outcome (List Int) :=
  if lut.rows * lut.cols = 256 ∧ lut.chans = 1 ∧ (depth = 0 ∨ depth = 1) then
    Outcome.returned
      (plane.map (fun v =>
        ((lut.data.getD (if depth = 1 then v + 128 else v).toNat []).getD 0 0)))
  else Outcome.fault Fault.cvException

/-- The loop of `applyGamma` over the channels still to visit. -/
def gammaChannels (depth : Nat) (lut : PixelBuffer) :
    List (List Int) → Outcome (List (List Int))
  | [] => Outcome.returned []
  | channel :: rest =>
    match cvLUT depth lut channel with
    | Outcome.returned mapped =>
      match gammaChannels depth lut rest with
      | Outcome.returned done => Outcome.returned (mapped :: done)
      | Outcome.fault what => Outcome.fault what
    | Outcome.fault what => Outcome.fault what

/-- The function `ISPPipeline::applyGamma`: nothing is done when the table is
empty. -/
def applyGamma {F : Type} (p : ISPParameters F) (rgb : PixelBuffer) : Outcome PixelBuffer :=
  if !p.gamma_lut.empty then
    match gammaChannels rgb.depth p.gamma_lut (split rgb) with
    | Outcome.returned channels =>
      Outcome.returned
        { rgb with chans := channels.length, depth := p.gamma_lut.depth, data := merge channels }
    | Outcome.fault what => Outcome.fault what
  else Outcome.returned rgb

/-- The function `ISPPipeline::applyToneMapping`, statement by statement:
`convertTo(float_rgb, CV_32FC3, 1.0/255.0)` scales every sample and keeps the
channels; `float_rgb *= exposure` multiplies every sample; in
`float_rgb * contrast + brightness` the `float` right operand is converted to
the cv::Scalar `(brightness, 0, 0, 0)`, the only scalar type that can be
added to a matrix expression, and the library evaluates the expression;
`cv::max` and `cv::min` clamp every sample; `convertTo(rgb, CV_8UC3, 255.0)`
scales, rounds and saturates every sample to 8 bits and keeps the channels. -/
def applyToneMapping {F : Type} [LinearOrderedField F] [FloorRing F] (lib : Imgproc F)
    (p : ISPParameters F) (rgb : PixelBuffer) : Outcome PixelBuffer :=
  let float_rgb : List (List F) :=
    rgb.data.map (fun px => px.map (fun (v : Int) => (v : F) * (1 / 255)))
  let float_rgb : List (List F) :=
    float_rgb.map (fun px => px.map (fun (x : F) => x * p.exposure))
  match lib.scalePlusScalar float_rgb p.contrast (Scalar.mk p.brightness 0 0 0) with
  | Outcome.returned float_rgb =>
    let float_rgb : List (List F) := float_rgb.map (fun px => px.map (fun (x : F) => max x 0))
    let float_rgb : List (List F) := float_rgb.map (fun px => px.map (fun (x : F) => min x 1))
    Outcome.returned
      { rgb with
        depth := 0
        data := float_rgb.map (fun px => px.map (fun (x : F) => saturateCast 0 (x * 255))) }
  | Outcome.fault what => Outcome.fault what

/-- The function `ISPPipeline::applyDenoising`. -/
def applyDenoising {F : Type} [LinearOrderedField F] (lib : Imgproc F) (p : ISPParameters F)
    (rgb : PixelBuffer) : PixelBuffer :=
  lib.fastNlMeansDenoisingColored rgb p.denoise_strength (p.denoise_strength * (1 / 2)) 7 21

/-- The OpenCV call `cv::addWeighted(a, alpha, b, beta, 0, a)`: it throws
unless the two arrays have the same size and channels. -/
def addWeighted {F : Type} [LinearOrderedField F] [FloorRing F] (a : PixelBuffer) (alpha : F)
    (b : PixelBuffer) (beta : F) : Outcome PixelBuffer :=
  if a.rows = b.rows ∧ a.cols = b.cols ∧ a.chans = b.chans then
    Outcome.returned
      { a with
        data := List.zipWith
          (fun (pa pb : List Int) =>
            List.zipWith
              (fun (va vb : Int) =>
                saturateCast a.depth ((va : F) * alpha + (vb : F) * beta + 0))
              pa pb)
          a.data b.data }
  else Outcome.fault Fault.cvException

/-- The function `ISPPipeline::applySharpening`. -/
def applySharpening {F : Type} [LinearOrderedField F] [FloorRing F] (lib : Imgproc F)
    (p : ISPParameters F) (rgb : PixelBuffer) : Outcome PixelBuffer :=
  let blurred := lib.GaussianBlur rgb (Size.mk 0 0) 3
  addWeighted rgb (1 + p.sharpen_strength) blurred (-p.sharpen_strength)

/-- The function `ISPPipeline::applyLensCorrection`. -/
def applyLensCorrection {F : Type} (lib : Imgproc F) (p : ISPParameters F)
    (rgb : PixelBuffer) : PixelBuffer :=
  lib.undistort rgb p.camera_matrix p.distortion_coeffs

/-- The function `ISPPipeline::demosaicBayer`: a buffer of type CV_8UC1 is
interpolated by the configured method; any other buffer goes through
`convertTo(rgb, CV_8UC3)`, which casts every sample to 8 bits and keeps the
number of channels. -/
def demosaicBayer {F : Type} (lib : Imgproc F) (p : ISPParameters F) (bayer : PixelBuffer) :
    PixelBuffer :=
  if bayer.depth = 0 ∧ bayer.chans = 1 then
    match p.demosaic_method with
    | DemosaicMethod.BILINEAR => lib.cvtColor ColorCode.COLOR_BayerBG2BGR bayer
    | DemosaicMethod.VNG => lib.cvtColor ColorCode.COLOR_BayerBG2BGR_VNG bayer
    | DemosaicMethod.AHD => lib.cvtColor ColorCode.COLOR_BayerBG2BGR_EA bayer
  else
    { bayer with depth := 0, data := bayer.data.map (fun px => px.map (saturate 0)) }

/-- The function `ISPPipeline::processRGB`: what the call leaves in
`output_rgb` (or the fault it ends in) and the pipeline after the call. -/
def processRGB {F : Type} [LinearOrderedField F] [FloorRing F] (lib : Imgproc F)
    (pl : ISPPipeline F) (input_rgb : PixelBuffer) (_output_rgb : PixelBuffer) :
    Outcome PixelBuffer × ISPPipeline F :=
  if input_rgb.empty then (Outcome.returned PixelBuffer.blank, pl)
  else
    let processed := input_rgb
    let r0 : StageResult F :=
      if pl.params_.lens_correction && !pl.params_.camera_matrix.isEmpty &&
          !pl.params_.distortion_coeffs.isEmpty then
        (Outcome.returned (applyLensCorrection lib pl.params_ processed), pl.params_)
      else (Outcome.returned processed, pl.params_)
    let r1 := thenStage r0 applyWhiteBalance
    let r2 := thenStage r1 (fun p rgb => (applyColorCorrection p rgb, p))
    let r3 := thenStage r2 (fun p rgb => (applyGamma p rgb, p))
    let r4 := thenStage r3 (fun p rgb => (applyToneMapping lib p rgb, p))
    let r5 := thenStage r4 (fun p rgb =>
      if p.denoise_enabled then (Outcome.returned (applyDenoising lib p rgb), p)
      else (Outcome.returned rgb, p))
    let r6 := thenStage r5 (fun p rgb =>
      if p.sharpen_enabled then (applySharpening lib p rgb, p)
      else (Outcome.returned rgb, p))
    (r6.1, ISPPipeline.mk r6.2)

/-- The function `ISPPipeline::processRaw`: what the call leaves in
`output_rgb` (or the fault it ends in) and the pipeline after the call. -/
def processRaw {F : Type} [LinearOrderedField F] [FloorRing F] (lib : Imgproc F)
    (pl : ISPPipeline F) (raw_bayer : PixelBuffer) (output_rgb : PixelBuffer) :
    Outcome PixelBuffer × ISPPipeline F :=
  if raw_bayer.empty then (Outcome.returned output_rgb, pl)
  else
    let rgb := demosaicBayer lib pl.params_ raw_bayer
    processRGB lib pl rgb output_rgb

/-! ## The stage chain and the gamma table in the words of the specification -/

/-- The lens-correction stage. -/
def lensStage {F : Type} (lib : Imgproc F) : Stage F :=
  fun p rgb => (Outcome.returned (applyLensCorrection lib p rgb), p)

/-- The colour-correction stage. -/
def colorCorrectionStage {F : Type} [LinearOrderedField F] [FloorRing F] : Stage F :=
  fun p rgb => (applyColorCorrection p rgb, p)

/-- The gamma stage. -/
def gammaStage {F : Type} : Stage F :=
  fun p rgb => (applyGamma p rgb, p)

/-- The tone-mapping stage. -/
def toneMappingStage {F : Type} [LinearOrderedField F] [FloorRing F] (lib : Imgproc F) :
    Stage F :=
  fun p rgb => (applyToneMapping lib p rgb, p)

/-- The denoise stage. -/
def denoiseStage {F : Type} [LinearOrderedField F] (lib : Imgproc F) : Stage F :=
  fun p rgb => (Outcome.returned (applyDenoising lib p rgb), p)

/-- The sharpen stage. -/
def sharpenStage {F : Type} [LinearOrderedField F] [FloorRing F] (lib : Imgproc F) : Stage F :=
  fun p rgb => (applySharpening lib p rgb, p)

/-- The stages of one run, in the fixed order, as selected by the parameters
the run starts with: lens correction only if it is enabled and both the camera
matrix and the distortion coefficients are present, then white balance, colour
correction, gamma and tone mapping, then denoise only if enabled and sharpen
only if enabled. -/
def enabledStages {F : Type} [LinearOrderedField F] [FloorRing F] (lib : Imgproc F)
    (p : ISPParameters F) : List (Stage F) :=
  (if p.lens_correction && !p.camera_matrix.isEmpty && !p.distortion_coeffs.isEmpty then
      [lensStage lib] else []) ++
    [applyWhiteBalance, colorCorrectionStage, gammaStage, toneMappingStage lib] ++
    (if p.denoise_enabled then [denoiseStage lib] else []) ++
    (if p.sharpen_enabled then [sharpenStage lib] else [])

/-- The stages composed: each one is applied to the output of the one before. -/
def runStages {F : Type} (stages : List (Stage F)) (p : ISPParameters F)
    (rgb : PixelBuffer) : StageResult F :=
  stages.foldl thenStage (Outcome.returned rgb, p)

/-- The 256-entry table of a gamma value: entry `i` is
`255 * (i / 255) ^ (1 / gamma)`, rounded and saturated to `0 .. 255`. -/
def gammaTable {F : Type} [LinearOrderedField F] [FloorRing F] (lib : Imgproc F)
    (gamma : F) : PixelBuffer :=
  PixelBuffer.mk 1 256 1 0
    ((List.range 256).map (fun (i : Nat) =>
      [saturate 0 (cvRound (255 * lib.pow ((i : F) / 255) (1 / gamma)))]))

/-- The colour-corrected pixel: the colour matrix times the colour vector of the
first three samples, each component rounded and saturated to `0 .. 255`. -/
def correctedPixel {F : Type} [LinearOrderedField F] [FloorRing F] (m : Matx33f F)
    (px : List Int) : List Int :=
  [saturateCast 0 (m.mulVec ((px.getD 0 0 : F), (px.getD 1 0 : F), (px.getD 2 0 : F))).1,
    saturateCast 0 (m.mulVec ((px.getD 0 0 : F), (px.getD 1 0 : F), (px.getD 2 0 : F))).2.1,
    saturateCast 0 (m.mulVec ((px.getD 0 0 : F), (px.getD 1 0 : F), (px.getD 2 0 : F))).2.2]

/-- The pipelines that the public interface reaches: construction,
`setParameters` with any value, a write of `gamma` through the reference that
`getParameters` returns, and `generateGammaLUT`. -/
inductive Reachable {F : Type} [LinearOrderedField F] [FloorRing F] (lib : Imgproc F) :
    ISPPipeline F → Prop where
  | construct : Reachable lib (ISPPipeline.construct lib)
  | setParameters (pl : ISPPipeline F) (params : ISPParameters F) :
      Reachable lib pl → Reachable lib (pl.setParameters params)
  | setGamma (pl : ISPPipeline F) (gamma : F) :
      Reachable lib pl →
      Reachable lib (pl.modifyParameters (fun p => { p with gamma := gamma }))
  | generateGammaLUT (pl : ISPPipeline F) :
      Reachable lib pl → Reachable lib (generateGammaLUT lib pl)

/-- Two parameter sets that differ at most in the three white-balance gains. -/
def sameExceptGains {F : Type} (p q : ISPParameters F) : Prop :=
  q = { p with wb_red := q.wb_red, wb_green := q.wb_green, wb_blue := q.wb_blue }

/-! ## A concrete image library and concrete buffers, to evaluate the model -/

/-- The sum `a * alpha + s` taken channel by channel: channel `c` of every
pixel of `a` is scaled by `alpha` and gets the value `c` of the scalar.  It
is how OpenCV evaluates the expression for `alpha = 1`, by `cv::add(a, s)`,
which throws for a matrix of more than four channels. -/
def addScalarByChannel {F : Type} [LinearOrderedField F] (a : List (List F)) (alpha : F)
    (s : Scalar F) : Outcome (List (List F)) :=
  if a.all (fun px => decide (px.length ≤ 4)) then
    Outcome.returned
      (a.map (fun px =>
        List.zipWith (fun (x : F) (offset : F) => x * alpha + offset) px
          [s.val0, s.val1, s.val2, s.val3]))
  else Outcome.fault Fault.cvException

/-- A library over `ℚ`: `pow` is the exact power for an exponent that is a
natural number, the Bayer conversion copies the sample to three channels,
undistortion, denoising and blur return the buffer they are given, and a
scalar is added to a scaled matrix channel by channel. -/
def sampleImgproc : Imgproc ℚ :=
  { pow := fun x y => x ^ ⌊y⌋.toNat
    cvtColor := fun _ bayer =>
      { bayer with
        chans := 3
        data := bayer.data.map (fun px => [px.getD 0 0, px.getD 0 0, px.getD 0 0]) }
    undistort := fun rgb _ _ => rgb
    fastNlMeansDenoisingColored := fun rgb _ _ _ _ => rgb
    GaussianBlur := fun rgb _ _ => rgb
    scalePlusScalar := addScalarByChannel }

/-- A freshly constructed pipeline over `ℚ`. -/
def freshPipeline : ISPPipeline ℚ := ISPPipeline.construct sampleImgproc

/-- A buffer without rows. -/
def noBuffer : PixelBuffer := PixelBuffer.mk 0 0 3 0 []

/-- A 1x1 three-channel 8-bit buffer with the pixel `(10, 20, 30)`. -/
def onePixel : PixelBuffer := PixelBuffer.mk 1 1 3 0 [[10, 20, 30]]

/-- A 1x1 one-channel 8-bit buffer with the sample 128. -/
def grayPixel : PixelBuffer := PixelBuffer.mk 1 1 1 0 [[128]]

/-- The pipeline after `setParameters` with a default-constructed
`ISPParameters`. -/
def resetPipeline : ISPPipeline ℚ :=
  freshPipeline.setParameters ISPParameters.defaults

/-- A pipeline with automatic white balance switched off. -/
def manualPipeline : ISPPipeline ℚ :=
  freshPipeline.modifyParameters (fun p => { p with auto_wb := false })

/-- The pipeline after the gamma is set to 1 and the table regenerated, and the
gamma is then set to 1/2 through the reference that `getParameters` returns. -/
def stalePipeline : ISPPipeline ℚ :=
  (generateGammaLUT sampleImgproc
    (freshPipeline.modifyParameters (fun p => { p with gamma := 1 }))).modifyParameters
    (fun p => { p with gamma := 1 / 2 })

/-- A parameter set whose colour matrix has a unit diagonal and `val[1] = 1`. -/
def shearParameters : ISPParameters ℚ :=
  { (ISPParameters.defaults : ISPParameters ℚ) with
    color_matrix := Matx33f.mk 1 1 0 0 1 0 0 0 1 }

/-! ## Further functions, reachable engines and concrete inputs -/

/-- The function `CalibrationEngine::undistortImage`: what the call leaves in
`output`; without a calibration or on an empty input it is a clone of the
input. -/
def undistortImage {F : Type} (lib : Imgproc F) (st : CalibrationEngine F)
    (input : PixelBuffer) : PixelBuffer :=
  if !st.calibrated_ || input.empty then input
  else lib.undistort input st.result_.camera_matrix st.result_.distortion_coeffs

/-- The engines that a sequence of `addCalibrationImage`, `calibrate`,
`loadCalibration` and `clearCalibrationData` calls reaches from a freshly
constructed engine. -/
inductive EngineReachable {F : Type} [LinearOrderedField F] (cv : Cv F) :
    CalibrationEngine F → Prop where
  | construct (reprojection_error square_size : F) :
      EngineReachable cv (CalibrationEngine.construct reprojection_error square_size)
  | addCalibrationImage (st : CalibrationEngine F) (image : Image) (pattern_size : Size)
      (square_size_mm : F) :
      EngineReachable cv st →
      EngineReachable cv (addCalibrationImage cv image pattern_size square_size_mm st).2
  | calibrate (st : CalibrationEngine F) (flags : CalibrationFlags) :
      EngineReachable cv st → EngineReachable cv (calibrate cv flags st).2
  | loadCalibration (st : CalibrationEngine F) (file : Option (Record F)) :
      EngineReachable cv st → EngineReachable cv (loadCalibration cv file st).2
  | clearCalibrationData (st : CalibrationEngine F) :
      EngineReachable cv st → EngineReachable cv (clearCalibrationData st)

/-- The engine after five accepted 640x480 views of a 3x2 pattern with 25 mm
squares. -/
def fiveViewEngine : CalibrationEngine ℚ :=
  (addCalibrationImage sampleCv boardVGA (Size.mk 3 2) 25
    (addCalibrationImage sampleCv boardVGA (Size.mk 3 2) 25
      (addCalibrationImage sampleCv boardVGA (Size.mk 3 2) 25
        (addCalibrationImage sampleCv boardVGA (Size.mk 3 2) 25
          oneViewEngine).2).2).2).2

/-- The engine after a successful `calibrate` on `fiveViewEngine`. -/
def calibratedEngine : CalibrationEngine ℚ := (calibrate sampleCv {} fiveViewEngine).2

/-- The engine after `calibratedEngine` accepts a sixth view. -/
def sixViewEngine : CalibrationEngine ℚ :=
  (addCalibrationImage sampleCv boardVGA (Size.mk 3 2) 25 calibratedEngine).2

/-- The engine after a successful `loadCalibration` of `savedRecord` into a
freshly constructed engine. -/
def loadedFreshEngine : CalibrationEngine ℚ :=
  (loadCalibration sampleCv savedRecord freshEngine).2

/-- A 1x1 three-channel 8-bit buffer with the black pixel `(0, 0, 0)`. -/
def blackPixel : PixelBuffer := PixelBuffer.mk 1 1 3 0 [[0, 0, 0]]

/-- A pipeline in automatic white-balance mode whose stored gains are all 2. -/
def doubledGainsPipeline : ISPPipeline ℚ :=
  freshPipeline.modifyParameters
    (fun p => { p with wb_red := 2, wb_green := 2, wb_blue := 2 })

/-- The default parameters with the brightness set to 1/4: exposure 1 and
contrast 1 stay as they are. -/
def brightened : ISPParameters ℚ :=
  { (ISPParameters.defaults : ISPParameters ℚ) with brightness := 1 / 4 }

/-- A 1x1 three-channel 8-bit buffer with the pixel `(0, 100, 255)`. -/
def tonePixel : PixelBuffer := PixelBuffer.mk 1 1 3 0 [[0, 100, 255]]

/-- A 1x1 one-channel 16-bit raw buffer with the sample 1000. -/
def raw16Pixel : PixelBuffer := PixelBuffer.mk 1 1 1 2 [[1000]]

/-- A library whose denoiser reports, as its output samples, the template and
search window sizes it was called with. -/
def probeImgproc : Imgproc ℚ :=
  { sampleImgproc with
    fastNlMeansDenoisingColored := fun rgb _ _ templateWindowSize searchWindowSize =>
      { rgb with data := [[templateWindowSize, searchWindowSize]] } }

/-- A parameter set with denoise strength 1. -/
def weakDenoise : ISPParameters ℚ :=
  { (ISPParameters.defaults : ISPParameters ℚ) with denoise_strength := 1 }

/-- A parameter set with denoise strength 9. -/
def strongDenoise : ISPParameters ℚ :=
  { (ISPParameters.defaults : ISPParameters ℚ) with denoise_strength := 9 }

/-! ## The white-balance stage in the words of its description -/

/-- The gain-scaled samples of one pixel: channel 0 times the blue gain,
channel 1 times the green gain, channel 2 times the red gain, each rounded and
saturated to the depth. -/
def scaledPixel {F : Type} [LinearOrderedField F] [FloorRing F] (p : ISPParameters F)
    (depth : Nat) (px : List Int) : List Int :=
  [saturateCast depth ((px.getD 0 0 : F) * p.wb_blue),
    saturateCast depth ((px.getD 1 0 : F) * p.wb_green),
    saturateCast depth ((px.getD 2 0 : F) * p.wb_red)]

/-- The min-max stretch of one sample `w` between `lo` and `hi`: rounded
`(w - lo) * 255 / (hi - lo)` when `hi > lo`, and 0 otherwise. -/
def stretchSample {F : Type} [LinearOrderedField F] [FloorRing F] (lo hi w : Int) : Int :=
  if lo < hi then cvRound ((((w - lo : Int) : F) * 255) / ((hi - lo : Int) : F)) else 0

/-- The four filter arguments `applyDenoising` passes after the image:
luminance weight, colour weight, template window size, search window size. -/
def denoisingArguments {F : Type} [LinearOrderedField F] (p : ISPParameters F) :
    F × F × Int × Int :=
  (p.denoise_strength, p.denoise_strength * (1 / 2), 7, 21)

/-- A same-size buffer: equal rows, columns and channels. -/
def sameSize (a b : PixelBuffer) : Prop :=
  a.rows = b.rows ∧ a.cols = b.cols ∧ a.chans = b.chans

/-- The gain-scaled pixels of a buffer. -/
def scaledData {F : Type} [LinearOrderedField F] [FloorRing F] (p : ISPParameters F)
    (rgb : PixelBuffer) : List (List Int) :=
  rgb.data.map (scaledPixel p rgb.depth)

/-- The min-max stretch of all samples between the smallest and the largest
of them. -/
def stretchedData {F : Type} [LinearOrderedField F] [FloorRing F] (data : List (List Int)) :
    List (List Int) :=
  data.map (fun (px : List Int) =>
    px.map (stretchSample (F := F) (minSample data) (maxSample data)))

theorem foldl_push_eq_map {α β : Type} (f : β → α) (l : List β) (acc : List α) :
    l.foldl (fun points j => points ++ [f j]) acc = acc ++ l.map f := by
  induction l generalizing acc with
  | nil => simp
  | cons b t ih => simp [List.foldl_cons, ih]

theorem foldl_append_eq_flatten {α β : Type} (g : β → List α) (l : List β) (acc : List α) :
    l.foldl (fun points i => points ++ g i) acc = acc ++ (l.map g).flatten := by
  induction l generalizing acc with
  | nil => simp
  | cons b t ih => simp [List.foldl_cons, ih]

theorem objectPointGrid_eq {F : Type} [LinearOrderedField F]
    (pattern_size : Size) (square_size : F) :
    objectPointGrid pattern_size square_size
      = ((List.range pattern_size.height.toNat).map (fun (i : Nat) =>
          (List.range pattern_size.width.toNat).map (fun (j : Nat) =>
            Point3f.mk ((j : F) * square_size) ((i : F) * square_size) 0))).flatten := by
  unfold objectPointGrid
  simp only [foldl_push_eq_map]
  rw [foldl_append_eq_flatten]
  simp

theorem wrapInt32_of_fits (x : Int) (h0 : -2147483648 ≤ x) (h1 : x ≤ 2147483647) :
    wrapInt32 x = x := by
  unfold wrapInt32
  omega

theorem generateObjectPoints_returns {F : Type} [LinearOrderedField F]
    (pattern_size : Size) (square_size : F)
    (h0 : 0 ≤ pattern_size.width * pattern_size.height)
    (h1 : pattern_size.width * pattern_size.height ≤ 2147483647) :
    generateObjectPoints pattern_size square_size
      = Outcome.returned (objectPointGrid pattern_size square_size) := by
  unfold generateObjectPoints
  rw [wrapInt32_of_fits _ (by omega) h1, if_neg (not_lt.mpr h0)]

theorem join_rows_length {α : Type} (g : Nat → List α) (w : Nat)
    (hg : ∀ i, (g i).length = w) (n : Nat) :
    (((List.range n).map g).flatten).length = n * w := by
  induction n with
  | zero => simp
  | succ n ih =>
    rw [List.range_succ, List.map_append, List.flatten_append, List.length_append, ih]
    simp [hg, Nat.succ_mul]

theorem join_rows_get {α : Type} (g : Nat → List α) (w : Nat)
    (hg : ∀ i, (g i).length = w) (n i j : Nat) (hi : i < n) (hj : j < w) :
    (((List.range n).map g).flatten)[i * w + j]? = (g i)[j]? := by
  induction n with
  | zero => omega
  | succ n ih =>
    rw [List.range_succ, List.map_append, List.flatten_append]
    have hlen := join_rows_length g w hg n
    by_cases h : i < n
    · have hlt : i * w + j < (((List.range n).map g).flatten).length := by
        rw [hlen]
        calc i * w + j < i * w + w := by omega
          _ = (i + 1) * w := by ring
          _ ≤ n * w := Nat.mul_le_mul_right w h
      rw [List.getElem?_append_left hlt]
      exact ih h
    · have hin : i = n := by omega
      subst hin
      have hge : (((List.range i).map g).flatten).length ≤ i * w + j := by
        rw [hlen]; omega
      rw [List.getElem?_append_right hge, hlen]
      simp

/-- C1, as stated, fails: for the pattern size 46341 x 46341, whose width and
height are at least 0, the `int` product `width * height` is past 2^31 - 1 and
wraps to -2147479015, `reserve` throws std::length_error, and the call returns
no list of points, so none of `46341 * 46341` points. -/
theorem generateObjectPoints_reserve_throws :
    (0 : Int) ≤ 46341 ∧
    wrapInt32 (46341 * 46341) = -2147479015 ∧
    generateObjectPoints (Size.mk 46341 46341) (25 : ℚ) = Outcome.fault Fault.lengthError ∧
    ¬ ∃ points : List (Point3f ℚ),
        generateObjectPoints (Size.mk 46341 46341) (25 : ℚ) = Outcome.returned points ∧
        points.length = ((46341 : Int) * 46341).toNat := by
  have hw : wrapInt32 (46341 * 46341) = -2147479015 := by decide
  have hrun : generateObjectPoints (Size.mk 46341 46341) (25 : ℚ)
      = Outcome.fault Fault.lengthError := by
    unfold generateObjectPoints
    rw [hw]
    rfl
  refine ⟨by decide, hw, hrun, ?_⟩
  rintro ⟨points, hp, _⟩
  rw [hrun] at hp
  exact Outcome.noConfusion hp

/-- C1, amended: for a pattern of width `W ≥ 0` and height `H ≥ 0` with
`W * H ≤ 2^31 - 1` and any square size `s`, `generateObjectPoints` returns a
list of exactly `W * H` points, and the point at index `i * W + j` (row
`i < H`, column `j < W`) is `(j * s, i * s, 0)`. -/
theorem generateObjectPoints_row_major {F : Type} [LinearOrderedField F]
    (W H : Int) (hW : 0 ≤ W) (hH : 0 ≤ H) (hWH : W * H ≤ 2147483647) (s : F) :
    ∃ points : List (Point3f F),
      generateObjectPoints (Size.mk W H) s = Outcome.returned points ∧
      points.length = (W * H).toNat ∧
      ∀ i j : Nat, (i : Int) < H → (j : Int) < W →
        points[i * W.toNat + j]? = some (Point3f.mk ((j : F) * s) ((i : F) * s) 0) := by
  refine ⟨objectPointGrid (Size.mk W H) s,
    generateObjectPoints_returns (Size.mk W H) s (mul_nonneg hW hH) hWH, ?_⟩
  obtain ⟨w, rfl⟩ := Int.eq_ofNat_of_zero_le hW
  obtain ⟨h, rfl⟩ := Int.eq_ofNat_of_zero_le hH
  rw [objectPointGrid_eq]
  simp only [Int.toNat_ofNat]
  constructor
  · rw [join_rows_length _ w (fun i => by simp)]
    rw [← Int.ofNat_mul, Int.toNat_ofNat, Nat.mul_comm]
  · intro i j hi hj
    have hi2 : i < h := by exact_mod_cast hi
    have hj2 : j < w := by exact_mod_cast hj
    rw [join_rows_get _ w (fun i => by simp) h i j hi2 hj2]
    simp [hj2]

theorem generateObjectPoints_row_major_witness :
    (0 : Int) ≤ 3 ∧ (0 : Int) ≤ 2 ∧ (3 : Int) * 2 ≤ 2147483647 ∧
    ∃ points : List (Point3f ℚ),
      generateObjectPoints (Size.mk 3 2) (25 : ℚ) = Outcome.returned points ∧
      points.length = ((3 : Int) * 2).toNat ∧
      ∀ i j : Nat, (i : Int) < 2 → (j : Int) < 3 →
        points[i * (3 : Int).toNat + j]?
          = some (Point3f.mk ((j : ℚ) * 25) ((i : ℚ) * 25) 0) :=
  ⟨by decide, by decide, by decide,
    generateObjectPoints_row_major 3 2 (by decide) (by decide) (by decide) 25⟩

/-! ## `calibrate` -/

/-- C2: with fewer than 5 stored views `calibrate` returns false for every flag
set and library behaviour, and the engine after the call is the engine before
it: result, views, session image size and calibrated flag are untouched. -/
theorem calibrate_too_few_views {F : Type} [LinearOrderedField F] (cv : Cv F)
    (flags : CalibrationFlags) (st : CalibrationEngine F)
    (h : st.getNumCalibrationImages < 5) :
    (calibrate cv flags st).1 = false ∧
    (calibrate cv flags st).2 = st ∧
    (calibrate cv flags st).2.result_ = st.result_ ∧
    (calibrate cv flags st).2.image_points_ = st.image_points_ ∧
    (calibrate cv flags st).2.object_points_ = st.object_points_ ∧
    (calibrate cv flags st).2.image_size_ = st.image_size_ ∧
    (calibrate cv flags st).2.calibrated_ = st.calibrated_ := by
  have hlt : st.image_points_.length < 5 := h
  simp [calibrate, hlt]

theorem calibrate_too_few_views_witness :
    oneViewEngine.getNumCalibrationImages < 5 ∧
    (calibrate sampleCv {} oneViewEngine).1 = false ∧
    (calibrate sampleCv {} oneViewEngine).2 = oneViewEngine :=
  ⟨by decide,
    (calibrate_too_few_views sampleCv {} oneViewEngine (by decide)).1,
    (calibrate_too_few_views sampleCv {} oneViewEngine (by decide)).2.1⟩

/-- C3, as stated, fails: on an engine with five views the solver creates one
rotation and one translation per view and then throws; `calibrate` returns
false, yet the rotations and translations of the previously held result have
been overwritten. -/
theorem calibrate_failed_solve_overwrites :
    5 ≤ thinViewsEngine.getNumCalibrationImages ∧
    solverCall sampleCv {} thinViewsEngine
      = SolveOutcome.threw (Mat.eye 3 3) (Mat.zeros 8 1)
          (List.replicate 5 Mat.empty) (List.replicate 5 Mat.empty) ∧
    (calibrate sampleCv {} thinViewsEngine).1 = false ∧
    thinViewsEngine.result_.rvecs = [] ∧
    (calibrate sampleCv {} thinViewsEngine).2.result_.rvecs = List.replicate 5 Mat.empty ∧
    (calibrate sampleCv {} thinViewsEngine).2.result_ ≠ thinViewsEngine.result_ := by
  decide

/-- C3, amended: when the engine holds 5 or more views and the solver throws,
`calibrate` returns false and leaves the calibrated flag, the stored views, the
session image size and the RMS error, image size, pattern size and square size
of the result as they were; the camera matrix, distortion coefficients,
rotations and translations hold what the solver left in the arguments it was
handed, so the result is the previous one whenever the solver left them as
they were. -/
theorem calibrate_failed_solve {F : Type} [LinearOrderedField F] (cv : Cv F)
    (flags : CalibrationFlags) (st : CalibrationEngine F)
    (camera_matrix distortion_coeffs : Mat F) (rvecs tvecs : List (Mat F))
    (hviews : 5 ≤ st.getNumCalibrationImages)
    (hthrow : solverCall cv flags st
      = SolveOutcome.threw camera_matrix distortion_coeffs rvecs tvecs) :
    (calibrate cv flags st).1 = false ∧
    (calibrate cv flags st).2.calibrated_ = st.calibrated_ ∧
    (calibrate cv flags st).2.image_points_ = st.image_points_ ∧
    (calibrate cv flags st).2.object_points_ = st.object_points_ ∧
    (calibrate cv flags st).2.image_size_ = st.image_size_ ∧
    (calibrate cv flags st).2.result_ =
      { st.result_ with
        camera_matrix := camera_matrix
        distortion_coeffs := distortion_coeffs
        rvecs := rvecs
        tvecs := tvecs } ∧
    (calibrate cv flags st).2.result_.reprojection_error = st.result_.reprojection_error ∧
    (calibrate cv flags st).2.result_.image_size = st.result_.image_size ∧
    (calibrate cv flags st).2.result_.pattern_size = st.result_.pattern_size ∧
    (calibrate cv flags st).2.result_.square_size = st.result_.square_size ∧
    (camera_matrix = st.result_.camera_matrix →
      distortion_coeffs = st.result_.distortion_coeffs →
      rvecs = st.result_.rvecs → tvecs = st.result_.tvecs →
      (calibrate cv flags st).2.result_ = st.result_) := by
  have hge : ¬ st.image_points_.length < 5 := Nat.not_lt.mpr hviews
  have hcall : solverCall cv flags { st with calibration_in_progress_ := true }
      = SolveOutcome.threw camera_matrix distortion_coeffs rvecs tvecs := hthrow
  have hrun : calibrate cv flags st =
      (false,
        { st with
          result_ :=
            { st.result_ with
              camera_matrix := camera_matrix
              distortion_coeffs := distortion_coeffs
              rvecs := rvecs
              tvecs := tvecs }
          calibration_in_progress_ := false }) := by
    unfold calibrate
    rw [if_neg hge]
    simp only [hcall]
  rw [hrun]
  refine ⟨rfl, rfl, rfl, rfl, rfl, rfl, rfl, rfl, rfl, rfl, ?_⟩
  intro h1 h2 h3 h4
  subst h1 h2 h3 h4
  rfl

theorem calibrate_failed_solve_witness :
    5 ≤ thinViewsEngine.getNumCalibrationImages ∧
    (calibrate sampleCv {} thinViewsEngine).1 = false ∧
    (calibrate sampleCv {} thinViewsEngine).2.calibrated_ = thinViewsEngine.calibrated_ :=
  ⟨by decide,
    (calibrate_failed_solve sampleCv {} thinViewsEngine (Mat.eye 3 3) (Mat.zeros 8 1)
      (List.replicate 5 Mat.empty) (List.replicate 5 Mat.empty) (by decide) (by decide)).1,
    (calibrate_failed_solve sampleCv {} thinViewsEngine (Mat.eye 3 3) (Mat.zeros 8 1)
      (List.replicate 5 Mat.empty) (List.replicate 5 Mat.empty) (by decide) (by decide)).2.1⟩

/-! ## `addCalibrationImage` -/

theorem addCalibrationImage_rejected {F : Type} [LinearOrderedField F] (cv : Cv F)
    (image : Image) (pattern_size : Size) (square_size_mm : F) (st : CalibrationEngine F)
    (h : image.empty = true ∨ (findChessboardCorners cv image pattern_size).1 = false) :
    addCalibrationImage cv image pattern_size square_size_mm st = (false, st) := by
  unfold addCalibrationImage
  by_cases he : image.empty = true
  · simp [he]
  · rcases h with h | h
    · exact absurd h he
    · simp [he, h]

theorem addCalibrationImage_accepted {F : Type} [LinearOrderedField F] (cv : Cv F)
    (image : Image) (pattern_size : Size) (square_size_mm : F) (st : CalibrationEngine F)
    (he : image.empty = false) (hf : (findChessboardCorners cv image pattern_size).1 = true) :
    (addCalibrationImage cv image pattern_size square_size_mm st).1 = true ∧
    (addCalibrationImage cv image pattern_size square_size_mm st).2.image_points_
      = st.image_points_ ++
          [cv.cornerSubPix (toGray cv image) (findChessboardCorners cv image pattern_size).2
            (Size.mk 11 11) (Size.mk (-1) (-1)) (TermCriteria.mk (2 + 1) 30 (1 / 10))] ∧
    (addCalibrationImage cv image pattern_size square_size_mm st).2.object_points_
      = st.object_points_ ++ [objectPointGrid pattern_size square_size_mm] ∧
    (addCalibrationImage cv image pattern_size square_size_mm st).2.image_size_
      = (if st.image_size_.width = 0 then image.size else st.image_size_) ∧
    (addCalibrationImage cv image pattern_size square_size_mm st).2.calibrated_
      = st.calibrated_ := by
  unfold addCalibrationImage
  simp only [he, hf, if_true, Bool.false_eq_true, if_false]
  by_cases hw : st.image_size_.width = 0 <;> simp [hw]

/-- C4, as stated, fails: after a first accepted 640x480 view has fixed the
session image size, a 320x240 image in which the pattern is found is accepted
as a second view, and the session image size stays 640x480. -/
theorem addCalibrationImage_accepts_other_size :
    oneViewEngine.image_size_ = Size.mk 640 480 ∧
    oneViewEngine.getNumCalibrationImages = 1 ∧
    boardQVGA.size = Size.mk 320 240 ∧
    boardQVGA.size ≠ oneViewEngine.image_size_ ∧
    (addCalibrationImage sampleCv boardQVGA (Size.mk 3 2) 25 oneViewEngine).1 = true ∧
    (addCalibrationImage sampleCv boardQVGA (Size.mk 3 2) 25
      oneViewEngine).2.getNumCalibrationImages = 2 ∧
    (addCalibrationImage sampleCv boardQVGA (Size.mk 3 2) 25 oneViewEngine).2.image_size_
      = Size.mk 640 480 := by
  decide

/-- C4, amended: the first accepted view fixes the session image size to the
size of its image, and once the session image size is fixed (its width is not
0) no call of `addCalibrationImage` changes it; the size of a later image is
not compared with it: the image is accepted exactly when it is non-empty and
its corners are found, whatever its size. -/
theorem addCalibrationImage_session_size {F : Type} [LinearOrderedField F] (cv : Cv F)
    (image : Image) (pattern_size : Size) (square_size_mm : F) (st : CalibrationEngine F) :
    (st.image_size_.width = 0 →
      (addCalibrationImage cv image pattern_size square_size_mm st).1 = true →
      (addCalibrationImage cv image pattern_size square_size_mm st).2.image_size_
        = image.size) ∧
    (st.image_size_.width ≠ 0 →
      (addCalibrationImage cv image pattern_size square_size_mm st).2.image_size_
        = st.image_size_) ∧
    (addCalibrationImage cv image pattern_size square_size_mm st).1
      = (!image.empty && (findChessboardCorners cv image pattern_size).1) := by
  by_cases he : image.empty = true
  · have hrej := addCalibrationImage_rejected cv image pattern_size square_size_mm st
      (Or.inl he)
    rw [hrej]
    simp [he]
  · have he2 : image.empty = false := by simpa using he
    by_cases hf : (findChessboardCorners cv image pattern_size).1 = true
    · obtain ⟨h1, _, _, h4, _⟩ :=
        addCalibrationImage_accepted cv image pattern_size square_size_mm st he2 hf
      refine ⟨?_, ?_, ?_⟩
      · intro hw _
        rw [h4, if_pos hw]
      · intro hw
        rw [h4, if_neg hw]
      · rw [h1, he2, hf]
        rfl
    · have hf2 : (findChessboardCorners cv image pattern_size).1 = false := by simpa using hf
      have hrej := addCalibrationImage_rejected cv image pattern_size square_size_mm st
        (Or.inr hf2)
      rw [hrej]
      simp [he2, hf2]

theorem addCalibrationImage_session_size_witness :
    oneViewEngine.image_size_.width ≠ 0 ∧
    (addCalibrationImage sampleCv boardQVGA (Size.mk 3 2) 25 oneViewEngine).2.image_size_
      = oneViewEngine.image_size_ ∧
    freshEngine.image_size_.width = 0 ∧
    (addCalibrationImage sampleCv boardVGA (Size.mk 3 2) 25 freshEngine).1 = true ∧
    (addCalibrationImage sampleCv boardVGA (Size.mk 3 2) 25 freshEngine).2.image_size_
      = boardVGA.size :=
  ⟨by decide,
    (addCalibrationImage_session_size sampleCv boardQVGA (Size.mk 3 2) 25
      oneViewEngine).2.1 (by decide),
    by decide, by decide,
    (addCalibrationImage_session_size sampleCv boardVGA (Size.mk 3 2) 25
      freshEngine).1 (by decide) (by decide)⟩

/-- C7: when the image is non-empty and the pattern is found,
`addCalibrationImage` returns true and appends exactly one view at the end of
the stored views, whose object points are the grid of `generateObjectPoints`
for `pattern_size` and `square_size_mm` and whose image points are the refined corners, the earlier
views staying as they were and in order; when the image is empty or the
pattern is not found it returns false and the engine is unchanged. -/
theorem addCalibrationImage_appends_one_view {F : Type} [LinearOrderedField F] (cv : Cv F)
    (image : Image) (pattern_size : Size) (square_size_mm : F) (st : CalibrationEngine F) :
    (image.empty = false → (findChessboardCorners cv image pattern_size).1 = true →
      (addCalibrationImage cv image pattern_size square_size_mm st).1 = true ∧
      (addCalibrationImage cv image pattern_size square_size_mm st).2.object_points_
        = st.object_points_ ++ [objectPointGrid pattern_size square_size_mm] ∧
      (∃ corners,
        (addCalibrationImage cv image pattern_size square_size_mm st).2.image_points_
          = st.image_points_ ++ [corners]) ∧
      (addCalibrationImage cv image pattern_size square_size_mm
          st).2.getNumCalibrationImages = st.getNumCalibrationImages + 1 ∧
      (∀ k, k < st.object_points_.length →
        (addCalibrationImage cv image pattern_size square_size_mm st).2.object_points_[k]?
          = st.object_points_[k]?) ∧
      (∀ k, k < st.image_points_.length →
        (addCalibrationImage cv image pattern_size square_size_mm st).2.image_points_[k]?
          = st.image_points_[k]?)) ∧
    (image.empty = true ∨ (findChessboardCorners cv image pattern_size).1 = false →
      (addCalibrationImage cv image pattern_size square_size_mm st).1 = false ∧
      (addCalibrationImage cv image pattern_size square_size_mm st).2 = st ∧
      (addCalibrationImage cv image pattern_size square_size_mm st).2.image_points_
        = st.image_points_ ∧
      (addCalibrationImage cv image pattern_size square_size_mm st).2.object_points_
        = st.object_points_) := by
  constructor
  · intro he hf
    obtain ⟨h1, h2, h3, _, _⟩ :=
      addCalibrationImage_accepted cv image pattern_size square_size_mm st he hf
    refine ⟨h1, h3, ⟨_, h2⟩, ?_, ?_, ?_⟩
    · simp [CalibrationEngine.getNumCalibrationImages, h2]
    · intro k hk
      rw [h3, List.getElem?_append_left hk]
    · intro k hk
      rw [h2, List.getElem?_append_left hk]
  · intro h
    rw [addCalibrationImage_rejected cv image pattern_size square_size_mm st h]
    exact ⟨rfl, rfl, rfl, rfl⟩

theorem addCalibrationImage_appends_one_view_witness :
    boardVGA.empty = false ∧
    (findChessboardCorners sampleCv boardVGA (Size.mk 3 2)).1 = true ∧
    (addCalibrationImage sampleCv boardVGA (Size.mk 3 2) 25 oneViewEngine).1 = true ∧
    (addCalibrationImage sampleCv boardVGA (Size.mk 3 2) 25 oneViewEngine).2.object_points_
      = oneViewEngine.object_points_ ++ [objectPointGrid (Size.mk 3 2) 25] ∧
    (findChessboardCorners sampleCv blankVGA (Size.mk 3 2)).1 = false ∧
    (addCalibrationImage sampleCv blankVGA (Size.mk 3 2) 25 oneViewEngine).2 = oneViewEngine ∧
    noImage.empty = true ∧
    (addCalibrationImage sampleCv noImage (Size.mk 3 2) 25 oneViewEngine).1 = false :=
  ⟨by decide, by decide,
    ((addCalibrationImage_appends_one_view sampleCv boardVGA (Size.mk 3 2) 25
      oneViewEngine).1 (by decide) (by decide)).1,
    ((addCalibrationImage_appends_one_view sampleCv boardVGA (Size.mk 3 2) 25
      oneViewEngine).1 (by decide) (by decide)).2.1,
    by decide,
    ((addCalibrationImage_appends_one_view sampleCv blankVGA (Size.mk 3 2) 25
      oneViewEngine).2 (Or.inr (by decide))).2.1,
    by decide,
    ((addCalibrationImage_appends_one_view sampleCv noImage (Size.mk 3 2) 25
      oneViewEngine).2 (Or.inl (by decide))).1⟩

/-! ## `computeReprojectionError` without a calibration -/

/-- C5: on an engine whose calibrated flag is false, whatever views it holds,
`computeReprojectionError` returns `-1`, which is negative, and the engine
after the call is the engine before it. -/
theorem computeReprojectionError_uncalibrated {F : Type} [LinearOrderedField F] (cv : Cv F)
    (st : CalibrationEngine F) (h : st.isCalibrated = false) :
    (computeReprojectionError cv st).1 = Outcome.returned (-1) ∧
    (-1 : F) < 0 ∧
    (computeReprojectionError cv st).2 = st := by
  have hc : st.calibrated_ = false := h
  refine ⟨?_, by norm_num, ?_⟩ <;> simp [computeReprojectionError, hc]

theorem computeReprojectionError_uncalibrated_witness :
    oneViewEngine.isCalibrated = false ∧
    (computeReprojectionError sampleCv oneViewEngine).1 = Outcome.returned (-1) ∧
    (computeReprojectionError sampleCv oneViewEngine).2 = oneViewEngine :=
  ⟨by decide,
    (computeReprojectionError_uncalibrated sampleCv oneViewEngine (by decide)).1,
    (computeReprojectionError_uncalibrated sampleCv oneViewEngine (by decide)).2.2⟩

/-! ## `clearCalibrationData`, `saveCalibration`, `loadCalibration` -/

/-- C8: whenever `loadCalibration` returns false, the engine after the call is
the engine before it; in particular the previously held result and the
calibrated flag are unchanged. -/
theorem loadCalibration_failure_keeps_result {F : Type} [LinearOrderedField F] (cv : Cv F)
    (file : Option (Record F)) (st : CalibrationEngine F)
    (h : (loadCalibration cv file st).1 = Outcome.returned false) :
    (loadCalibration cv file st).2 = st ∧
    (loadCalibration cv file st).2.result_ = st.result_ ∧
    (loadCalibration cv file st).2.calibrated_ = st.calibrated_ := by
  cases file with
  | none => exact ⟨rfl, rfl, rfl⟩
  | some fs =>
    exfalso
    simp only [loadCalibration] at h
    split at h
    · simp at h
    · split at h <;> simp at h

theorem loadCalibration_failure_keeps_result_witness :
    (loadCalibration sampleCv none solvedEngine).1 = Outcome.returned false ∧
    (loadCalibration sampleCv none solvedEngine).2.result_ = solvedEngine.result_ ∧
    (loadCalibration sampleCv none solvedEngine).2.calibrated_ = solvedEngine.calibrated_ :=
  ⟨by decide,
    (loadCalibration_failure_keeps_result sampleCv none solvedEngine (by decide)).2.1,
    (loadCalibration_failure_keeps_result sampleCv none solvedEngine (by decide)).2.2⟩

/-- C9: when `saveCalibration` succeeds on an engine and writes the record
`record`, a `loadCalibration` of that record into any engine returns true and
yields a result whose camera matrix, distortion coefficients (dimensions and
entries), RMS reprojection error, image width and image height are the saved
ones; the engine that loads is calibrated afterwards. -/
theorem save_then_load_roundtrip {F : Type} [LinearOrderedField F] (cv : Cv F)
    (canOpen : Bool) (saved loading : CalibrationEngine F) (record : Record F)
    (hsave : saveCalibration canOpen saved = (true, some record)) :
    saved.isCalibrated = true ∧
    (loadCalibration cv (some record) loading).1 = Outcome.returned true ∧
    (loadCalibration cv (some record) loading).2.result_.camera_matrix
      = saved.result_.camera_matrix ∧
    (loadCalibration cv (some record) loading).2.result_.distortion_coeffs
      = saved.result_.distortion_coeffs ∧
    (loadCalibration cv (some record) loading).2.result_.reprojection_error
      = saved.result_.reprojection_error ∧
    (loadCalibration cv (some record) loading).2.result_.image_size.width
      = saved.result_.image_size.width ∧
    (loadCalibration cv (some record) loading).2.result_.image_size.height
      = saved.result_.image_size.height ∧
    (loadCalibration cv (some record) loading).2.isCalibrated = true := by
  unfold saveCalibration at hsave
  by_cases hc : saved.calibrated_ = true
  · by_cases ho : canOpen = true
    · simp only [hc, ho, Bool.not_true, Bool.false_eq_true, if_false, Prod.mk.injEq,
        Option.some.injEq, true_and] at hsave
      subst hsave
      refine ⟨hc, ?_, ?_, ?_, ?_, ?_, ?_, ?_⟩ <;>
        simp [loadCalibration, readMat, readReal, readInt, List.lookup,
          CalibrationEngine.isCalibrated]
    · simp [hc, ho] at hsave
  · simp [hc] at hsave

theorem save_then_load_roundtrip_witness :
    saveCalibration true solvedEngine
      = (true, some
          [ ("camera_matrix", Node.mat (Mat.mk 3 3 [500, 0, 320, 0, 500, 240, 0, 0, 1])),
            ("distortion_coefficients", Node.mat (Mat.mk 5 1 [1 / 10, -1 / 20, 0, 0, 1 / 100])),
            ("reprojection_error", Node.real (1 / 4)),
            ("image_width", Node.int 640),
            ("image_height", Node.int 480) ]) ∧
    (loadCalibration sampleCv (some
          [ ("camera_matrix", Node.mat (Mat.mk 3 3 [500, 0, 320, 0, 500, 240, 0, 0, 1])),
            ("distortion_coefficients", Node.mat (Mat.mk 5 1 [1 / 10, -1 / 20, 0, 0, 1 / 100])),
            ("reprojection_error", Node.real (1 / 4)),
            ("image_width", Node.int 640),
            ("image_height", Node.int 480) ]) freshEngine).2.result_.camera_matrix
      = solvedEngine.result_.camera_matrix :=
  ⟨rfl,
    (save_then_load_roundtrip sampleCv true solvedEngine freshEngine _ rfl).2.2.1⟩

/-- C10: after `clearCalibrationData`, from any state, the engine holds no
views, is not calibrated, has the session image size 0x0, and its result has
the 3x3 identity as camera matrix and an all-zero 8x1 distortion vector, which
are also the values of a freshly constructed engine; `calibrate` then returns
false and `computeReprojectionError` returns the negative value `-1`. -/
theorem clearCalibrationData_resets {F : Type} [LinearOrderedField F] (cv : Cv F)
    (flags : CalibrationFlags) (st : CalibrationEngine F) (e s : F) :
    (clearCalibrationData st).getNumCalibrationImages = 0 ∧
    (clearCalibrationData st).object_points_ = [] ∧
    (clearCalibrationData st).isCalibrated = false ∧
    (clearCalibrationData st).image_size_ = Size.mk 0 0 ∧
    (clearCalibrationData st).result_.camera_matrix
      = Mat.mk 3 3 [1, 0, 0, 0, 1, 0, 0, 0, 1] ∧
    (clearCalibrationData st).result_.distortion_coeffs
      = Mat.mk 8 1 [0, 0, 0, 0, 0, 0, 0, 0] ∧
    (CalibrationEngine.construct e s).getNumCalibrationImages = 0 ∧
    (CalibrationEngine.construct e s).isCalibrated = false ∧
    (CalibrationEngine.construct e s).image_size_ = (clearCalibrationData st).image_size_ ∧
    (CalibrationEngine.construct e s).result_.camera_matrix
      = (clearCalibrationData st).result_.camera_matrix ∧
    (CalibrationEngine.construct e s).result_.distortion_coeffs
      = (clearCalibrationData st).result_.distortion_coeffs ∧
    (calibrate cv flags (clearCalibrationData st)).1 = false ∧
    (computeReprojectionError cv (clearCalibrationData st)).1 = Outcome.returned (-1) ∧
    (-1 : F) < 0 := by
  refine ⟨rfl, rfl, rfl, rfl, ?_, ?_, rfl, rfl, rfl, rfl, rfl, ?_, ?_, by norm_num⟩
  · simp [clearCalibrationData, Mat.eye, List.range_succ]
  · simp [clearCalibrationData, Mat.zeros, List.replicate]
  · simp [calibrate, clearCalibrationData]
  · simp [computeReprojectionError, clearCalibrationData]

/-! ## `computeReprojectionError` on a calibrated engine -/

/-- C6 at a failing input: after one accepted view and a successful
`loadCalibration`, the engine is calibrated and holds one view but no rotation
and no translation, and `computeReprojectionError` reads `result_.rvecs[0]`
past the end of the vector instead of returning a value. -/
theorem computeReprojectionError_after_load_out_of_range :
    loadedOneViewEngine.isCalibrated = true ∧
    loadedOneViewEngine.getNumCalibrationImages = 1 ∧
    loadedOneViewEngine.result_.rvecs = [] ∧
    loadedOneViewEngine.result_.tvecs = [] ∧
    (computeReprojectionError sampleCv loadedOneViewEngine).1
      = Outcome.fault Fault.outOfRange := by
  decide

theorem normL2_projectPoints {F : Type} [LinearOrderedField F] (cv : Cv F)
    (st : CalibrationEngine F) (i : Nat)
    (ho : i < st.object_points_.length) (hr : i < st.result_.rvecs.length)
    (ht : i < st.result_.tvecs.length) (hp : i < st.image_points_.length)
    (hpair : (st.image_points_.getD i []).length = (st.object_points_.getD i []).length) :
    normL2 cv st.image_points_[i]
        (projectPoints cv st.object_points_[i] st.result_.rvecs[i] st.result_.tvecs[i]
          st.result_.camera_matrix st.result_.distortion_coeffs)
      = Outcome.returned (cv.sqrt (viewSquaredError cv st i)) := by
  have e1 : st.image_points_.getD i [] = st.image_points_[i] := by
    simp [List.getD_eq_getElem?_getD, List.getElem?_eq_getElem hp]
  have e2 : st.object_points_.getD i [] = st.object_points_[i] := by
    simp [List.getD_eq_getElem?_getD, List.getElem?_eq_getElem ho]
  have e3 : st.result_.rvecs.getD i Mat.empty = st.result_.rvecs[i] := by
    simp [List.getD_eq_getElem?_getD, List.getElem?_eq_getElem hr]
  have e4 : st.result_.tvecs.getD i Mat.empty = st.result_.tvecs[i] := by
    simp [List.getD_eq_getElem?_getD, List.getElem?_eq_getElem ht]
  rw [e1, e2] at hpair
  unfold normL2 projectPoints viewSquaredError
  rw [e1, e2, e3, e4, List.length_map, if_pos hpair, List.zipWith_map_right]

theorem reprojectionLoop_sums {F : Type} [LinearOrderedField F] (cv : Cv F)
    (st : CalibrationEngine F)
    (hr : st.object_points_.length ≤ st.result_.rvecs.length)
    (ht : st.object_points_.length ≤ st.result_.tvecs.length)
    (hp : st.object_points_.length ≤ st.image_points_.length)
    (hpair : ∀ i, i < st.object_points_.length →
      (st.image_points_.getD i []).length = (st.object_points_.getD i []).length)
    (hexact : ∀ i, i < st.object_points_.length →
      cv.sqrt (viewSquaredError cv st i) * cv.sqrt (viewSquaredError cv st i)
        = viewSquaredError cv st i)
    (m : Nat) : ∀ (s : Nat) (total_error : F) (total_points : Nat),
      s + m ≤ st.object_points_.length →
      reprojectionLoop cv st (List.range' s m) (total_error, total_points)
        = Outcome.returned
            (total_error + ((List.range' s m).map (viewSquaredError cv st)).sum,
              total_points + ((List.range' s m).map
                (fun i => (st.object_points_.getD i []).length)).sum) := by
  induction m with
  | zero =>
    intro s total_error total_points _
    simp [reprojectionLoop]
  | succ m ih =>
    intro s total_error total_points hs
    have ho : s < st.object_points_.length := by omega
    have hr2 : s < st.result_.rvecs.length := by omega
    have ht2 : s < st.result_.tvecs.length := by omega
    have hp2 : s < st.image_points_.length := by omega
    have e2 : st.object_points_.getD s [] = st.object_points_[s] := by
      simp [List.getD_eq_getElem?_getD, List.getElem?_eq_getElem ho]
    rw [List.range'_succ]
    unfold reprojectionLoop
    simp only [List.getElem?_eq_getElem ho, List.getElem?_eq_getElem hr2,
      List.getElem?_eq_getElem ht2, List.getElem?_eq_getElem hp2]
    rw [normL2_projectPoints cv st s ho hr2 ht2 hp2 (hpair s ho)]
    simp only []
    rw [ih (s + 1) _ _ (by omega), hexact s ho, List.map_cons, List.sum_cons,
      List.map_cons, List.sum_cons, e2, add_assoc, Nat.add_assoc]

/-- Supporting C6: on a calibrated engine that holds a rotation, a translation
and an observation list for every stored view, the observations of each view
being as many as its object points, and on whose per-view sums the square root
is exact, `computeReprojectionError` returns `sqrt (S / N)` with `S` the sum of
all squared distances and `N` the number of points of all views; the engine is
unchanged, so a second call returns the same value. -/
theorem computeReprojectionError_rms {F : Type} [LinearOrderedField F] (cv : Cv F)
    (st : CalibrationEngine F)
    (hcal : st.isCalibrated = true)
    (hr : st.object_points_.length ≤ st.result_.rvecs.length)
    (ht : st.object_points_.length ≤ st.result_.tvecs.length)
    (hp : st.object_points_.length ≤ st.image_points_.length)
    (hpair : ∀ i, i < st.object_points_.length →
      (st.image_points_.getD i []).length = (st.object_points_.getD i []).length)
    (hexact : ∀ i, i < st.object_points_.length →
      cv.sqrt (viewSquaredError cv st i) * cv.sqrt (viewSquaredError cv st i)
        = viewSquaredError cv st i) :
    computeReprojectionError cv st
      = (Outcome.returned (cv.sqrt (totalSquaredError cv st / (totalPoints st : F))), st) ∧
    computeReprojectionError cv (computeReprojectionError cv st).2
      = computeReprojectionError cv st := by
  have hc : st.calibrated_ = true := hcal
  have hloop := reprojectionLoop_sums cv st hr ht hp hpair hexact
    st.object_points_.length 0 0 0 (by omega)
  have hrun : computeReprojectionError cv st
      = (Outcome.returned (cv.sqrt (totalSquaredError cv st / (totalPoints st : F))), st) := by
    unfold computeReprojectionError totalSquaredError totalPoints
    rw [List.range_eq_range', hloop]
    simp [hc]
  refine ⟨hrun, ?_⟩
  rw [hrun]
  exact hrun

theorem computeReprojectionError_rms_example :
    computeReprojectionError sampleCv posedEngine
      = (Outcome.returned (Rat.sqrt (25 / 2)), posedEngine) := by
  have h := (computeReprojectionError_rms sampleCv posedEngine (by decide) (by decide)
    (by decide) (by decide)
    (by intro i hi
        have h0 : i = 0 := by
          have : i < 1 := hi
          omega
        subst h0
        decide)
    (by intro i hi
        have h0 : i = 0 := by
          have : i < 1 := hi
          omega
        subst h0
        have hv : viewSquaredError sampleCv posedEngine 0 = 25 := by
          simp [viewSquaredError, posedEngine, solvedEngine, sampleCv, sqDist, dropZ]
          norm_num
        rw [hv]
        show Rat.sqrt 25 * Rat.sqrt 25 = 25
        norm_num [Rat.sqrt])).1
  have hS : totalSquaredError sampleCv posedEngine = 25 := by
    simp [totalSquaredError, viewSquaredError, posedEngine, solvedEngine, sampleCv, sqDist,
      dropZ, List.range_succ]
    norm_num
  have hN : totalPoints posedEngine = 2 := by decide
  rw [hS, hN] at h
  exact h

/-! ## The ISP pipeline: stage chaining -/

theorem thenStage_returned {F : Type} (rgb : PixelBuffer) (p : ISPParameters F)
    (stage : Stage F) : thenStage (Outcome.returned rgb, p) stage = stage p rgb := rfl

theorem thenStage_fault {F : Type} (what : Fault) (p : ISPParameters F) (stage : Stage F) :
    thenStage (Outcome.fault what, p) stage = (Outcome.fault what, p) := rfl

theorem thenStage_keeps_params {F : Type} (r : StageResult F) (f : ISPParameters F →
    PixelBuffer → Outcome PixelBuffer) :
    (thenStage r (fun p rgb => (f p rgb, p))).2 = r.2 := by
  obtain ⟨o, p⟩ := r
  cases o <;> rfl

theorem thenStage_gated {F : Type} (r : StageResult F) (flag : ISPParameters F → Bool)
    (stage : Stage F) :
    thenStage r (fun p rgb => if flag p then stage p rgb else (Outcome.returned rgb, p))
      = if flag r.2 then thenStage r stage else r := by
  obtain ⟨o, p⟩ := r
  cases o with
  | returned rgb => simp [thenStage]
  | fault what => by_cases h : flag p = true <;> simp [thenStage, h]

theorem grayWorldGains_sameExceptGains {F : Type} [LinearOrderedField F]
    (p : ISPParameters F) (mean : Scalar F) : sameExceptGains p (grayWorldGains p mean) := by
  unfold sameExceptGains grayWorldGains
  by_cases h0 : 0 < mean.val0 <;> by_cases h1 : 0 < mean.val1 <;>
    by_cases h2 : 0 < mean.val2 <;> simp [h0, h1, h2]

theorem sameExceptGains_refl {F : Type} (p : ISPParameters F) : sameExceptGains p p := rfl

theorem applyWhiteBalance_params {F : Type} [LinearOrderedField F] [FloorRing F]
    (p : ISPParameters F) (rgb : PixelBuffer) :
    (applyWhiteBalance p rgb).2 =
      if p.auto_wb then
        match (cvMean rgb : Outcome (Scalar F)) with
        | Outcome.returned mean => grayWorldGains p mean
        | Outcome.fault _ => p
      else p := by
  unfold applyWhiteBalance
  by_cases ha : p.auto_wb = true
  · simp only [ha, if_true]
    cases hm : (cvMean rgb : Outcome (Scalar F)) with
    | fault what => rfl
    | returned mean =>
      simp only []
      cases mulChannel rgb.depth (split rgb) 0 (grayWorldGains p mean).wb_blue with
      | fault what => rfl
      | returned channels0 =>
        simp only []
        cases mulChannel rgb.depth channels0 1 (grayWorldGains p mean).wb_green with
        | fault what => rfl
        | returned channels1 =>
          simp only []
          cases mulChannel rgb.depth channels1 2 (grayWorldGains p mean).wb_red with
          | fault what => rfl
          | returned channels2 => rfl
  · simp only [ha, Bool.false_eq_true, if_false]
    cases mulChannel rgb.depth (split rgb) 0 p.wb_blue with
    | fault what => rfl
    | returned channels0 =>
      simp only []
      cases mulChannel rgb.depth channels0 1 p.wb_green with
      | fault what => rfl
      | returned channels1 =>
        simp only []
        cases mulChannel rgb.depth channels1 2 p.wb_red with
        | fault what => rfl
        | returned channels2 => rfl

theorem applyWhiteBalance_sameExceptGains {F : Type} [LinearOrderedField F] [FloorRing F]
    (p : ISPParameters F) (rgb : PixelBuffer) :
    sameExceptGains p (applyWhiteBalance p rgb).2 := by
  rw [applyWhiteBalance_params]
  by_cases ha : p.auto_wb = true
  · rw [if_pos ha]
    cases (cvMean rgb : Outcome (Scalar F)) with
    | fault what => exact sameExceptGains_refl p
    | returned mean => exact grayWorldGains_sameExceptGains p mean
  · rw [if_neg ha]
    exact sameExceptGains_refl p

theorem sameExceptGains_flags {F : Type} (p q : ISPParameters F) (h : sameExceptGains p q) :
    q.denoise_enabled = p.denoise_enabled ∧ q.sharpen_enabled = p.sharpen_enabled := by
  unfold sameExceptGains at h
  constructor
  · exact congrArg (fun x => x.denoise_enabled) h
  · exact congrArg (fun x => x.sharpen_enabled) h

theorem stages_after_start {F : Type} [LinearOrderedField F] [FloorRing F] (lib : Imgproc F)
    (p : ISPParameters F) (start : PixelBuffer) :
    thenStage
        (thenStage
          (thenStage
            (thenStage
              (thenStage
                (thenStage (Outcome.returned start, p) applyWhiteBalance)
                (fun p rgb => (applyColorCorrection p rgb, p)))
              (fun p rgb => (applyGamma p rgb, p)))
            (fun p rgb => (applyToneMapping lib p rgb, p)))
          (fun p rgb =>
            if p.denoise_enabled then (Outcome.returned (applyDenoising lib p rgb), p)
            else (Outcome.returned rgb, p)))
        (fun p rgb =>
          if p.sharpen_enabled then (applySharpening lib p rgb, p)
          else (Outcome.returned rgb, p))
      = (([applyWhiteBalance, colorCorrectionStage, gammaStage, toneMappingStage lib] ++
          (if p.denoise_enabled then [denoiseStage lib] else []) ++
          (if p.sharpen_enabled then [sharpenStage lib] else [])).foldl thenStage
          (Outcome.returned start, p)) := by
  have h4 : (thenStage
            (thenStage
              (thenStage
                (thenStage (Outcome.returned start, p) applyWhiteBalance)
                (fun p rgb => (applyColorCorrection p rgb, p)))
              (fun p rgb => (applyGamma p rgb, p)))
            (fun p rgb => (applyToneMapping lib p rgb, p))).2
      = (applyWhiteBalance p start).2 := by
    rw [thenStage_keeps_params _ (fun p rgb => applyToneMapping lib p rgb),
      thenStage_keeps_params _ (fun p rgb => applyGamma p rgb),
      thenStage_keeps_params _ (fun p rgb => applyColorCorrection p rgb),
      thenStage_returned]
  obtain ⟨hd, hs⟩ := sameExceptGains_flags p _ (applyWhiteBalance_sameExceptGains p start)
  rw [thenStage_gated _ (fun p => p.denoise_enabled)
      (fun p rgb => (Outcome.returned (applyDenoising lib p rgb), p)),
    thenStage_gated _ (fun p => p.sharpen_enabled) (fun p rgb => (applySharpening lib p rgb, p))]
  simp only [List.foldl_append, List.foldl_cons, List.foldl_nil]
  have h5 : (thenStage
            (thenStage
              (thenStage
                (thenStage
                  (thenStage (Outcome.returned start, p) applyWhiteBalance)
                  (fun p rgb => (applyColorCorrection p rgb, p)))
                (fun p rgb => (applyGamma p rgb, p)))
              (fun p rgb => (applyToneMapping lib p rgb, p)))
            (fun p rgb => (Outcome.returned (applyDenoising lib p rgb), p))).2
        = (applyWhiteBalance p start).2 := by
    rw [thenStage_keeps_params _ (fun p rgb => Outcome.returned (applyDenoising lib p rgb)),
      h4]
  cases hde : p.denoise_enabled <;> cases hse : p.sharpen_enabled <;>
    simp only [h4, h5, hd, hs, hde, hse, if_true, if_false, Bool.false_eq_true,
      List.foldl_nil, List.foldl_cons] <;> rfl

theorem processRGB_eq_runStages {F : Type} [LinearOrderedField F] [FloorRing F]
    (lib : Imgproc F) (pl : ISPPipeline F) (input_rgb output_rgb : PixelBuffer)
    (he : input_rgb.empty = false) :
    processRGB lib pl input_rgb output_rgb
      = ((runStages (enabledStages lib pl.params_) pl.params_ input_rgb).1,
          ISPPipeline.mk (runStages (enabledStages lib pl.params_) pl.params_ input_rgb).2) := by
  unfold processRGB runStages enabledStages
  simp only [he, Bool.false_eq_true, if_false]
  by_cases hl : (pl.params_.lens_correction && !pl.params_.camera_matrix.isEmpty &&
      !pl.params_.distortion_coeffs.isEmpty) = true
  · simp only [hl, if_true, List.append_assoc, List.foldl_append, List.foldl_cons,
      List.foldl_nil]
    rw [stages_after_start]
    simp only [List.append_assoc, List.foldl_append, List.foldl_cons, List.foldl_nil,
      lensStage, thenStage_returned]
  · simp only [hl, Bool.false_eq_true, if_false, List.append_assoc, List.foldl_append,
      List.foldl_cons, List.foldl_nil, List.nil_append]
    rw [stages_after_start]
    simp only [List.append_assoc, List.foldl_append, List.foldl_cons, List.foldl_nil]

theorem thenStage_gated_keeps_params {F : Type} (r : StageResult F)
    (flag : ISPParameters F → Bool) (f : ISPParameters F → PixelBuffer → Outcome PixelBuffer) :
    (thenStage r (fun p rgb => if flag p then (f p rgb, p) else (Outcome.returned rgb, p))).2
      = r.2 := by
  obtain ⟨o, p⟩ := r
  cases o with
  | returned rgb => by_cases h : flag p = true <;> simp [thenStage, h]
  | fault what => rfl

theorem thenStage_fault_fst {F : Type} (r : StageResult F) (what : Fault)
    (h : r.1 = Outcome.fault what) (stage : Stage F) :
    (thenStage r stage).1 = Outcome.fault what := by
  obtain ⟨o, p⟩ := r
  cases o with
  | returned rgb => simp at h
  | fault w =>
    simp only [Outcome.fault.injEq] at h
    subst h
    rfl

theorem processRGB_params {F : Type} [LinearOrderedField F] [FloorRing F]
    (lib : Imgproc F) (pl : ISPPipeline F) (input_rgb output_rgb : PixelBuffer)
    (he : input_rgb.empty = false) :
    (processRGB lib pl input_rgb output_rgb).2.params_
      = (applyWhiteBalance pl.params_
          (if pl.params_.lens_correction && !pl.params_.camera_matrix.isEmpty &&
              !pl.params_.distortion_coeffs.isEmpty then
            applyLensCorrection lib pl.params_ input_rgb
          else input_rgb)).2 := by
  unfold processRGB
  simp only [he, Bool.false_eq_true, if_false]
  rw [thenStage_gated_keeps_params _ (fun p => p.sharpen_enabled)
      (fun p rgb => applySharpening lib p rgb),
    thenStage_gated_keeps_params _ (fun p => p.denoise_enabled)
      (fun p rgb => Outcome.returned (applyDenoising lib p rgb)),
    thenStage_keeps_params _ (fun p rgb => applyToneMapping lib p rgb),
    thenStage_keeps_params _ (fun p rgb => applyGamma p rgb),
    thenStage_keeps_params _ (fun p rgb => applyColorCorrection p rgb)]
  by_cases hl : (pl.params_.lens_correction && !pl.params_.camera_matrix.isEmpty &&
      !pl.params_.distortion_coeffs.isEmpty) = true
  · simp only [hl, if_true, thenStage_returned]
  · simp only [hl, Bool.false_eq_true, if_false, thenStage_returned]

/-! ## `processRGB` and `processRaw` -/

theorem processRGB_of_empty {F : Type} [LinearOrderedField F] [FloorRing F]
    (lib : Imgproc F) (pl : ISPPipeline F) (input_rgb output_rgb : PixelBuffer)
    (h : input_rgb.empty = true) :
    processRGB lib pl input_rgb output_rgb = (Outcome.returned PixelBuffer.blank, pl) := by
  unfold processRGB
  rw [if_pos h]

/-- C11: on an empty input buffer `processRGB` sets the output to an empty
buffer and runs no stage, whatever the parameters, the library and the prior
output: the pipeline after the call, with all its parameters and thus the
white-balance gains, is the pipeline before it. -/
theorem processRGB_empty_input {F : Type} [LinearOrderedField F] [FloorRing F]
    (lib : Imgproc F) (pl : ISPPipeline F) (input_rgb output_rgb : PixelBuffer)
    (h : input_rgb.empty = true) :
    (processRGB lib pl input_rgb output_rgb).1 = Outcome.returned PixelBuffer.blank ∧
    PixelBuffer.blank.empty = true ∧
    (processRGB lib pl input_rgb output_rgb).2 = pl ∧
    (processRGB lib pl input_rgb output_rgb).2.params_ = pl.params_ ∧
    (processRGB lib pl input_rgb output_rgb).2.params_.wb_red = pl.params_.wb_red ∧
    (processRGB lib pl input_rgb output_rgb).2.params_.wb_green = pl.params_.wb_green ∧
    (processRGB lib pl input_rgb output_rgb).2.params_.wb_blue = pl.params_.wb_blue := by
  rw [processRGB_of_empty lib pl input_rgb output_rgb h]
  exact ⟨rfl, rfl, rfl, rfl, rfl, rfl, rfl⟩

theorem processRGB_empty_input_witness :
    noBuffer.empty = true ∧
    (processRGB sampleImgproc freshPipeline noBuffer onePixel).1
      = Outcome.returned PixelBuffer.blank ∧
    (processRGB sampleImgproc freshPipeline noBuffer onePixel).2 = freshPipeline :=
  ⟨rfl,
    (processRGB_empty_input sampleImgproc freshPipeline noBuffer onePixel rfl).1,
    (processRGB_empty_input sampleImgproc freshPipeline noBuffer onePixel rfl).2.2.1⟩

/-- C12 at a failing input: `processRaw` on an empty raw buffer, with an output
argument that holds a 1x1 image, returns at once and leaves that image in the
output argument, where `processRGB` on the same empty buffer sets the output
to an empty buffer; neither changes the pipeline. -/
theorem processRaw_empty_keeps_prior_output :
    noBuffer.empty = true ∧
    onePixel.empty = false ∧
    processRaw sampleImgproc freshPipeline noBuffer onePixel
      = (Outcome.returned onePixel, freshPipeline) ∧
    processRGB sampleImgproc freshPipeline noBuffer onePixel
      = (Outcome.returned PixelBuffer.blank, freshPipeline) :=
  ⟨rfl, rfl, rfl, rfl⟩

theorem processRaw_empty {F : Type} [LinearOrderedField F] [FloorRing F]
    (lib : Imgproc F) (pl : ISPPipeline F) (raw_bayer output_rgb : PixelBuffer)
    (h : raw_bayer.empty = true) :
    processRaw lib pl raw_bayer output_rgb = (Outcome.returned output_rgb, pl) := by
  unfold processRaw
  rw [if_pos h]

/-- C13: on a non-empty input `processRGB` is the composition of the stages in
the fixed order (lens correction only if enabled and both camera matrix and
distortion coefficients are present, white balance, colour correction, gamma,
tone mapping, denoise only if enabled, sharpen only if enabled), each applied
to the output of the one before; on a non-empty raw buffer `processRaw` is
`processRGB` of the demosaiced buffer, hence that same chain after
`demosaicBayer` when the demosaiced buffer is not empty. -/
theorem processRGB_is_stage_chain {F : Type} [LinearOrderedField F] [FloorRing F]
    (lib : Imgproc F) (pl : ISPPipeline F) (input_rgb raw_bayer output_rgb : PixelBuffer) :
    (input_rgb.empty = false →
      processRGB lib pl input_rgb output_rgb
        = ((runStages (enabledStages lib pl.params_) pl.params_ input_rgb).1,
            ISPPipeline.mk
              (runStages (enabledStages lib pl.params_) pl.params_ input_rgb).2)) ∧
    (raw_bayer.empty = false →
      processRaw lib pl raw_bayer output_rgb
        = processRGB lib pl (demosaicBayer lib pl.params_ raw_bayer) output_rgb) ∧
    (raw_bayer.empty = false → (demosaicBayer lib pl.params_ raw_bayer).empty = false →
      processRaw lib pl raw_bayer output_rgb
        = ((runStages (enabledStages lib pl.params_) pl.params_
              (demosaicBayer lib pl.params_ raw_bayer)).1,
            ISPPipeline.mk
              (runStages (enabledStages lib pl.params_) pl.params_
                (demosaicBayer lib pl.params_ raw_bayer)).2)) := by
  have hraw : raw_bayer.empty = false →
      processRaw lib pl raw_bayer output_rgb
        = processRGB lib pl (demosaicBayer lib pl.params_ raw_bayer) output_rgb := by
    intro hr
    unfold processRaw
    simp only [hr, Bool.false_eq_true, if_false]
  refine ⟨processRGB_eq_runStages lib pl input_rgb output_rgb, hraw, ?_⟩
  intro hr hd
  rw [hraw hr]
  exact processRGB_eq_runStages lib pl _ output_rgb hd

theorem processRGB_is_stage_chain_witness :
    onePixel.empty = false ∧
    processRGB sampleImgproc freshPipeline onePixel noBuffer
      = ((runStages (enabledStages sampleImgproc freshPipeline.params_)
            freshPipeline.params_ onePixel).1,
          ISPPipeline.mk
            (runStages (enabledStages sampleImgproc freshPipeline.params_)
              freshPipeline.params_ onePixel).2) ∧
    grayPixel.empty = false ∧
    processRaw sampleImgproc freshPipeline grayPixel noBuffer
      = processRGB sampleImgproc freshPipeline
          (demosaicBayer sampleImgproc freshPipeline.params_ grayPixel) noBuffer :=
  ⟨rfl,
    (processRGB_is_stage_chain sampleImgproc freshPipeline onePixel grayPixel noBuffer).1 rfl,
    rfl,
    (processRGB_is_stage_chain sampleImgproc freshPipeline onePixel grayPixel noBuffer).2.1
      rfl⟩

/-! ## `processRGB` and the parameters -/

theorem freshPipeline_params :
    freshPipeline.params_.auto_wb = true ∧ freshPipeline.params_.lens_correction = false ∧
    freshPipeline.params_.wb_blue = 1 ∧ freshPipeline.params_.wb_green = 1 ∧
    freshPipeline.params_.wb_red = 1 :=
  ⟨rfl, rfl, rfl, rfl, rfl⟩

theorem onePixel_gains :
    (applyWhiteBalance freshPipeline.params_ onePixel).2.wb_blue = 2 ∧
    (applyWhiteBalance freshPipeline.params_ onePixel).2.wb_green = 1 ∧
    (applyWhiteBalance freshPipeline.params_ onePixel).2.wb_red = 2 / 3 := by
  rw [applyWhiteBalance_params]
  have ha : freshPipeline.params_.auto_wb = true := rfl
  have hm : (cvMean onePixel : Outcome (Scalar ℚ))
      = Outcome.returned (Scalar.mk 10 20 30 0) := by
    simp [cvMean, channelMean, onePixel]
  rw [if_pos ha, hm]
  simp only [grayWorldGains]
  norm_num

/-- C14, as stated, fails: a freshly constructed pipeline is in automatic
white-balance mode with all gains 1; after `processRGB` on the 1x1 image with
the pixel `(10, 20, 30)` the stored gains are `wb_blue = 2` and
`wb_red = 2/3`. -/
theorem processRGB_auto_wb_overwrites_gains :
    onePixel.empty = false ∧
    freshPipeline.params_.wb_blue = 1 ∧
    freshPipeline.params_.wb_red = 1 ∧
    (processRGB sampleImgproc freshPipeline onePixel noBuffer).2.params_.wb_blue = 2 ∧
    (processRGB sampleImgproc freshPipeline onePixel noBuffer).2.params_.wb_red = 2 / 3 ∧
    (processRGB sampleImgproc freshPipeline onePixel noBuffer).2 ≠ freshPipeline := by
  have hp := processRGB_params sampleImgproc freshPipeline onePixel noBuffer rfl
  have hl : (freshPipeline.params_.lens_correction && !freshPipeline.params_.camera_matrix.isEmpty
      && !freshPipeline.params_.distortion_coeffs.isEmpty) = false := rfl
  rw [hl] at hp
  simp only [Bool.false_eq_true, if_false] at hp
  obtain ⟨hb, _, hr⟩ := onePixel_gains
  refine ⟨rfl, rfl, rfl, ?_, ?_, ?_⟩
  · rw [hp, hb]
  · rw [hp, hr]
  · intro hcontra
    have h1 : (processRGB sampleImgproc freshPipeline onePixel noBuffer).2.params_.wb_blue
        = freshPipeline.params_.wb_blue := by rw [hcontra]
    rw [hp, hb] at h1
    have h2 : freshPipeline.params_.wb_blue = 1 := rfl
    rw [h2] at h1
    norm_num at h1

/-- C14, amended: a `processRGB` run leaves every field of the parameters other
than the three white-balance gains as it was (on an empty input the gains
too); with automatic white balance off it leaves the gains as well, so the
pipeline after the call is the pipeline before it. -/
theorem processRGB_keeps_other_parameters {F : Type} [LinearOrderedField F] [FloorRing F]
    (lib : Imgproc F) (pl : ISPPipeline F) (input_rgb output_rgb : PixelBuffer) :
    (processRGB lib pl input_rgb output_rgb).2.params_.demosaic_method
      = pl.params_.demosaic_method ∧
    (processRGB lib pl input_rgb output_rgb).2.params_.auto_wb = pl.params_.auto_wb ∧
    (processRGB lib pl input_rgb output_rgb).2.params_.color_matrix
      = pl.params_.color_matrix ∧
    (processRGB lib pl input_rgb output_rgb).2.params_.gamma = pl.params_.gamma ∧
    (processRGB lib pl input_rgb output_rgb).2.params_.gamma_lut = pl.params_.gamma_lut ∧
    (processRGB lib pl input_rgb output_rgb).2.params_.exposure = pl.params_.exposure ∧
    (processRGB lib pl input_rgb output_rgb).2.params_.contrast = pl.params_.contrast ∧
    (processRGB lib pl input_rgb output_rgb).2.params_.brightness = pl.params_.brightness ∧
    (processRGB lib pl input_rgb output_rgb).2.params_.denoise_enabled
      = pl.params_.denoise_enabled ∧
    (processRGB lib pl input_rgb output_rgb).2.params_.denoise_strength
      = pl.params_.denoise_strength ∧
    (processRGB lib pl input_rgb output_rgb).2.params_.sharpen_enabled
      = pl.params_.sharpen_enabled ∧
    (processRGB lib pl input_rgb output_rgb).2.params_.sharpen_strength
      = pl.params_.sharpen_strength ∧
    (processRGB lib pl input_rgb output_rgb).2.params_.distortion_coeffs
      = pl.params_.distortion_coeffs ∧
    (processRGB lib pl input_rgb output_rgb).2.params_.camera_matrix
      = pl.params_.camera_matrix ∧
    (processRGB lib pl input_rgb output_rgb).2.params_.lens_correction
      = pl.params_.lens_correction ∧
    (input_rgb.empty = true → (processRGB lib pl input_rgb output_rgb).2 = pl) ∧
    (pl.params_.auto_wb = false → (processRGB lib pl input_rgb output_rgb).2 = pl) := by
  have hsame : sameExceptGains pl.params_ (processRGB lib pl input_rgb output_rgb).2.params_ := by
    by_cases he : input_rgb.empty = true
    · rw [processRGB_of_empty lib pl input_rgb output_rgb he]
      exact sameExceptGains_refl _
    · have he2 : input_rgb.empty = false := by simpa using he
      rw [processRGB_params lib pl input_rgb output_rgb he2]
      exact applyWhiteBalance_sameExceptGains _ _
  have hmanual : pl.params_.auto_wb = false →
      (processRGB lib pl input_rgb output_rgb).2 = pl := by
    intro ha
    by_cases he : input_rgb.empty = true
    · rw [processRGB_of_empty lib pl input_rgb output_rgb he]
    · have he2 : input_rgb.empty = false := by simpa using he
      have hp := processRGB_params lib pl input_rgb output_rgb he2
      rw [applyWhiteBalance_params, ha] at hp
      simp only [Bool.false_eq_true, if_false] at hp
      cases hq : (processRGB lib pl input_rgb output_rgb).2 with
      | mk params =>
        rw [hq] at hp
        simp only at hp
        rw [hp]
  unfold sameExceptGains at hsame
  refine ⟨?_, ?_, ?_, ?_, ?_, ?_, ?_, ?_, ?_, ?_, ?_, ?_, ?_, ?_, ?_, ?_, hmanual⟩
  · exact congrArg (fun x => x.demosaic_method) hsame
  · exact congrArg (fun x => x.auto_wb) hsame
  · exact congrArg (fun x => x.color_matrix) hsame
  · exact congrArg (fun x => x.gamma) hsame
  · exact congrArg (fun x => x.gamma_lut) hsame
  · exact congrArg (fun x => x.exposure) hsame
  · exact congrArg (fun x => x.contrast) hsame
  · exact congrArg (fun x => x.brightness) hsame
  · exact congrArg (fun x => x.denoise_enabled) hsame
  · exact congrArg (fun x => x.denoise_strength) hsame
  · exact congrArg (fun x => x.sharpen_enabled) hsame
  · exact congrArg (fun x => x.sharpen_strength) hsame
  · exact congrArg (fun x => x.distortion_coeffs) hsame
  · exact congrArg (fun x => x.camera_matrix) hsame
  · exact congrArg (fun x => x.lens_correction) hsame
  · intro he
    rw [processRGB_of_empty lib pl input_rgb output_rgb he]

theorem processRGB_keeps_other_parameters_witness :
    manualPipeline.params_.auto_wb = false ∧
    (processRGB sampleImgproc manualPipeline onePixel noBuffer).2 = manualPipeline ∧
    (processRGB sampleImgproc freshPipeline onePixel noBuffer).2.params_.gamma
      = freshPipeline.params_.gamma :=
  ⟨rfl,
    (processRGB_keeps_other_parameters sampleImgproc manualPipeline onePixel noBuffer).2.2.2.2.2.2.2.2.2.2.2.2.2.2.2.2
      rfl,
    (processRGB_keeps_other_parameters sampleImgproc freshPipeline onePixel noBuffer).2.2.2.1⟩

/-! ## Channel access in `applyWhiteBalance` -/

theorem split_length (rgb : PixelBuffer) : (split rgb).length = rgb.chans := by
  simp [split]

theorem mulChannel_in_range {F : Type} [LinearOrderedField F] [FloorRing F] (depth : Nat)
    (channels : List (List Int)) (c : Nat) (gain : F) (h : c < channels.length) :
    ∃ scaled, mulChannel depth channels c gain = Outcome.returned scaled ∧
      scaled.length = channels.length := by
  unfold mulChannel
  rw [List.getElem?_eq_getElem h]
  exact ⟨_, rfl, by simp⟩

theorem mulChannel_out_of_range {F : Type} [LinearOrderedField F] [FloorRing F] (depth : Nat)
    (channels : List (List Int)) (c : Nat) (gain : F) (h : channels.length ≤ c) :
    mulChannel depth channels c gain = Outcome.fault Fault.outOfRange := by
  unfold mulChannel
  rw [List.getElem?_eq_none h]

theorem applyWhiteBalance_few_channels {F : Type} [LinearOrderedField F] [FloorRing F]
    (p : ISPParameters F) (rgb : PixelBuffer) (h : rgb.chans < 3) :
    (applyWhiteBalance p rgb).1 = Outcome.fault Fault.outOfRange := by
  have hmean : ∃ mean, (cvMean rgb : Outcome (Scalar F)) = Outcome.returned mean := by
    unfold cvMean
    rw [if_neg (by omega)]
    exact ⟨_, rfl⟩
  obtain ⟨mean, hmean⟩ := hmean
  have key : ∀ p1 : ISPParameters F,
      (match mulChannel rgb.depth (split rgb) 0 p1.wb_blue with
        | Outcome.fault what => ((Outcome.fault what, p1) : StageResult F)
        | Outcome.returned channels0 =>
          match mulChannel rgb.depth channels0 1 p1.wb_green with
          | Outcome.fault what => (Outcome.fault what, p1)
          | Outcome.returned channels1 =>
            match mulChannel rgb.depth channels1 2 p1.wb_red with
            | Outcome.fault what => (Outcome.fault what, p1)
            | Outcome.returned channels2 =>
              (Outcome.returned
                { rgb with
                  chans := channels2.length
                  depth := 0
                  data := (normalizeMinMax (F := F) rgb.depth (merge channels2)).map
                    (fun (px : List Int) => px.map (saturate 0)) },
                p1)).1 = Outcome.fault Fault.outOfRange := by
    intro p1
    by_cases h0 : 0 < rgb.chans
    · obtain ⟨channels0, e0, l0⟩ := mulChannel_in_range rgb.depth (split rgb) 0 p1.wb_blue
        (by rw [split_length]; exact h0)
      rw [e0]
      simp only []
      rw [split_length] at l0
      by_cases h1 : 1 < rgb.chans
      · obtain ⟨channels1, e1, l1⟩ := mulChannel_in_range rgb.depth channels0 1 p1.wb_green
          (by omega)
        rw [e1]
        simp only []
        rw [mulChannel_out_of_range rgb.depth channels1 2 p1.wb_red (by omega)]
      · rw [mulChannel_out_of_range rgb.depth channels0 1 p1.wb_green (by omega)]
    · rw [mulChannel_out_of_range rgb.depth (split rgb) 0 p1.wb_blue
        (by rw [split_length]; omega)]
  unfold applyWhiteBalance
  by_cases ha : p.auto_wb = true
  · simp only [ha, if_true, hmean]
    exact key _
  · simp only [ha, Bool.false_eq_true, if_false]
    exact key _

theorem processRGB_few_channels {F : Type} [LinearOrderedField F] [FloorRing F]
    (lib : Imgproc F) (pl : ISPPipeline F) (input_rgb output_rgb : PixelBuffer)
    (he : input_rgb.empty = false) (hl : pl.params_.lens_correction = false)
    (hc : input_rgb.chans < 3) :
    (processRGB lib pl input_rgb output_rgb).1 = Outcome.fault Fault.outOfRange := by
  unfold processRGB
  simp only [he, hl, Bool.false_eq_true, if_false, Bool.false_and, thenStage_returned]
  apply thenStage_fault_fst
  apply thenStage_fault_fst
  apply thenStage_fault_fst
  apply thenStage_fault_fst
  apply thenStage_fault_fst
  exact applyWhiteBalance_few_channels _ _ hc

/-- C15 at a failing input: on the well-formed, non-empty 1x1 one-channel 8-bit
buffer with the sample 128, `processRGB` of a freshly constructed pipeline
ends in `applyWhiteBalance`, which reads `channels[1]` of the one-element
vector that `cv::split` filled. -/
theorem processRGB_one_channel_out_of_range :
    grayPixel.wellFormed ∧
    grayPixel.empty = false ∧
    grayPixel.chans = 1 ∧
    grayPixel.depth = 0 ∧
    (split grayPixel).length = 1 ∧
    (processRGB sampleImgproc freshPipeline grayPixel noBuffer).1
      = Outcome.fault Fault.outOfRange := by
  refine ⟨?_, rfl, rfl, rfl, rfl, ?_⟩
  · simp [PixelBuffer.wellFormed, grayPixel, depthMin, depthMax]
  · exact processRGB_few_channels sampleImgproc freshPipeline grayPixel noBuffer rfl rfl
      (by decide)

/-! ## The gamma table -/

theorem gammaLoop_get {F : Type} [LinearOrderedField F] [FloorRing F] (lib : Imgproc F)
    (gamma_inv : F) (m : Nat) : ∀ (s : Nat) (lut : List (List Int)), s + m ≤ lut.length →
      (gammaLoop lib gamma_inv (List.range' s m) lut).length = lut.length ∧
      ∀ i, (gammaLoop lib gamma_inv (List.range' s m) lut)[i]? =
        if s ≤ i ∧ i < s + m then
          some [saturateCast 0 (lib.pow ((i : F) / 255) gamma_inv * 255)]
        else lut[i]? := by
  induction m with
  | zero =>
    intro s lut _
    refine ⟨rfl, ?_⟩
    intro i
    have hno : ¬ (s ≤ i ∧ i < s + 0) := by omega
    rw [if_neg hno]
    rfl
  | succ m ih =>
    intro s lut hs
    rw [List.range'_succ]
    unfold gammaLoop
    have hlen : (lut.set s [saturateCast 0 (lib.pow ((s : F) / 255) gamma_inv * 255)]).length
        = lut.length := by simp
    obtain ⟨h1, h2⟩ := ih (s + 1)
      (lut.set s [saturateCast 0 (lib.pow ((s : F) / 255) gamma_inv * 255)])
      (by rw [hlen]; omega)
    refine ⟨by rw [h1, hlen], ?_⟩
    intro i
    rw [h2 i]
    by_cases hi : s + 1 ≤ i ∧ i < s + 1 + m
    · have hi2 : s ≤ i ∧ i < s + (m + 1) := by omega
      rw [if_pos hi, if_pos hi2]
    · rw [if_neg hi]
      by_cases hsi : s = i
      · subst hsi
        have hi2 : s ≤ s ∧ s < s + (m + 1) := by omega
        rw [if_pos hi2, List.getElem?_set_self (by omega)]
      · have hi2 : ¬ (s ≤ i ∧ i < s + (m + 1)) := by omega
        rw [if_neg hi2, List.getElem?_set_ne hsi]

theorem generateGammaLUT_table {F : Type} [LinearOrderedField F] [FloorRing F]
    (lib : Imgproc F) (pl : ISPPipeline F) :
    (generateGammaLUT lib pl).params_.gamma_lut = gammaTable lib pl.params_.gamma := by
  unfold generateGammaLUT gammaTable
  simp only [PixelBuffer.mk.injEq, true_and]
  obtain ⟨h1, h2⟩ := gammaLoop_get lib (1 / pl.params_.gamma) 256 0
    (List.replicate 256 [0]) (by rw [List.length_replicate])
  rw [List.range_eq_range']
  apply List.ext_getElem?
  intro i
  rw [h2 i]
  by_cases hi : i < 256
  · have hi2 : 0 ≤ i ∧ i < 0 + 256 := by omega
    rw [if_pos hi2, List.getElem?_map, List.getElem?_range' _ _ hi]
    simp only [Option.map_some', one_mul, mul_one, zero_add, saturateCast, mul_comm]
  · have hi2 : ¬ (0 ≤ i ∧ i < 0 + 256) := by omega
    rw [if_neg hi2, List.getElem?_eq_none (by rw [List.length_replicate]; omega),
      List.getElem?_eq_none (by rw [List.length_map, List.length_range']; omega)]

theorem saturate_8U_range (v : Int) : 0 ≤ saturate 0 v ∧ saturate 0 v ≤ 255 := by
  unfold saturate depthMin depthMax
  constructor
  · exact le_max_left _ _
  · exact max_le (by norm_num) (min_le_left _ _)

theorem gammaTable_entry {F : Type} [LinearOrderedField F] [FloorRing F]
    (lib : Imgproc F) (gamma : F) (i : Nat) (hi : i < 256) :
    (gammaTable lib gamma).data[i]?
      = some [saturate 0 (cvRound (255 * lib.pow ((i : F) / 255) (1 / gamma)))] := by
  unfold gammaTable
  simp only [List.getElem?_map, List.getElem?_range hi, Option.map_some']

/-- C17: for every gamma greater than 0, the table `generateGammaLUT` stores is
a 1x256 one-channel 8-bit table with exactly 256 entries, and for every `i` in
`0 .. 255` entry `i` is `255 * (i / 255) ^ (1 / gamma)` rounded to the nearest
integer and saturated to `0 .. 255`. -/
theorem generateGammaLUT_entries {F : Type} [LinearOrderedField F] [FloorRing F]
    (lib : Imgproc F) (pl : ISPPipeline F) (_hgamma : 0 < pl.params_.gamma) :
    (generateGammaLUT lib pl).params_.gamma_lut.rows = 1 ∧
    (generateGammaLUT lib pl).params_.gamma_lut.cols = 256 ∧
    (generateGammaLUT lib pl).params_.gamma_lut.chans = 1 ∧
    (generateGammaLUT lib pl).params_.gamma_lut.depth = 0 ∧
    (generateGammaLUT lib pl).params_.gamma_lut.data.length = 256 ∧
    ∀ i : Nat, i < 256 →
      (generateGammaLUT lib pl).params_.gamma_lut.data[i]?
        = some [saturate 0
            (cvRound (255 * lib.pow ((i : F) / 255) (1 / pl.params_.gamma)))] ∧
      0 ≤ saturate 0 (cvRound (255 * lib.pow ((i : F) / 255) (1 / pl.params_.gamma))) ∧
      saturate 0 (cvRound (255 * lib.pow ((i : F) / 255) (1 / pl.params_.gamma))) ≤ 255 := by
  rw [generateGammaLUT_table]
  refine ⟨rfl, rfl, rfl, rfl,
    by simp only [gammaTable, List.length_map, List.length_range], ?_⟩
  intro i hi
  exact ⟨gammaTable_entry lib _ i hi, saturate_8U_range _⟩

theorem generateGammaLUT_entries_witness :
    (0 : ℚ) < freshPipeline.params_.gamma ∧
    (generateGammaLUT sampleImgproc freshPipeline).params_.gamma_lut.data.length = 256 ∧
    (generateGammaLUT sampleImgproc freshPipeline).params_.gamma_lut.data[128]?
      = some [saturate 0
          (cvRound (255 * sampleImgproc.pow (((128 : Nat) : ℚ) / 255)
            (1 / freshPipeline.params_.gamma)))] :=
  ⟨by
      show (0 : ℚ) < 22 / 10
      norm_num,
    (generateGammaLUT_entries sampleImgproc freshPipeline (by
      show (0 : ℚ) < 22 / 10
      norm_num)).2.2.2.2.1,
    ((generateGammaLUT_entries sampleImgproc freshPipeline (by
      show (0 : ℚ) < 22 / 10
      norm_num)).2.2.2.2.2 128 (by decide)).1⟩

/-- C18: `generateGammaLUT` is idempotent: a second call without a change of
gamma leaves the pipeline, with its 256-entry table and all other parameters,
as the first call left it. -/
theorem generateGammaLUT_idempotent {F : Type} [LinearOrderedField F] [FloorRing F]
    (lib : Imgproc F) (pl : ISPPipeline F) :
    generateGammaLUT lib (generateGammaLUT lib pl) = generateGammaLUT lib pl ∧
    (generateGammaLUT lib (generateGammaLUT lib pl)).params_.gamma_lut
      = (generateGammaLUT lib pl).params_.gamma_lut ∧
    (generateGammaLUT lib pl).params_.gamma = pl.params_.gamma ∧
    (generateGammaLUT lib pl).params_.gamma_lut.data.length = 256 := by
  have h : generateGammaLUT lib (generateGammaLUT lib pl) = generateGammaLUT lib pl := rfl
  refine ⟨h, by rw [h], rfl, ?_⟩
  rw [generateGammaLUT_table]
  simp only [gammaTable, List.length_map, List.length_range]

theorem cvRound_intCast {F : Type} [LinearOrderedField F] [FloorRing F] (n : Int) :
    cvRound (n : F) = n := by
  simp [cvRound]

theorem stalePipeline_entries :
    stalePipeline.params_.gamma_lut.data[128]? = some [128] ∧
    (gammaTable sampleImgproc stalePipeline.params_.gamma).data[128]? = some [64] := by
  have hstored : stalePipeline.params_.gamma_lut = gammaTable sampleImgproc 1 :=
    generateGammaLUT_table sampleImgproc
      (freshPipeline.modifyParameters (fun p => { p with gamma := 1 }))
  have hgamma : stalePipeline.params_.gamma = 1 / 2 := rfl
  rw [hstored, hgamma, gammaTable_entry _ _ 128 (by decide),
    gammaTable_entry _ _ 128 (by decide)]
  have e1 : (255 : ℚ) * sampleImgproc.pow (((128 : Nat) : ℚ) / 255) (1 / 1) = ((128 : Int) : ℚ) := by
    simp only [sampleImgproc]
    norm_num
  have f2 : ⌊(1 : ℚ) / (1 / 2)⌋ = 2 := by
    rw [Int.floor_eq_iff]
    norm_num
  have e2 : (255 : ℚ) * sampleImgproc.pow (((128 : Nat) : ℚ) / 255) (1 / (1 / 2))
      = 16384 / 255 := by
    simp only [sampleImgproc, f2]
    have ht : Int.toNat 2 = 2 := rfl
    rw [ht]
    norm_num
  have f3 : ⌊(16384 : ℚ) / 255⌋ = 64 := by
    rw [Int.floor_eq_iff]
    norm_num
  have r2 : cvRound ((16384 : ℚ) / 255) = 64 := by
    simp only [cvRound, f3]
    norm_num
  rw [e1, cvRound_intCast, e2, r2]
  constructor <;> rfl

/-- C16, as stated, fails: `setParameters` with a default-constructed
`ISPParameters` is reachable and stores an empty table next to the gamma 2.2,
not the 256-entry table of that gamma; and after the gamma is set to 1, the
table regenerated, and the gamma set to 1/2 through the `getParameters`
reference, entry 128 of the stored table is still 128 where the table of the
stored gamma has 64. -/
theorem gamma_lut_can_be_stale :
    Reachable sampleImgproc resetPipeline ∧
    resetPipeline.params_.gamma_lut = PixelBuffer.blank ∧
    resetPipeline.params_.gamma_lut ≠ gammaTable sampleImgproc resetPipeline.params_.gamma ∧
    Reachable sampleImgproc stalePipeline ∧
    stalePipeline.params_.gamma = 1 / 2 ∧
    stalePipeline.params_.gamma_lut.data[128]? = some [128] ∧
    (gammaTable sampleImgproc stalePipeline.params_.gamma).data[128]? = some [64] ∧
    stalePipeline.params_.gamma_lut ≠ gammaTable sampleImgproc stalePipeline.params_.gamma := by
  obtain ⟨hs1, hs2⟩ := stalePipeline_entries
  refine ⟨?_, rfl, ?_, ?_, rfl, hs1, hs2, ?_⟩
  · exact Reachable.setParameters _ _ Reachable.construct
  · intro h
    have hrows := congrArg (fun b => b.rows) h
    have h0 : resetPipeline.params_.gamma_lut.rows = 0 := rfl
    have h1 : (gammaTable sampleImgproc resetPipeline.params_.gamma).rows = 1 := rfl
    simp only [h0, h1] at hrows
    exact absurd hrows (by decide)
  · exact Reachable.setGamma _ _
      (Reachable.generateGammaLUT _ (Reachable.setGamma _ _ Reachable.construct))
  · intro h
    rw [h, hs2] at hs1
    simp at hs1

/-- C16, amended: the stored table is the 256-entry table of the stored gamma
right after construction and right after every `generateGammaLUT` call;
`setParameters` stores the table it is given together with the gamma it is
given, and a write of `gamma` through the `getParameters` reference leaves the
stored table as it was, so the table follows the gamma only once
`generateGammaLUT` is called again. -/
theorem gamma_lut_current_after_generate {F : Type} [LinearOrderedField F] [FloorRing F]
    (lib : Imgproc F) (pl : ISPPipeline F) (params : ISPParameters F) (gamma : F) :
    (ISPPipeline.construct lib).params_.gamma_lut
      = gammaTable lib (ISPPipeline.construct lib).params_.gamma ∧
    (generateGammaLUT lib pl).params_.gamma_lut
      = gammaTable lib (generateGammaLUT lib pl).params_.gamma ∧
    (generateGammaLUT lib pl).params_.gamma = pl.params_.gamma ∧
    (pl.setParameters params).params_.gamma_lut = params.gamma_lut ∧
    (pl.setParameters params).params_.gamma = params.gamma ∧
    (pl.modifyParameters (fun p => { p with gamma := gamma })).params_.gamma_lut
      = pl.params_.gamma_lut ∧
    (pl.modifyParameters (fun p => { p with gamma := gamma })).params_.gamma = gamma := by
  refine ⟨?_, ?_, rfl, rfl, rfl, rfl, rfl⟩
  · exact generateGammaLUT_table lib (ISPPipeline.mk ISPParameters.defaults)
  · exact generateGammaLUT_table lib pl

/-! ## `applyColorCorrection` -/

theorem applyColorCorrection_unit_diagonal {F : Type} [LinearOrderedField F] [FloorRing F]
    (p : ISPParameters F) (rgb : PixelBuffer)
    (h0 : p.color_matrix.val0 = 1) (h4 : p.color_matrix.val4 = 1)
    (h8 : p.color_matrix.val8 = 1) :
    applyColorCorrection p rgb = Outcome.returned rgb := by
  unfold applyColorCorrection
  rw [if_neg]
  simp [h0, h4, h8]

/-- C19: with the 3x3 identity as colour matrix, the colour-correction stage
returns every image, of any size and channel count, exactly as it was given. -/
theorem applyColorCorrection_identity {F : Type} [LinearOrderedField F] [FloorRing F]
    (p : ISPParameters F) (rgb : PixelBuffer) (h : p.color_matrix = Matx33f.eye) :
    applyColorCorrection p rgb = Outcome.returned rgb ∧
    (colorCorrectionStage p rgb).1 = Outcome.returned rgb ∧
    (colorCorrectionStage p rgb).2 = p := by
  have hrun : applyColorCorrection p rgb = Outcome.returned rgb :=
    applyColorCorrection_unit_diagonal p rgb (by rw [h]; rfl) (by rw [h]; rfl)
      (by rw [h]; rfl)
  exact ⟨hrun, hrun, rfl⟩

theorem applyColorCorrection_identity_witness :
    (ISPParameters.defaults : ISPParameters ℚ).color_matrix = Matx33f.eye ∧
    applyColorCorrection (ISPParameters.defaults : ISPParameters ℚ) onePixel
      = Outcome.returned onePixel :=
  ⟨rfl, (applyColorCorrection_identity ISPParameters.defaults onePixel rfl).1⟩

/-- C20 at a failing input: the colour matrix with unit diagonal and
`val[1] = 1` is not the identity and maps the colour vector `(10, 20, 30)` to
`(30, 20, 30)`, yet the stage is skipped and returns the pixel
`(10, 20, 30)` unchanged, because only `val[0]`, `val[4]` and `val[8]` are
compared with 1. -/
theorem applyColorCorrection_skips_unit_diagonal :
    shearParameters.color_matrix ≠ Matx33f.eye ∧
    shearParameters.color_matrix.mulVec (10, 20, 30) = (30, 20, 30) ∧
    onePixel.data = [[10, 20, 30]] ∧
    applyColorCorrection shearParameters onePixel = Outcome.returned onePixel := by
  refine ⟨?_, ?_, rfl, ?_⟩
  · intro h
    have h1 := congrArg (fun m => m.val1) h
    have e1 : shearParameters.color_matrix.val1 = 1 := rfl
    have e2 : (Matx33f.eye : Matx33f ℚ).val1 = 0 := rfl
    simp only [e1, e2] at h1
    norm_num at h1
  · simp only [Matx33f.mulVec, shearParameters]
    norm_num
  · exact applyColorCorrection_unit_diagonal shearParameters onePixel rfl rfl rfl

theorem foldl_set_range' {α : Type} (f : Nat → α) (m : Nat) :
    ∀ (s : Nat) (l : List α), s + m ≤ l.length →
      ((List.range' s m).foldl (fun acc k => acc.set k (f k)) l).length = l.length ∧
      ∀ i, ((List.range' s m).foldl (fun acc k => acc.set k (f k)) l)[i]? =
        if s ≤ i ∧ i < s + m then some (f i) else l[i]? := by
  induction m with
  | zero =>
    intro s l _
    refine ⟨rfl, ?_⟩
    intro i
    have hno : ¬ (s ≤ i ∧ i < s + 0) := by omega
    rw [if_neg hno]
    rfl
  | succ m ih =>
    intro s l hs
    rw [List.range'_succ, List.foldl_cons]
    have hlen : (l.set s (f s)).length = l.length := by simp
    obtain ⟨h1, h2⟩ := ih (s + 1) (l.set s (f s)) (by rw [hlen]; omega)
    refine ⟨by rw [h1, hlen], ?_⟩
    intro i
    rw [h2 i]
    by_cases hi : s + 1 ≤ i ∧ i < s + 1 + m
    · have hi2 : s ≤ i ∧ i < s + (m + 1) := by omega
      rw [if_pos hi, if_pos hi2]
    · rw [if_neg hi]
      by_cases hsi : s = i
      · subst hsi
        have hi2 : s ≤ s ∧ s < s + (m + 1) := by omega
        rw [if_pos hi2, List.getElem?_set_self (by omega)]
      · have hi2 : ¬ (s ≤ i ∧ i < s + (m + 1)) := by omega
        rw [if_neg hi2, List.getElem?_set_ne hsi]

theorem pixelPositions_index (rows cols : Nat) :
    (pixelPositions rows cols).map (fun ij => ij.1 * cols + ij.2)
      = List.range' 0 (rows * cols) := by
  unfold pixelPositions
  rw [List.map_flatten, List.map_map]
  have hrow : ((fun (l : List (Nat × Nat)) => l.map (fun ij => ij.1 * cols + ij.2)) ∘
      (fun i => (List.range cols).map (fun j => (i, j))))
      = (fun i => (List.range cols).map (fun j => i * cols + j)) := by
    funext i
    simp [List.map_map, Function.comp_def]
  rw [hrow]
  apply List.ext_getElem?
  intro k
  by_cases hk : k < rows * cols
  · have hc : 0 < cols := by
      rcases Nat.eq_zero_or_pos cols with h | h
      · rw [h] at hk
        omega
      · exact h
    have hdiv : k / cols < rows := (Nat.div_lt_iff_lt_mul hc).mpr hk
    have hmod : k % cols < cols := Nat.mod_lt _ hc
    have hk2 : k = k / cols * cols + k % cols := by
      rw [Nat.mul_comm]
      exact (Nat.div_add_mod k cols).symm
    rw [List.getElem?_range' _ _ hk]
    conv_lhs => rw [hk2]
    rw [join_rows_get (fun i => (List.range cols).map (fun j => i * cols + j)) cols
      (fun i => by simp) rows (k / cols) (k % cols) hdiv hmod]
    simp only [List.getElem?_map, List.getElem?_range hmod, Option.map_some']
    congr 1
    omega
  · rw [List.getElem?_eq_none, List.getElem?_eq_none]
    · rw [List.length_range']
      omega
    · rw [join_rows_length (fun i => (List.range cols).map (fun j => i * cols + j)) cols
        (fun i => by simp) rows]
      omega

theorem colorCorrectionLoop_foldl {F : Type} [LinearOrderedField F] (m : Matx33f F)
    (channels : List (List F)) (cols : Nat) (c0 c1 c2 : List F)
    (h0 : channels[0]? = some c0) (h1 : channels[1]? = some c1) (h2 : channels[2]? = some c2)
    (positions : List (Nat × Nat)) : ∀ corrected : List (F × F × F),
      colorCorrectionLoop m channels cols positions corrected
        = Outcome.returned
            ((positions.map (fun ij => ij.1 * cols + ij.2)).foldl
              (fun acc k => acc.set k (m.mulVec (c0.getD k 0, c1.getD k 0, c2.getD k 0)))
              corrected) := by
  induction positions with
  | nil =>
    intro corrected
    rfl
  | cons ij rest ih =>
    intro corrected
    obtain ⟨i, j⟩ := ij
    unfold colorCorrectionLoop
    simp only [h0, h1, h2]
    rw [ih]
    rfl

theorem split_get (rgb : PixelBuffer) (c : Nat) (hc : c < rgb.chans) :
    (split rgb)[c]? = some (rgb.data.map (fun px => px.getD c 0)) := by
  unfold split
  simp only [List.getElem?_map, List.getElem?_range hc, Option.map_some']

/-- Supporting C20: when one of `val[0]`, `val[4]`, `val[8]` differs from 1, on
a buffer with at least three channels and `rows * cols` pixels the stage
returns a three-channel 8-bit buffer of the same size in which every pixel is
the colour matrix times the colour vector of the input pixel, rounded and
saturated to `0 .. 255`. -/
theorem applyColorCorrection_applied {F : Type} [LinearOrderedField F] [FloorRing F]
    (p : ISPParameters F) (rgb : PixelBuffer)
    (hdiag : p.color_matrix.val0 ≠ 1 ∨ p.color_matrix.val4 ≠ 1 ∨ p.color_matrix.val8 ≠ 1)
    (hch : 3 ≤ rgb.chans) (hlen : rgb.data.length = rgb.rows * rgb.cols) :
    applyColorCorrection p rgb
      = Outcome.returned
          { rgb with
            chans := 3
            depth := 0
            data := rgb.data.map (correctedPixel p.color_matrix) } := by
  unfold applyColorCorrection
  rw [if_pos hdiag]
  have hget : ∀ c, c < rgb.chans →
      ((split rgb).map (fun (plane : List Int) => plane.map (fun (v : Int) => (v : F))))[c]?
        = some ((rgb.data.map (fun px => px.getD c 0)).map (fun (v : Int) => (v : F))) := by
    intro c hc
    rw [List.getElem?_map, split_get rgb c hc]
    rfl
  simp only []
  rw [colorCorrectionLoop_foldl p.color_matrix _ rgb.cols _ _ _ (hget 0 (by omega))
    (hget 1 (by omega)) (hget 2 (by omega)), pixelPositions_index]
  simp only [Outcome.returned.injEq, PixelBuffer.mk.injEq, true_and]
  obtain ⟨_, hfold⟩ := foldl_set_range'
    (fun k => p.color_matrix.mulVec
      (((rgb.data.map (fun px => px.getD 0 0)).map (fun (v : Int) => (v : F))).getD k 0,
        ((rgb.data.map (fun px => px.getD 1 0)).map (fun (v : Int) => (v : F))).getD k 0,
        ((rgb.data.map (fun px => px.getD 2 0)).map (fun (v : Int) => (v : F))).getD k 0))
    (rgb.rows * rgb.cols) 0 (List.replicate (rgb.rows * rgb.cols) (0, 0, 0))
    (by rw [List.length_replicate]; omega)
  apply List.ext_getElem?
  intro k
  rw [List.getElem?_map, hfold k, List.getElem?_map]
  by_cases hk : k < rgb.rows * rgb.cols
  · have hk2 : 0 ≤ k ∧ k < 0 + rgb.rows * rgb.cols := by omega
    have hk3 : k < rgb.data.length := by rw [hlen]; exact hk
    rw [if_pos hk2, List.getElem?_eq_getElem hk3]
    simp [correctedPixel, List.getD_eq_getElem?_getD, List.getElem?_map,
      List.getElem?_eq_getElem hk3]
  · have hk2 : ¬ (0 ≤ k ∧ k < 0 + rgb.rows * rgb.cols) := by omega
    rw [if_neg hk2, List.getElem?_eq_none (by rw [List.length_replicate]; omega),
      List.getElem?_eq_none (by rw [hlen]; omega)]
    rfl

/-! ## Automatic white balance -/

theorem cvMean_three_channels {F : Type} [LinearOrderedField F] (rgb : PixelBuffer)
    (hch : rgb.chans = 3) :
    (cvMean rgb : Outcome (Scalar F))
      = Outcome.returned
          (Scalar.mk (channelMean rgb 0) (channelMean rgb 1) (channelMean rgb 2)
            (channelMean rgb 3)) := by
  unfold cvMean
  rw [if_neg (by omega)]

theorem applyWhiteBalance_auto_gains {F : Type} [LinearOrderedField F] [FloorRing F]
    (p : ISPParameters F) (rgb : PixelBuffer) (hauto : p.auto_wb = true)
    (hch : rgb.chans = 3) :
    (applyWhiteBalance p rgb).2
      = grayWorldGains p
          (Scalar.mk (channelMean rgb 0) (channelMean rgb 1) (channelMean rgb 2)
            (channelMean rgb 3)) := by
  rw [applyWhiteBalance_params, if_pos hauto, cvMean_three_channels rgb hch]

theorem grayWorldGains_positive {F : Type} [LinearOrderedField F] (p : ISPParameters F)
    (mean : Scalar F) (h0 : 0 < mean.val0) (h1 : 0 < mean.val1) (h2 : 0 < mean.val2) :
    (grayWorldGains p mean).wb_blue = (mean.val0 + mean.val1 + mean.val2) / 3 / mean.val0 ∧
    (grayWorldGains p mean).wb_green = (mean.val0 + mean.val1 + mean.val2) / 3 / mean.val1 ∧
    (grayWorldGains p mean).wb_red = (mean.val0 + mean.val1 + mean.val2) / 3 / mean.val2 := by
  simp [grayWorldGains, h0, h1, h2]

/-- C21: in automatic white-balance mode, for every 3-channel image whose
channel means `m0`, `m1`, `m2` are all positive, the gains the stage stores
satisfy `gain * mean = (m0 + m1 + m2) / 3` for each channel: blue with `m0`,
green with `m1`, red with `m2`. -/
theorem auto_white_balance_gray_world {F : Type} [LinearOrderedField F] [FloorRing F]
    (p : ISPParameters F) (rgb : PixelBuffer) (hauto : p.auto_wb = true)
    (hch : rgb.chans = 3)
    (h0 : (0 : F) < channelMean rgb 0) (h1 : (0 : F) < channelMean rgb 1)
    (h2 : (0 : F) < channelMean rgb 2) :
    (applyWhiteBalance p rgb).2.wb_blue * channelMean rgb 0
      = ((channelMean rgb 0 : F) + channelMean rgb 1 + channelMean rgb 2) / 3 ∧
    (applyWhiteBalance p rgb).2.wb_green * channelMean rgb 1
      = ((channelMean rgb 0 : F) + channelMean rgb 1 + channelMean rgb 2) / 3 ∧
    (applyWhiteBalance p rgb).2.wb_red * channelMean rgb 2
      = ((channelMean rgb 0 : F) + channelMean rgb 1 + channelMean rgb 2) / 3 := by
  rw [applyWhiteBalance_auto_gains p rgb hauto hch]
  obtain ⟨hb, hg, hr⟩ := grayWorldGains_positive p
    (Scalar.mk (channelMean rgb 0) (channelMean rgb 1) (channelMean rgb 2)
      (channelMean rgb 3)) h0 h1 h2
  rw [hb, hg, hr]
  refine ⟨?_, ?_, ?_⟩
  · exact div_mul_cancel₀ _ (ne_of_gt h0)
  · exact div_mul_cancel₀ _ (ne_of_gt h1)
  · exact div_mul_cancel₀ _ (ne_of_gt h2)

theorem onePixel_means :
    (channelMean onePixel 0 : ℚ) = 10 ∧ (channelMean onePixel 1 : ℚ) = 20 ∧
    (channelMean onePixel 2 : ℚ) = 30 := by
  simp [channelMean, onePixel]

theorem auto_white_balance_gray_world_witness :
    freshPipeline.params_.auto_wb = true ∧ onePixel.chans = 3 ∧
    (0 : ℚ) < channelMean onePixel 0 ∧
    (applyWhiteBalance freshPipeline.params_ onePixel).2.wb_blue * channelMean onePixel 0
      = ((channelMean onePixel 0 : ℚ) + channelMean onePixel 1 + channelMean onePixel 2) / 3 :=
  ⟨rfl, rfl, by rw [onePixel_means.1]; norm_num,
    (auto_white_balance_gray_world freshPipeline.params_ onePixel rfl rfl
      (by rw [onePixel_means.1]; norm_num) (by rw [onePixel_means.2.1]; norm_num)
      (by rw [onePixel_means.2.2]; norm_num)).1⟩

theorem channelMean_uniform {F : Type} [LinearOrderedField F] (rgb : PixelBuffer)
    (g : Int) (n : Nat) (hn : 0 < n) (hch : rgb.chans = 3)
    (hdata : rgb.data = List.replicate n [g, g, g]) (c : Nat) (hc : c < 3) :
    (channelMean rgb c : F) = (g : F) := by
  unfold channelMean
  rw [if_pos (by omega), hdata]
  have hget : ([g, g, g] : List Int).getD c 0 = g := by
    interval_cases c <;> rfl
  rw [List.map_replicate, hget, List.sum_replicate, List.length_replicate]
  have hne : (n : F) ≠ 0 := by exact_mod_cast (Nat.pos_iff_ne_zero.mp hn)
  rw [nsmul_eq_mul]
  push_cast
  field_simp

/-- C22, as stated, fails: on the uniform image whose pixel is `(0, 0, 0)`, a
pipeline in automatic mode whose stored gains are all 2 keeps the gains 2,
since a gain is assigned only when the mean of its channel is greater
than 0. -/
theorem auto_white_balance_black_keeps_gains :
    blackPixel.data = [[0, 0, 0]] ∧
    doubledGainsPipeline.params_.auto_wb = true ∧
    doubledGainsPipeline.params_.wb_red = 2 ∧
    (applyWhiteBalance doubledGainsPipeline.params_ blackPixel).2.wb_red = 2 ∧
    (applyWhiteBalance doubledGainsPipeline.params_ blackPixel).2.wb_green = 2 ∧
    (applyWhiteBalance doubledGainsPipeline.params_ blackPixel).2.wb_blue = 2 ∧
    (applyWhiteBalance doubledGainsPipeline.params_ blackPixel).2.wb_red ≠ 1 := by
  have hrun : (applyWhiteBalance doubledGainsPipeline.params_ blackPixel).2
      = doubledGainsPipeline.params_ := by
    rw [applyWhiteBalance_auto_gains _ _ rfl rfl]
    simp [grayWorldGains, channelMean, blackPixel]
  rw [hrun]
  refine ⟨rfl, rfl, rfl, rfl, rfl, rfl, ?_⟩
  show (2 : ℚ) ≠ 1
  norm_num

/-- C22, amended: for every uniform gray image with at least one pixel whose
three channels all hold the same level `g > 0`, and every prior gain setting,
the white-balance stage in automatic mode leaves all three gains equal
to 1. -/
theorem auto_white_balance_uniform_gray {F : Type} [LinearOrderedField F] [FloorRing F]
    (p : ISPParameters F) (rgb : PixelBuffer) (g : Int) (n : Nat)
    (hauto : p.auto_wb = true) (hch : rgb.chans = 3) (hn : 0 < n) (hg : 0 < g)
    (hdata : rgb.data = List.replicate n [g, g, g]) :
    (applyWhiteBalance p rgb).2.wb_red = 1 ∧
    (applyWhiteBalance p rgb).2.wb_green = 1 ∧
    (applyWhiteBalance p rgb).2.wb_blue = 1 := by
  rw [applyWhiteBalance_auto_gains p rgb hauto hch]
  have hpos : (0 : F) < (g : F) := by exact_mod_cast hg
  have m0 := channelMean_uniform (F := F) rgb g n hn hch hdata 0 (by omega)
  have m1 := channelMean_uniform (F := F) rgb g n hn hch hdata 1 (by omega)
  have m2 := channelMean_uniform (F := F) rgb g n hn hch hdata 2 (by omega)
  obtain ⟨hb, hgr, hr⟩ := grayWorldGains_positive p
    (Scalar.mk (channelMean rgb 0) (channelMean rgb 1) (channelMean rgb 2)
      (channelMean rgb 3)) (by rw [m0]; exact hpos) (by rw [m1]; exact hpos)
      (by rw [m2]; exact hpos)
  rw [hb, hgr, hr]
  simp only [m0, m1, m2]
  have hne : (g : F) ≠ 0 := ne_of_gt hpos
  refine ⟨?_, ?_, ?_⟩ <;> field_simp <;> ring

theorem auto_white_balance_uniform_gray_witness :
    doubledGainsPipeline.params_.auto_wb = true ∧
    (applyWhiteBalance doubledGainsPipeline.params_
      (PixelBuffer.mk 1 2 3 0 (List.replicate 2 [128, 128, 128]))).2.wb_red = 1 :=
  ⟨rfl,
    (auto_white_balance_uniform_gray doubledGainsPipeline.params_
      (PixelBuffer.mk 1 2 3 0 (List.replicate 2 [128, 128, 128])) 128 2 rfl rfl
      (by decide) (by decide) rfl).1⟩

/-! ## Rounding and saturation -/

theorem cvRound_nonneg {F : Type} [LinearOrderedField F] [FloorRing F] (x : F)
    (h : 0 ≤ x) : 0 ≤ cvRound x := by
  have hf : 0 ≤ ⌊x⌋ := Int.floor_nonneg.mpr h
  unfold cvRound
  split_ifs <;> omega

theorem cvRound_le {F : Type} [LinearOrderedField F] [FloorRing F] (x : F) (n : Int)
    (h : x ≤ (n : F)) : cvRound x ≤ n := by
  have hf : ⌊x⌋ ≤ n := by
    have h1 : ((⌊x⌋ : Int) : F) ≤ (n : F) := le_trans (Int.floor_le x) h
    exact_mod_cast h1
  have hup : ¬ (x - (⌊x⌋ : F) < 1 / 2) → ⌊x⌋ + 1 ≤ n := by
    intro hhalf
    have h1 : ((⌊x⌋ : Int) : F) < x := by
      have : (1 / 2 : F) ≤ x - (⌊x⌋ : F) := not_lt.mp hhalf
      have hpos : (0 : F) < 1 / 2 := by norm_num
      linarith
    have h2 : ((⌊x⌋ : Int) : F) < (n : F) := lt_of_lt_of_le h1 h
    have h3 : ⌊x⌋ < n := by exact_mod_cast h2
    omega
  unfold cvRound
  split_ifs with c1 c2 c3
  · exact hf
  · exact hup c1
  · exact hf
  · exact hup c1

theorem saturate_8U_of_range (v : Int) (h0 : 0 ≤ v) (h1 : v ≤ 255) : saturate 0 v = v := by
  unfold saturate depthMin depthMax
  rw [min_eq_right h1, max_eq_right h0]

/-! ## Tone mapping -/

/-- C23: with exposure 1, contrast 1 and brightness 1/4 the tone-mapping stage
turns the pixel `(0, 100, 255)` into `(64, 100, 255)`: the brightness reaches
the first channel only, because the `float` is added as the cv::Scalar
`(1/4, 0, 0, 0)`.  The formula of the claim gives 164 for the sample 100 (and
64 and 255 for the other two). -/
theorem applyToneMapping_brightness_first_channel_only :
    brightened.exposure = 1 ∧ brightened.contrast = 1 ∧ brightened.brightness = 1 / 4 ∧
    applyToneMapping sampleImgproc brightened tonePixel
      = Outcome.returned (PixelBuffer.mk 1 1 3 0 [[64, 100, 255]]) ∧
    [(0 : Int), 100, 255].map (fun (v : Int) =>
        cvRound (255 * min (max ((v : ℚ) / 255 * brightened.exposure * brightened.contrast
          + brightened.brightness) 0) 1))
      = [64, 164, 255] := by
  have hfloor : ⌊(255 / 4 : ℚ)⌋ = 63 := by
    rw [Int.floor_eq_iff]
    norm_num
  have hfloor2 : ⌊(655 / 4 : ℚ)⌋ = 163 := by
    rw [Int.floor_eq_iff]
    norm_num
  have h64 : cvRound (255 / 4 : ℚ) = 64 := by
    unfold cvRound
    rw [hfloor]
    norm_num
  have h164 : cvRound (655 / 4 : ℚ) = 164 := by
    unfold cvRound
    rw [hfloor2]
    norm_num
  have h0 : cvRound (0 : ℚ) = 0 := by
    have h := cvRound_intCast (F := ℚ) 0
    simpa using h
  have h100 : cvRound (100 : ℚ) = 100 := by
    have h := cvRound_intCast (F := ℚ) 100
    simpa using h
  have h255 : cvRound (255 : ℚ) = 255 := by
    have h := cvRound_intCast (F := ℚ) 255
    simpa using h
  have hb : brightened.brightness = 1 / 4 := rfl
  have hc : brightened.contrast = 1 := rfl
  have he : brightened.exposure = 1 := rfl
  refine ⟨he, hc, hb, ?_, ?_⟩
  · have hexpr : sampleImgproc.scalePlusScalar [[0, 100 / 255, 1]] 1 (Scalar.mk (1 / 4) 0 0 0)
        = Outcome.returned [[1 / 4, 100 / 255, 1]] := by
      simp only [sampleImgproc, addScalarByChannel]
      norm_num
    have hin : (tonePixel.data.map (fun px => px.map (fun (v : Int) => (v : ℚ) * (1 / 255)))).map
          (fun px => px.map (fun (x : ℚ) => x * brightened.exposure))
        = [[0, 100 / 255, 1]] := by
      rw [he]
      simp only [tonePixel, List.map_cons, List.map_nil]
      norm_num
    unfold applyToneMapping
    simp only []
    rw [hin, hc, hb, hexpr]
    simp only [List.map_cons, List.map_nil, saturateCast]
    have e1 : max (1 / 4 : ℚ) 0 = 1 / 4 := by norm_num
    have e2 : max (100 / 255 : ℚ) 0 = 100 / 255 := by norm_num
    have e3 : max (1 : ℚ) 0 = 1 := by norm_num
    have e4 : min (1 / 4 : ℚ) 1 = 1 / 4 := by norm_num
    have e5 : min (100 / 255 : ℚ) 1 = 100 / 255 := by norm_num
    have e6 : min (1 : ℚ) 1 = 1 := by norm_num
    have e7 : (1 / 4 : ℚ) * 255 = 255 / 4 := by norm_num
    have e8 : (100 / 255 : ℚ) * 255 = 100 := by norm_num
    have e9 : (1 : ℚ) * 255 = 255 := by norm_num
    rw [e1, e2, e3, e4, e5, e6, e7, e8, e9, h64, h100, h255]
    rfl
  · rw [he, hc, hb]
    simp only [List.map_cons, List.map_nil]
    have e1 : (255 : ℚ) * min (max ((((0 : Int) : ℚ)) / 255 * 1 * 1 + 1 / 4) 0) 1 = 255 / 4 := by
      norm_num
    have e2 : (255 : ℚ) * min (max ((((100 : Int) : ℚ)) / 255 * 1 * 1 + 1 / 4) 0) 1
        = 655 / 4 := by
      norm_num
    have e3 : (255 : ℚ) * min (max ((((255 : Int) : ℚ)) / 255 * 1 * 1 + 1 / 4) 0) 1 = 255 := by
      norm_num
    rw [e1, e2, e3, h64, h164, h255]

/-! ## Sharpening -/

theorem zipWith_eq_left {α β : Type} (f : α → β → α) :
    ∀ (l1 : List α) (l2 : List β), l1.length = l2.length →
      (∀ a ∈ l1, ∀ b ∈ l2, f a b = a) → List.zipWith f l1 l2 = l1 := by
  intro l1
  induction l1 with
  | nil =>
    intro l2 _ _
    simp
  | cons a t ih =>
    intro l2 hlen hf
    cases l2 with
    | nil => simp at hlen
    | cons b t2 =>
      simp only [List.zipWith_cons_cons]
      rw [hf a (List.mem_cons_self _ _) b (List.mem_cons_self _ _),
        ih t2 (by simpa using hlen)
          (fun a2 ha b2 hb => hf a2 (List.mem_cons_of_mem _ ha) b2 (List.mem_cons_of_mem _ hb))]

theorem applySharpening_eq {F : Type} [LinearOrderedField F] [FloorRing F] (lib : Imgproc F)
    (p : ISPParameters F) (rgb : PixelBuffer)
    (hsize : sameSize rgb (lib.GaussianBlur rgb (Size.mk 0 0) 3)) :
    applySharpening lib p rgb
      = Outcome.returned
          { rgb with
            data := List.zipWith
              (fun (original blurred : List Int) =>
                List.zipWith
                  (fun (o b : Int) =>
                    saturate rgb.depth
                      (cvRound ((o : F) * (1 + p.sharpen_strength) +
                        (b : F) * (-p.sharpen_strength))))
                  original blurred)
              rgb.data (lib.GaussianBlur rgb (Size.mk 0 0) 3).data } := by
  unfold applySharpening addWeighted
  simp only []
  have hcond : rgb.rows = (lib.GaussianBlur rgb (Size.mk 0 0) 3).rows ∧
      rgb.cols = (lib.GaussianBlur rgb (Size.mk 0 0) 3).cols ∧
      rgb.chans = (lib.GaussianBlur rgb (Size.mk 0 0) 3).chans := hsize
  rw [if_pos hcond]
  simp only [saturateCast, add_zero]

/-- C24: on an 8-bit image whose Gaussian blur has the same size and channels,
each output sample of the sharpen stage is `original * (1 + strength) +
blurred * (-strength)`, rounded and saturated to `0 .. 255`, where `blurred`
is the sample of the Gaussian blur of the stage's input; with strength 0 (on
well-formed buffers) the stage returns its input unchanged. -/
theorem applySharpening_formula {F : Type} [LinearOrderedField F] [FloorRing F]
    (lib : Imgproc F) (p : ISPParameters F) (rgb : PixelBuffer)
    (h8 : rgb.depth = 0)
    (hsize : sameSize rgb (lib.GaussianBlur rgb (Size.mk 0 0) 3)) :
    applySharpening lib p rgb
      = Outcome.returned
          { rgb with
            data := List.zipWith
              (fun (original blurred : List Int) =>
                List.zipWith
                  (fun (o b : Int) =>
                    saturate 0
                      (cvRound ((o : F) * (1 + p.sharpen_strength) +
                        (b : F) * (-p.sharpen_strength))))
                  original blurred)
              rgb.data (lib.GaussianBlur rgb (Size.mk 0 0) 3).data } ∧
    (∀ x : F, 0 ≤ saturate 0 (cvRound x) ∧ saturate 0 (cvRound x) ≤ 255) ∧
    (p.sharpen_strength = 0 → rgb.wellFormed →
      (lib.GaussianBlur rgb (Size.mk 0 0) 3).wellFormed →
      applySharpening lib p rgb = Outcome.returned rgb) := by
  obtain ⟨rows, cols, chans, depth, data⟩ := rgb
  simp only at h8
  subst h8
  have hrun := applySharpening_eq lib p (PixelBuffer.mk rows cols chans 0 data) hsize
  simp only at hrun
  refine ⟨hrun, fun x => saturate_8U_range _, ?_⟩
  intro hs hwf hbwf
  rw [hrun, hs]
  obtain ⟨hr, hc, hch⟩ := hsize
  obtain ⟨_, hlen, hpx⟩ := hwf
  obtain ⟨_, hblen, hbpx⟩ := hbwf
  simp only at hr hc hch hlen hpx
  have hdata : List.zipWith
      (fun (original blurred : List Int) =>
        List.zipWith
          (fun (o b : Int) =>
            saturate 0 (cvRound ((o : F) * (1 + 0) + (b : F) * (-0))))
          original blurred)
      data (lib.GaussianBlur (PixelBuffer.mk rows cols chans 0 data) (Size.mk 0 0) 3).data
        = data := by
    apply zipWith_eq_left
    · rw [hlen, hblen, ← hr, ← hc]
    · intro original ho blurred hb
      apply zipWith_eq_left
      · rw [(hpx original ho).1, (hbpx blurred hb).1, ← hch]
      · intro o hmem b _
        have hrange := (hpx original ho).2 o hmem
        have hval : (o : F) * (1 + 0) + (b : F) * (-0) = (o : F) := by ring
        rw [hval, cvRound_intCast]
        exact saturate_8U_of_range o hrange.1 hrange.2
  simp only [hdata]

theorem applySharpening_formula_witness :
    onePixel.depth = 0 ∧
    sameSize onePixel (sampleImgproc.GaussianBlur onePixel (Size.mk 0 0) 3) ∧
    applySharpening sampleImgproc
        { (ISPParameters.defaults : ISPParameters ℚ) with sharpen_strength := 0 } onePixel
      = Outcome.returned onePixel :=
  ⟨rfl, ⟨rfl, rfl, rfl⟩,
    (applySharpening_formula sampleImgproc
      { (ISPParameters.defaults : ISPParameters ℚ) with sharpen_strength := 0 } onePixel rfl
      ⟨rfl, rfl, rfl⟩).2.2 rfl
      (by simp [PixelBuffer.wellFormed, onePixel, depthMin, depthMax])
      (by simp [PixelBuffer.wellFormed, onePixel, sampleImgproc, depthMin, depthMax])⟩

/-! ## Lens correction, demosaic, denoise -/

theorem lens_condition_false {F : Type} (p : ISPParameters F)
    (h : p.lens_correction = false ∨ p.camera_matrix.isEmpty = true ∨
      p.distortion_coeffs.isEmpty = true) :
    (p.lens_correction && !p.camera_matrix.isEmpty && !p.distortion_coeffs.isEmpty) = false := by
  rcases h with h | h | h <;> simp [h]

/-- C25: when lens correction is disabled, or the camera matrix is empty, or
the distortion coefficients are empty, the stage list of a `processRGB` run
holds no lens-correction stage and the run does not depend on what
`cv::undistort` computes; and `CalibrationEngine::undistortImage` on an
uncalibrated engine, or on an empty input, returns its input. -/
theorem lens_correction_noop {F : Type} [LinearOrderedField F] [FloorRing F]
    (lib : Imgproc F) (pl : ISPPipeline F) (input_rgb output_rgb : PixelBuffer)
    (st : CalibrationEngine F) (input : PixelBuffer) :
    (pl.params_.lens_correction = false ∨ pl.params_.camera_matrix.isEmpty = true ∨
        pl.params_.distortion_coeffs.isEmpty = true →
      enabledStages lib pl.params_
        = [applyWhiteBalance, colorCorrectionStage, gammaStage, toneMappingStage lib] ++
            (if pl.params_.denoise_enabled then [denoiseStage lib] else []) ++
            (if pl.params_.sharpen_enabled then [sharpenStage lib] else []) ∧
      ∀ undistort : PixelBuffer → Mat F → Mat F → PixelBuffer,
        processRGB { lib with undistort := undistort } pl input_rgb output_rgb
          = processRGB lib pl input_rgb output_rgb) ∧
    (st.isCalibrated = false ∨ input.empty = true → undistortImage lib st input = input) := by
  constructor
  · intro h
    have hc := lens_condition_false pl.params_ h
    constructor
    · unfold enabledStages
      rw [hc]
      simp
    · intro undistort
      unfold processRGB
      simp only [hc, Bool.false_eq_true, if_false]
      rfl
  · intro h
    unfold undistortImage
    rcases h with h | h
    · have hcal : st.calibrated_ = false := h
      simp [hcal]
    · simp [h]

theorem lens_correction_noop_witness :
    freshPipeline.params_.lens_correction = false ∧
    enabledStages sampleImgproc freshPipeline.params_
      = [applyWhiteBalance, colorCorrectionStage, gammaStage, toneMappingStage sampleImgproc] ++
          (if freshPipeline.params_.denoise_enabled then [denoiseStage sampleImgproc] else []) ++
          (if freshPipeline.params_.sharpen_enabled then [sharpenStage sampleImgproc] else []) ∧
    freshEngine.isCalibrated = false ∧
    undistortImage sampleImgproc freshEngine onePixel = onePixel :=
  ⟨rfl,
    ((lens_correction_noop sampleImgproc freshPipeline onePixel noBuffer freshEngine
      onePixel).1 (Or.inl rfl)).1,
    rfl,
    (lens_correction_noop sampleImgproc freshPipeline onePixel noBuffer freshEngine
      onePixel).2 (Or.inl rfl)⟩

/-- C26 at a failing input: on the non-empty 1x1 one-channel 16-bit raw buffer
with the sample 1000, `demosaicBayer` returns, for each of the three demosaic
methods, the same one-channel 8-bit buffer with the sample 255: no
interpolation runs and the result does not have three channels. -/
theorem demosaicBayer_16bit_keeps_one_channel :
    raw16Pixel.empty = false ∧ raw16Pixel.chans = 1 ∧ raw16Pixel.depth = 2 ∧
    demosaicBayer sampleImgproc
        { (ISPParameters.defaults : ISPParameters ℚ) with
          demosaic_method := DemosaicMethod.BILINEAR } raw16Pixel
      = PixelBuffer.mk 1 1 1 0 [[255]] ∧
    demosaicBayer sampleImgproc
        { (ISPParameters.defaults : ISPParameters ℚ) with
          demosaic_method := DemosaicMethod.VNG } raw16Pixel
      = PixelBuffer.mk 1 1 1 0 [[255]] ∧
    demosaicBayer sampleImgproc
        { (ISPParameters.defaults : ISPParameters ℚ) with
          demosaic_method := DemosaicMethod.AHD } raw16Pixel
      = PixelBuffer.mk 1 1 1 0 [[255]] ∧
    (PixelBuffer.mk 1 1 1 0 [[255]]).chans ≠ 3 := by
  refine ⟨rfl, rfl, rfl, ?_, ?_, ?_, by decide⟩ <;> decide

/-- The conversion code `demosaicBayer` selects for a demosaic method. -/
theorem demosaicBayer_8UC1 {F : Type} (lib : Imgproc F) (p : ISPParameters F)
    (bayer : PixelBuffer) (hd : bayer.depth = 0) (hc : bayer.chans = 1) :
    (p.demosaic_method = DemosaicMethod.BILINEAR →
      demosaicBayer lib p bayer = lib.cvtColor ColorCode.COLOR_BayerBG2BGR bayer) ∧
    (p.demosaic_method = DemosaicMethod.VNG →
      demosaicBayer lib p bayer = lib.cvtColor ColorCode.COLOR_BayerBG2BGR_VNG bayer) ∧
    (p.demosaic_method = DemosaicMethod.AHD →
      demosaicBayer lib p bayer = lib.cvtColor ColorCode.COLOR_BayerBG2BGR_EA bayer) ∧
    ColorCode.COLOR_BayerBG2BGR ≠ ColorCode.COLOR_BayerBG2BGR_VNG ∧
    ColorCode.COLOR_BayerBG2BGR ≠ ColorCode.COLOR_BayerBG2BGR_EA ∧
    ColorCode.COLOR_BayerBG2BGR_VNG ≠ ColorCode.COLOR_BayerBG2BGR_EA := by
  unfold demosaicBayer
  rw [if_pos ⟨hd, hc⟩]
  refine ⟨?_, ?_, ?_, by decide, by decide, by decide⟩ <;> intro h <;> rw [h]

/-- C27, as stated, fails: with denoise strength 1 and with strength 9 the
denoiser is called with the same template window size 7 and search window
size 21. -/
theorem denoise_windows_do_not_follow_strength :
    weakDenoise.denoise_strength = 1 ∧ strongDenoise.denoise_strength = 9 ∧
    weakDenoise.denoise_strength ≠ strongDenoise.denoise_strength ∧
    (applyDenoising probeImgproc weakDenoise onePixel).data = [[7, 21]] ∧
    (applyDenoising probeImgproc strongDenoise onePixel).data = [[7, 21]] ∧
    (denoisingArguments weakDenoise).2.2 = (denoisingArguments strongDenoise).2.2 := by
  refine ⟨rfl, rfl, ?_, rfl, rfl, rfl⟩
  show (1 : ℚ) ≠ 9
  norm_num

/-- C27, amended: the denoise stage calls the filter with the luminance weight
equal to the strength and the colour weight equal to half the strength; the
template window size 7 and the search window size 21 are the same for every
strength. -/
theorem denoise_arguments {F : Type} [LinearOrderedField F] (lib : Imgproc F)
    (p q : ISPParameters F) (rgb : PixelBuffer) :
    applyDenoising lib p rgb
      = lib.fastNlMeansDenoisingColored rgb (denoisingArguments p).1
          (denoisingArguments p).2.1 (denoisingArguments p).2.2.1
          (denoisingArguments p).2.2.2 ∧
    (denoisingArguments p).1 = p.denoise_strength ∧
    (denoisingArguments p).2.1 = p.denoise_strength / 2 ∧
    (denoisingArguments p).2.2 = (7, 21) ∧
    (denoisingArguments p).2.2 = (denoisingArguments q).2.2 := by
  refine ⟨rfl, rfl, ?_, rfl, rfl⟩
  simp only [denoisingArguments]
  ring

/-! ## The result under `addCalibrationImage`, and reachable calibrated engines -/

theorem addCalibrationImage_accepted_result {F : Type} [LinearOrderedField F] (cv : Cv F)
    (image : Image) (pattern_size : Size) (square_size_mm : F) (st : CalibrationEngine F)
    (he : image.empty = false) (hf : (findChessboardCorners cv image pattern_size).1 = true) :
    (addCalibrationImage cv image pattern_size square_size_mm st).2.result_
      = { st.result_ with
          image_size := if st.image_size_.width = 0 then image.size else st.result_.image_size
          pattern_size := pattern_size
          square_size := square_size_mm } := by
  unfold addCalibrationImage
  simp only [he, hf, if_true, Bool.false_eq_true, if_false]
  by_cases hw : st.image_size_.width = 0 <;> simp [hw]

/-- C28, as stated, fails: after a successful `calibrate` on five views of a
3x2 pattern with 25 mm squares, `addCalibrationImage` with a 4x3 pattern and
10 mm squares accepts the image and overwrites the pattern size and the square
size of the result. -/
theorem addCalibrationImage_overwrites_pattern :
    (calibrate sampleCv {} fiveViewEngine).1 = true ∧
    calibratedEngine.isCalibrated = true ∧
    calibratedEngine.result_.pattern_size = Size.mk 3 2 ∧
    calibratedEngine.result_.square_size = 25 ∧
    (addCalibrationImage sampleCv boardVGA (Size.mk 4 3) 10 calibratedEngine).1 = true ∧
    (addCalibrationImage sampleCv boardVGA (Size.mk 4 3) 10
      calibratedEngine).2.result_.pattern_size = Size.mk 4 3 ∧
    (addCalibrationImage sampleCv boardVGA (Size.mk 4 3) 10
      calibratedEngine).2.result_.square_size = 10 ∧
    (addCalibrationImage sampleCv boardVGA (Size.mk 4 3) 10 calibratedEngine).2.result_
      ≠ calibratedEngine.result_ := by
  refine ⟨by decide, by decide, by decide, rfl, by decide, by decide, rfl, ?_⟩
  intro h
  have hp := congrArg (fun r => r.pattern_size) h
  revert hp
  decide

/-- C28, amended: `addCalibrationImage` never changes the camera matrix, the
distortion coefficients, the rotations, the translations or the RMS error of
the result; a rejected image leaves the whole result as it was; an accepted
image overwrites the pattern size and the square size of the result with the
arguments of the call, and the image size of the result only if the session
image size was still unset. -/
theorem addCalibrationImage_result_frame {F : Type} [LinearOrderedField F] (cv : Cv F)
    (image : Image) (pattern_size : Size) (square_size_mm : F) (st : CalibrationEngine F) :
    (addCalibrationImage cv image pattern_size square_size_mm st).2.result_.camera_matrix
      = st.result_.camera_matrix ∧
    (addCalibrationImage cv image pattern_size square_size_mm st).2.result_.distortion_coeffs
      = st.result_.distortion_coeffs ∧
    (addCalibrationImage cv image pattern_size square_size_mm st).2.result_.rvecs
      = st.result_.rvecs ∧
    (addCalibrationImage cv image pattern_size square_size_mm st).2.result_.tvecs
      = st.result_.tvecs ∧
    (addCalibrationImage cv image pattern_size square_size_mm st).2.result_.reprojection_error
      = st.result_.reprojection_error ∧
    ((addCalibrationImage cv image pattern_size square_size_mm st).1 = false →
      (addCalibrationImage cv image pattern_size square_size_mm st).2.result_ = st.result_) ∧
    ((addCalibrationImage cv image pattern_size square_size_mm st).1 = true →
      (addCalibrationImage cv image pattern_size square_size_mm st).2.result_.pattern_size
        = pattern_size ∧
      (addCalibrationImage cv image pattern_size square_size_mm st).2.result_.square_size
        = square_size_mm ∧
      (addCalibrationImage cv image pattern_size square_size_mm st).2.result_.image_size
        = (if st.image_size_.width = 0 then image.size else st.result_.image_size)) := by
  by_cases hacc : image.empty = false ∧ (findChessboardCorners cv image pattern_size).1 = true
  · obtain ⟨he, hf⟩ := hacc
    have hres := addCalibrationImage_accepted_result cv image pattern_size square_size_mm st
      he hf
    have htrue := (addCalibrationImage_accepted cv image pattern_size square_size_mm st
      he hf).1
    rw [hres, htrue]
    refine ⟨rfl, rfl, rfl, rfl, rfl, ?_, ?_⟩
    · intro h
      simp at h
    · intro _
      exact ⟨rfl, rfl, rfl⟩
  · have hrej : image.empty = true ∨ (findChessboardCorners cv image pattern_size).1 = false := by
      by_cases he : image.empty = true
      · exact Or.inl he
      · right
        have he2 : image.empty = false := by simpa using he
        by_cases hf : (findChessboardCorners cv image pattern_size).1 = true
        · exact absurd ⟨he2, hf⟩ hacc
        · simpa using hf
    rw [addCalibrationImage_rejected cv image pattern_size square_size_mm st hrej]
    refine ⟨rfl, rfl, rfl, rfl, rfl, ?_, ?_⟩
    · intro _
      rfl
    · intro h
      simp at h

theorem addCalibrationImage_result_frame_witness :
    (addCalibrationImage sampleCv blankVGA (Size.mk 4 3) 10 calibratedEngine).1 = false ∧
    (addCalibrationImage sampleCv blankVGA (Size.mk 4 3) 10 calibratedEngine).2.result_
      = calibratedEngine.result_ ∧
    (addCalibrationImage sampleCv boardVGA (Size.mk 4 3) 10 calibratedEngine).1 = true ∧
    (addCalibrationImage sampleCv boardVGA (Size.mk 4 3) 10
      calibratedEngine).2.result_.pattern_size = Size.mk 4 3 :=
  ⟨by decide,
    (addCalibrationImage_result_frame sampleCv blankVGA (Size.mk 4 3) 10
      calibratedEngine).2.2.2.2.2.1 (by decide),
    by decide,
    ((addCalibrationImage_result_frame sampleCv boardVGA (Size.mk 4 3) 10
      calibratedEngine).2.2.2.2.2.2 (by decide)).1⟩

/-- C29 at failing inputs: three reachable engines are calibrated without one
rotation and one translation per stored view or without any point. After one
accepted view and a successful load there is one view and no rotation; after
a successful load into a fresh engine there is no view, so the point count
that `computeReprojectionError` divides by is 0; after a successful solve on
five views and a sixth accepted view there are six views and five rotations,
and `computeReprojectionError` reads `result_.rvecs[5]` past the end. -/
theorem reachable_calibrated_without_poses :
    EngineReachable sampleCv loadedOneViewEngine ∧
    loadedOneViewEngine.isCalibrated = true ∧
    loadedOneViewEngine.getNumCalibrationImages = 1 ∧
    loadedOneViewEngine.result_.rvecs.length = 0 ∧
    loadedOneViewEngine.result_.tvecs.length = 0 ∧
    EngineReachable sampleCv loadedFreshEngine ∧
    loadedFreshEngine.isCalibrated = true ∧
    loadedFreshEngine.getNumCalibrationImages = 0 ∧
    totalPoints loadedFreshEngine = 0 ∧
    EngineReachable sampleCv sixViewEngine ∧
    sixViewEngine.isCalibrated = true ∧
    sixViewEngine.getNumCalibrationImages = 6 ∧
    sixViewEngine.result_.rvecs.length = 5 ∧
    (computeReprojectionError sampleCv sixViewEngine).1 = Outcome.fault Fault.outOfRange := by
  refine ⟨?_, by decide, by decide, by decide, by decide, ?_, by decide, by decide, by decide,
    ?_, by decide, by decide, by decide, ?_⟩
  · exact EngineReachable.loadCalibration _ _
      (EngineReachable.addCalibrationImage _ _ _ _ (EngineReachable.construct 0 0))
  · exact EngineReachable.loadCalibration _ _ (EngineReachable.construct 0 0)
  · exact EngineReachable.addCalibrationImage _ _ _ _
      (EngineReachable.calibrate _ _
        (EngineReachable.addCalibrationImage _ _ _ _
          (EngineReachable.addCalibrationImage _ _ _ _
            (EngineReachable.addCalibrationImage _ _ _ _
              (EngineReachable.addCalibrationImage _ _ _ _
                (EngineReachable.addCalibrationImage _ _ _ _
                  (EngineReachable.construct 0 0)))))))
  · decide

/-! ## The white-balance stage on three channels -/

theorem split_three (rgb : PixelBuffer) (hch : rgb.chans = 3) :
    split rgb
      = [rgb.data.map (fun px => px.getD 0 0), rgb.data.map (fun px => px.getD 1 0),
          rgb.data.map (fun px => px.getD 2 0)] := by
  unfold split
  rw [hch]
  rfl

theorem merge_three (data : List (List Int)) (f0 f1 f2 : Int → Int) :
    merge [(data.map (fun px => px.getD 0 0)).map f0, (data.map (fun px => px.getD 1 0)).map f1,
        (data.map (fun px => px.getD 2 0)).map f2]
      = data.map (fun px => [f0 (px.getD 0 0), f1 (px.getD 1 0), f2 (px.getD 2 0)]) := by
  unfold merge
  simp only [List.head?_cons, Option.map_some', Option.getD_some, List.length_map,
    List.map_cons, List.map_nil]
  apply List.ext_getElem?
  intro k
  by_cases hk : k < data.length
  · simp [List.getElem?_map, List.getElem?_range hk, List.getD_eq_getElem?_getD,
      List.getElem?_eq_getElem hk]
  · rw [List.getElem?_eq_none (by rw [List.length_map, List.length_range]; omega),
      List.getElem?_eq_none (by rw [List.length_map]; omega)]

theorem white_balance_channels {F : Type} [LinearOrderedField F] [FloorRing F]
    (p1 : ISPParameters F) (rgb : PixelBuffer) (hch : rgb.chans = 3) :
    (match mulChannel rgb.depth (split rgb) 0 p1.wb_blue with
      | Outcome.fault what => ((Outcome.fault what, p1) : StageResult F)
      | Outcome.returned channels0 =>
        match mulChannel rgb.depth channels0 1 p1.wb_green with
        | Outcome.fault what => (Outcome.fault what, p1)
        | Outcome.returned channels1 =>
          match mulChannel rgb.depth channels1 2 p1.wb_red with
          | Outcome.fault what => (Outcome.fault what, p1)
          | Outcome.returned channels2 =>
            (Outcome.returned
              { rgb with
                chans := channels2.length
                depth := 0
                data := (normalizeMinMax (F := F) rgb.depth (merge channels2)).map
                  (fun (px : List Int) => px.map (saturate 0)) },
              p1))
      = (Outcome.returned
          { rgb with
            chans := 3
            depth := 0
            data := (normalizeMinMax (F := F) rgb.depth (scaledData p1 rgb)).map
              (fun (px : List Int) => px.map (saturate 0)) },
          p1) := by
  rw [split_three rgb hch]
  simp only [mulChannel, List.getElem?_cons_zero, List.getElem?_cons_succ, List.set_cons_zero,
    List.set_cons_succ, List.length_cons, List.length_nil]
  rw [merge_three rgb.data (fun v => saturateCast rgb.depth ((v : F) * p1.wb_blue))
    (fun v => saturateCast rgb.depth ((v : F) * p1.wb_green))
    (fun v => saturateCast rgb.depth ((v : F) * p1.wb_red))]
  rfl

theorem applyWhiteBalance_three_channels {F : Type} [LinearOrderedField F] [FloorRing F]
    (p : ISPParameters F) (rgb : PixelBuffer) (hch : rgb.chans = 3) :
    (applyWhiteBalance p rgb).1
      = Outcome.returned
          { rgb with
            chans := 3
            depth := 0
            data := (normalizeMinMax (F := F) rgb.depth
                (scaledData (applyWhiteBalance p rgb).2 rgb)).map
              (fun (px : List Int) => px.map (saturate 0)) } := by
  have hpair : ∀ p1 : ISPParameters F, (applyWhiteBalance p rgb).2 = p1 →
      applyWhiteBalance p rgb
        = (Outcome.returned
            { rgb with
              chans := 3
              depth := 0
              data := (normalizeMinMax (F := F) rgb.depth (scaledData p1 rgb)).map
                (fun (px : List Int) => px.map (saturate 0)) },
            p1) := by
    intro p1 hp1
    rw [applyWhiteBalance_params] at hp1
    unfold applyWhiteBalance
    by_cases ha : p.auto_wb = true
    · rw [if_pos ha, cvMean_three_channels rgb hch] at hp1
      simp only at hp1
      simp only [ha, if_true, cvMean_three_channels rgb hch]
      rw [hp1]
      exact white_balance_channels p1 rgb hch
    · rw [if_neg ha] at hp1
      simp only [ha, Bool.false_eq_true, if_false]
      rw [hp1]
      exact white_balance_channels p1 rgb hch
  rw [hpair _ rfl]

/-! ## The smallest and the largest sample -/

theorem foldl_min_le (l : List Int) : ∀ init : Int,
    l.foldl min init ≤ init ∧ ∀ x ∈ l, l.foldl min init ≤ x := by
  induction l with
  | nil =>
    intro init
    exact ⟨le_refl _, fun x hx => by simp at hx⟩
  | cons a t ih =>
    intro init
    rw [List.foldl_cons]
    obtain ⟨h1, h2⟩ := ih (min init a)
    refine ⟨le_trans h1 (min_le_left _ _), ?_⟩
    intro x hx
    rcases List.mem_cons.mp hx with h | h
    · rw [h]
      exact le_trans h1 (min_le_right _ _)
    · exact h2 x h

theorem le_foldl_max (l : List Int) : ∀ init : Int,
    init ≤ l.foldl max init ∧ ∀ x ∈ l, x ≤ l.foldl max init := by
  induction l with
  | nil =>
    intro init
    exact ⟨le_refl _, fun x hx => by simp at hx⟩
  | cons a t ih =>
    intro init
    rw [List.foldl_cons]
    obtain ⟨h1, h2⟩ := ih (max init a)
    refine ⟨le_trans (le_max_left _ _) h1, ?_⟩
    intro x hx
    rcases List.mem_cons.mp hx with h | h
    · rw [h]
      exact le_trans (le_max_right _ _) h1
    · exact h2 x h

theorem foldl_min_mem (l : List Int) : ∀ init : Int,
    l.foldl min init = init ∨ l.foldl min init ∈ l := by
  induction l with
  | nil =>
    intro init
    exact Or.inl rfl
  | cons a t ih =>
    intro init
    rw [List.foldl_cons]
    rcases ih (min init a) with h | h
    · rw [h]
      rcases min_choice init a with hm | hm
      · exact Or.inl hm
      · right
        rw [hm]
        exact List.mem_cons_self _ _
    · exact Or.inr (List.mem_cons_of_mem _ h)

theorem foldl_max_mem (l : List Int) : ∀ init : Int,
    l.foldl max init = init ∨ l.foldl max init ∈ l := by
  induction l with
  | nil =>
    intro init
    exact Or.inl rfl
  | cons a t ih =>
    intro init
    rw [List.foldl_cons]
    rcases ih (max init a) with h | h
    · rw [h]
      rcases max_choice init a with hm | hm
      · exact Or.inl hm
      · right
        rw [hm]
        exact List.mem_cons_self _ _
    · exact Or.inr (List.mem_cons_of_mem _ h)

theorem sample_between (data : List (List Int)) (px : List Int) (hpx : px ∈ data) (w : Int)
    (hw : w ∈ px) : minSample data ≤ w ∧ w ≤ maxSample data := by
  have hmem : w ∈ data.flatten := List.mem_flatten.mpr ⟨px, hpx, hw⟩
  exact ⟨(foldl_min_le data.flatten _).2 w hmem, (le_foldl_max data.flatten _).2 w hmem⟩

theorem headD_mem (l : List Int) (h : l ≠ []) : l.headD 0 ∈ l := by
  cases l with
  | nil => exact absurd rfl h
  | cons a t => exact List.mem_cons_self _ _

theorem minSample_mem (data : List (List Int)) (h : data.flatten ≠ []) :
    minSample data ∈ data.flatten := by
  unfold minSample
  rcases foldl_min_mem data.flatten (data.flatten.headD 0) with hm | hm
  · rw [hm]
    exact headD_mem _ h
  · exact hm

theorem maxSample_mem (data : List (List Int)) (h : data.flatten ≠ []) :
    maxSample data ∈ data.flatten := by
  unfold maxSample
  rcases foldl_max_mem data.flatten (data.flatten.headD 0) with hm | hm
  · rw [hm]
    exact headD_mem _ h
  · exact hm

theorem min_lt_max_nonempty (data : List (List Int)) (h : minSample data < maxSample data) :
    data.flatten ≠ [] := by
  intro hnil
  unfold minSample maxSample at h
  rw [hnil] at h
  simp at h

/-! ## The min-max stretch -/

theorem stretch_value_range {F : Type} [LinearOrderedField F] (lo hi w : Int)
    (hlt : lo < hi) (h1 : lo ≤ w) (h2 : w ≤ hi) :
    (0 : F) ≤ (((w - lo : Int) : F) * 255) / ((hi - lo : Int) : F) ∧
    (((w - lo : Int) : F) * 255) / ((hi - lo : Int) : F) ≤ ((255 : Int) : F) := by
  have hd : (0 : F) < ((hi - lo : Int) : F) := by
    have : (0 : Int) < hi - lo := by omega
    exact_mod_cast this
  have hn : (0 : F) ≤ ((w - lo : Int) : F) := by
    have : (0 : Int) ≤ w - lo := by omega
    exact_mod_cast this
  have hle : ((w - lo : Int) : F) ≤ ((hi - lo : Int) : F) := by
    have : w - lo ≤ hi - lo := by omega
    exact_mod_cast this
  constructor
  · exact div_nonneg (mul_nonneg hn (by norm_num)) (le_of_lt hd)
  · rw [div_le_iff₀ hd]
    push_cast
    push_cast at hle
    nlinarith

theorem normalize_sample_8U {F : Type} [LinearOrderedField F] [FloorRing F]
    (lo hi w : Int) (h1 : lo ≤ w) (h2 : w ≤ hi) :
    saturate 0
        (saturateCast 0
          ((w : F) * (if lo < hi then 255 / (((hi - lo : Int)) : F) else 0) +
            (0 - (lo : F) * (if lo < hi then 255 / (((hi - lo : Int)) : F) else 0))))
      = stretchSample (F := F) lo hi w := by
  unfold stretchSample saturateCast
  by_cases hlt : lo < hi
  · simp only [if_pos hlt]
    have hval : (w : F) * (255 / (((hi - lo : Int)) : F)) +
        (0 - (lo : F) * (255 / (((hi - lo : Int)) : F)))
        = (((w - lo : Int) : F) * 255) / ((hi - lo : Int) : F) := by
      push_cast
      ring
    rw [hval]
    obtain ⟨hr0, hr1⟩ := stretch_value_range (F := F) lo hi w hlt h1 h2
    rw [saturate_8U_of_range _ (cvRound_nonneg _ hr0) (cvRound_le _ 255 hr1),
      saturate_8U_of_range _ (cvRound_nonneg _ hr0) (cvRound_le _ 255 hr1)]
  · simp only [if_neg hlt]
    have hval : (w : F) * 0 + (0 - (lo : F) * 0) = ((0 : Int) : F) := by
      push_cast
      ring
    rw [hval, cvRound_intCast]
    rfl

theorem normalize_8U {F : Type} [LinearOrderedField F] [FloorRing F]
    (data : List (List Int)) :
    (normalizeMinMax (F := F) 0 data).map (fun (px : List Int) => px.map (saturate 0))
      = stretchedData (F := F) data := by
  unfold normalizeMinMax stretchedData
  simp only [List.map_map]
  apply List.map_congr_left
  intro px hpx
  simp only [Function.comp_apply, List.map_map]
  apply List.map_congr_left
  intro w hw
  obtain ⟨h1, h2⟩ := sample_between data px hpx w hw
  exact normalize_sample_8U (F := F) (minSample data) (maxSample data) w h1 h2

theorem stretchSample_lo {F : Type} [LinearOrderedField F] [FloorRing F] (lo hi : Int)
    (hlt : lo < hi) : stretchSample (F := F) lo hi lo = 0 := by
  unfold stretchSample
  rw [if_pos hlt]
  have hval : (((lo - lo : Int) : F) * 255) / ((hi - lo : Int) : F) = ((0 : Int) : F) := by
    simp
  rw [hval, cvRound_intCast]

theorem stretchSample_hi {F : Type} [LinearOrderedField F] [FloorRing F] (lo hi : Int)
    (hlt : lo < hi) : stretchSample (F := F) lo hi hi = 255 := by
  unfold stretchSample
  rw [if_pos hlt]
  have hd : ((hi - lo : Int) : F) ≠ 0 := by
    have : hi - lo ≠ 0 := by omega
    exact_mod_cast this
  have hval : (((hi - lo : Int) : F) * 255) / ((hi - lo : Int) : F) = ((255 : Int) : F) := by
    rw [mul_comm, mul_div_assoc, div_self hd]
    push_cast
    ring
  rw [hval, cvRound_intCast]

/-! ## The white-balance stage stretches its result -/

theorem applyWhiteBalance_stretched {F : Type} [LinearOrderedField F] [FloorRing F]
    (p : ISPParameters F) (rgb : PixelBuffer) (hch : rgb.chans = 3) (h8 : rgb.depth = 0) :
    (applyWhiteBalance p rgb).1
      = Outcome.returned
          { rgb with
            chans := 3
            depth := 0
            data := stretchedData (F := F) (scaledData (applyWhiteBalance p rgb).2 rgb) } := by
  rw [applyWhiteBalance_three_channels p rgb hch]
  simp only [h8]
  rw [normalize_8U]

theorem stretchedData_has_ends {F : Type} [LinearOrderedField F] [FloorRing F]
    (data : List (List Int)) (hlt : minSample data < maxSample data) :
    (0 : Int) ∈ (stretchedData (F := F) data).flatten ∧
    (255 : Int) ∈ (stretchedData (F := F) data).flatten := by
  have hne := min_lt_max_nonempty data hlt
  obtain ⟨pxlo, hpxlo, hlo⟩ := List.mem_flatten.mp (minSample_mem data hne)
  obtain ⟨pxhi, hpxhi, hhi⟩ := List.mem_flatten.mp (maxSample_mem data hne)
  unfold stretchedData
  constructor
  · refine List.mem_flatten.mpr ⟨_, List.mem_map_of_mem _ hpxlo, ?_⟩
    rw [← stretchSample_lo (F := F) (minSample data) (maxSample data) hlt]
    exact List.mem_map_of_mem _ hlo
  · refine List.mem_flatten.mpr ⟨_, List.mem_map_of_mem _ hpxhi, ?_⟩
    rw [← stretchSample_hi (F := F) (minSample data) (maxSample data) hlt]
    exact List.mem_map_of_mem _ hhi

theorem stretchedData_flat {F : Type} [LinearOrderedField F] [FloorRing F]
    (data : List (List Int)) (hlt : ¬ minSample data < maxSample data) :
    ∀ v ∈ (stretchedData (F := F) data).flatten, v = 0 := by
  intro v hv
  unfold stretchedData at hv
  obtain ⟨px, hpx, hvpx⟩ := List.mem_flatten.mp hv
  obtain ⟨px0, _, rfl⟩ := List.mem_map.mp hpx
  obtain ⟨w, _, rfl⟩ := List.mem_map.mp hvpx
  unfold stretchSample
  rw [if_neg hlt]

theorem scaledData_unit_gains {F : Type} [LinearOrderedField F] [FloorRing F]
    (p : ISPParameters F) (rgb : PixelBuffer) (hch : rgb.chans = 3) (h8 : rgb.depth = 0)
    (hwf : rgb.wellFormed) (hr : p.wb_red = 1) (hg : p.wb_green = 1) (hb : p.wb_blue = 1) :
    scaledData p rgb = rgb.data := by
  unfold scaledData
  obtain ⟨_, _, hpx⟩ := hwf
  have hid : ∀ px ∈ rgb.data, scaledPixel p rgb.depth px = px := by
    intro px hmem
    obtain ⟨hlen, hrange⟩ := hpx px hmem
    rw [hch] at hlen
    rw [h8] at hrange
    match px, hlen with
    | [a, b, c], _ =>
      have ha := hrange a (by simp)
      have hb2 := hrange b (by simp)
      have hc := hrange c (by simp)
      simp only [depthMin, depthMax] at ha hb2 hc
      simp only [scaledPixel, h8, hr, hg, hb, mul_one, saturateCast, cvRound_intCast,
        List.getD_cons_zero, List.getD_cons_succ,
        saturate_8U_of_range a ha.1 ha.2, saturate_8U_of_range b hb2.1 hb2.2,
        saturate_8U_of_range c hc.1 hc.2]
  calc rgb.data.map (scaledPixel p rgb.depth) = rgb.data.map id :=
        List.map_congr_left (fun px hmem => hid px hmem)
    _ = rgb.data := List.map_id _

theorem stretchedData_identity_iff {F : Type} [LinearOrderedField F] [FloorRing F]
    (data : List (List Int))
    (hrange : ∀ px ∈ data, ∀ v ∈ px, (0 : Int) ≤ v ∧ v ≤ 255) :
    stretchedData (F := F) data = data ↔
      (((0 : Int) ∈ data.flatten ∧ (255 : Int) ∈ data.flatten) ∨
        ∀ v ∈ data.flatten, v = 0) := by
  have hflat : ∀ v ∈ data.flatten, (0 : Int) ≤ v ∧ v ≤ 255 := by
    intro v hv
    obtain ⟨px, hpx, hvpx⟩ := List.mem_flatten.mp hv
    exact hrange px hpx v hvpx
  constructor
  · intro hid
    by_cases hlt : minSample data < maxSample data
    · left
      have hends := stretchedData_has_ends (F := F) data hlt
      rw [hid] at hends
      exact hends
    · right
      have hzero := stretchedData_flat (F := F) data hlt
      rw [hid] at hzero
      exact hzero
  · intro h
    have hmap : ∀ px ∈ data, ∀ w ∈ px,
        stretchSample (F := F) (minSample data) (maxSample data) w = w := by
      intro px hpx w hw
      have hwflat : w ∈ data.flatten := List.mem_flatten.mpr ⟨px, hpx, hw⟩
      have hne : data.flatten ≠ [] := List.ne_nil_of_mem hwflat
      rcases h with ⟨h0, h255⟩ | hall
      · have hlo : minSample data = 0 :=
          le_antisymm ((foldl_min_le data.flatten _).2 0 h0) (hflat _ (minSample_mem data hne)).1
        have hhi : maxSample data = 255 :=
          le_antisymm (hflat _ (maxSample_mem data hne)).2 ((le_foldl_max data.flatten _).2 255 h255)
        rw [hlo, hhi]
        unfold stretchSample
        rw [if_pos (by norm_num)]
        have hval : (((w - 0 : Int) : F) * 255) / (((255 : Int) - 0 : Int) : F) = (w : F) := by
          push_cast
          field_simp
        rw [hval, cvRound_intCast]
      · have hlo : minSample data = 0 := hall _ (minSample_mem data hne)
        have hhi : maxSample data = 0 := hall _ (maxSample_mem data hne)
        rw [hlo, hhi]
        unfold stretchSample
        rw [if_neg (by norm_num)]
        exact (hall w hwflat).symm
    unfold stretchedData
    calc data.map (fun (px : List Int) =>
            px.map (stretchSample (F := F) (minSample data) (maxSample data)))
        = data.map id := by
          apply List.map_congr_left
          intro px hpx
          calc px.map (stretchSample (F := F) (minSample data) (maxSample data))
              = px.map id := List.map_congr_left (fun w hw => hmap px hpx w hw)
            _ = px := List.map_id _
      _ = data := List.map_id _

theorem manualPipeline_params :
    manualPipeline.params_.auto_wb = false ∧ manualPipeline.params_.wb_red = 1 ∧
    manualPipeline.params_.wb_green = 1 ∧ manualPipeline.params_.wb_blue = 1 :=
  ⟨rfl, rfl, rfl, rfl⟩

theorem blackPixel_wellFormed : blackPixel.wellFormed := by
  simp [PixelBuffer.wellFormed, blackPixel, depthMin, depthMax]

theorem applyWhiteBalance_manual_unit {F : Type} [LinearOrderedField F] [FloorRing F]
    (p : ISPParameters F) (rgb : PixelBuffer) (hch : rgb.chans = 3) (h8 : rgb.depth = 0)
    (hwf : rgb.wellFormed) (hauto : p.auto_wb = false)
    (hr : p.wb_red = 1) (hg : p.wb_green = 1) (hb : p.wb_blue = 1) :
    (applyWhiteBalance p rgb).1
      = Outcome.returned
          { rgb with chans := 3, depth := 0, data := stretchedData (F := F) rgb.data } := by
  have hq : (applyWhiteBalance p rgb).2 = p := by
    rw [applyWhiteBalance_params, hauto]
    simp
  rw [applyWhiteBalance_stretched p rgb hch h8, hq,
    scaledData_unit_gains p rgb hch h8 hwf hr hg hb]

/-- C30, as stated, fails in its last sentence: with manual gains all equal to
1 the white-balance stage returns the 1x1 image with the pixel `(0, 0, 0)`
unchanged, although that image contains no 255. -/
theorem white_balance_identity_on_black :
    manualPipeline.params_.auto_wb = false ∧
    manualPipeline.params_.wb_red = 1 ∧ manualPipeline.params_.wb_green = 1 ∧
    manualPipeline.params_.wb_blue = 1 ∧
    blackPixel.chans = 3 ∧ blackPixel.depth = 0 ∧
    (applyWhiteBalance manualPipeline.params_ blackPixel).1 = Outcome.returned blackPixel ∧
    (255 : Int) ∉ blackPixel.data.flatten := by
  refine ⟨rfl, rfl, rfl, rfl, rfl, rfl, ?_, by decide⟩
  rw [applyWhiteBalance_manual_unit manualPipeline.params_ blackPixel rfl rfl
    blackPixel_wellFormed rfl rfl rfl rfl]
  have hid : stretchedData (F := ℚ) blackPixel.data = blackPixel.data := by
    rw [stretchedData_identity_iff]
    · right
      decide
    · decide
  rw [hid]
  rfl

theorem scaledData_range {F : Type} [LinearOrderedField F] [FloorRing F]
    (p : ISPParameters F) (rgb : PixelBuffer) (h8 : rgb.depth = 0) :
    ∀ px ∈ scaledData p rgb, ∀ w ∈ px, (0 : Int) ≤ w ∧ w ≤ 255 := by
  intro px hpx w hw
  unfold scaledData at hpx
  obtain ⟨px0, _, rfl⟩ := List.mem_map.mp hpx
  simp only [scaledPixel, h8, saturateCast, List.mem_cons, List.mem_singleton,
    List.not_mem_nil, or_false] at hw
  rcases hw with h | h | h <;> rw [h] <;> exact saturate_8U_range _

/-- C30, amended: for every 3-channel 8-bit image the white-balance stage
min-max stretches its result: with `w` the gain-scaled sample saturated to
`0 .. 255` and `lo`, `hi` the smallest and largest `w` over all samples of all
channels, each output sample is `round ((w - lo) * 255 / (hi - lo))` when
`hi > lo`, and then the output contains a 0 and a 255; when `hi = lo` every
output sample is 0. Hence with manual gains all equal to 1 the stage is the
identity on a well-formed image exactly when the image contains both a 0 and a
255 or all its samples are 0. -/
theorem white_balance_min_max_stretch {F : Type} [LinearOrderedField F] [FloorRing F]
    (p : ISPParameters F) (rgb : PixelBuffer) (hch : rgb.chans = 3) (h8 : rgb.depth = 0) :
    (applyWhiteBalance p rgb).1
      = Outcome.returned
          { rgb with
            chans := 3
            depth := 0
            data := (scaledData (applyWhiteBalance p rgb).2 rgb).map
              (fun (px : List Int) =>
                px.map (stretchSample (F := F)
                  (minSample (scaledData (applyWhiteBalance p rgb).2 rgb))
                  (maxSample (scaledData (applyWhiteBalance p rgb).2 rgb)))) } ∧
    (∀ px ∈ scaledData (applyWhiteBalance p rgb).2 rgb, ∀ w ∈ px, (0 : Int) ≤ w ∧ w ≤ 255) ∧
    (∀ lo hi w : Int, lo < hi →
      stretchSample (F := F) lo hi w
        = cvRound ((((w - lo : Int) : F) * 255) / ((hi - lo : Int) : F))) ∧
    (∀ lo hi w : Int, ¬ lo < hi → stretchSample (F := F) lo hi w = 0) ∧
    (minSample (scaledData (applyWhiteBalance p rgb).2 rgb)
        < maxSample (scaledData (applyWhiteBalance p rgb).2 rgb) →
      (0 : Int) ∈ (stretchedData (F := F) (scaledData (applyWhiteBalance p rgb).2 rgb)).flatten ∧
      (255 : Int)
        ∈ (stretchedData (F := F) (scaledData (applyWhiteBalance p rgb).2 rgb)).flatten) ∧
    (¬ minSample (scaledData (applyWhiteBalance p rgb).2 rgb)
        < maxSample (scaledData (applyWhiteBalance p rgb).2 rgb) →
      ∀ v ∈ (stretchedData (F := F) (scaledData (applyWhiteBalance p rgb).2 rgb)).flatten,
        v = 0) ∧
    (rgb.wellFormed → p.auto_wb = false → p.wb_red = 1 → p.wb_green = 1 → p.wb_blue = 1 →
      ((applyWhiteBalance p rgb).1 = Outcome.returned rgb ↔
        (((0 : Int) ∈ rgb.data.flatten ∧ (255 : Int) ∈ rgb.data.flatten) ∨
          ∀ v ∈ rgb.data.flatten, v = 0))) := by
  refine ⟨applyWhiteBalance_stretched p rgb hch h8, scaledData_range _ rgb h8, ?_, ?_,
    stretchedData_has_ends _, stretchedData_flat _, ?_⟩
  · intro lo hi w hlt
    unfold stretchSample
    rw [if_pos hlt]
  · intro lo hi w hlt
    unfold stretchSample
    rw [if_neg hlt]
  · intro hwf hauto hr hg hb
    rw [applyWhiteBalance_manual_unit p rgb hch h8 hwf hauto hr hg hb]
    have hrange : ∀ px ∈ rgb.data, ∀ v ∈ px, (0 : Int) ≤ v ∧ v ≤ 255 := by
      intro px hpx v hv
      have h := (hwf.2.2 px hpx).2 v hv
      rw [h8] at h
      exact h
    rw [← stretchedData_identity_iff (F := F) rgb.data hrange]
    obtain ⟨rows, cols, chans, depth, data⟩ := rgb
    simp only at hch h8
    subst hch h8
    simp

theorem white_balance_min_max_stretch_witness :
    onePixel.chans = 3 ∧ onePixel.depth = 0 ∧
    (∀ px ∈ scaledData (applyWhiteBalance freshPipeline.params_ onePixel).2 onePixel,
      ∀ w ∈ px, (0 : Int) ≤ w ∧ w ≤ 255) :=
  ⟨rfl, rfl,
    (white_balance_min_max_stretch freshPipeline.params_ onePixel rfl rfl).2.1⟩

end Camera
